import Mathlib

/-!
# Task distribution runtime (`kernel/src/vx_spawn.c`)

A shallow embedding of the two dispatch entry points `vx_spawn_tasks` and
`vx_spawn_pocl_kernel`, of the four stub routines the waves execute, and of the
helpers `is_log2` and `log2_fast`.

Conventions of the embedding.

* A C `int` is a mathematical integer (`Int`).  Signed overflow is undefined in C, so the
  embedding describes the runs in which every intermediate value is representable; the
  bit-level helpers (`is_log2`, `__builtin_clz`) work on the 32-bit two's complement
  pattern of their argument, obtained with an explicit reduction modulo `2 ^ 32`.
* C division truncates towards zero: it is `Int.tdiv`.
* The user callback is not interpreted.  A stub returns the list of argument tuples it
  passes to the callback, in program order.
* A `for` loop is run with a fuel counter and returns `none` when the fuel is exhausted.
* The topology queries `vx_num_cores()`, `vx_num_warps()`, `vx_num_threads()` and the
  identifiers `vx_core_id()`, `vx_warp_id()`, `vx_thread_id()` are parameters
  (`NC`, `NW`, `NT`, `core_id`, `wid`, `tid`).
* The initiating lane of a core produces a list of substrate operations (`Op`); the
  substrate (`exec_op`, `run_core`) gives them their meaning: which waves and lanes run
  which stub against the published descriptor.
-/

namespace Vortex

/-! ## Constants, macros and descriptor types -/

/-- The macro `NUM_CORES_MAX`. -/
def NUM_CORES_MAX : Int := 1024

/-- The macro `MIN(a, b) = ((a) < (b) ? (a) : (b))`. -/
def MIN (a b : Int) : Int := if a < b then a else b

/-- The integer value of a C comparison: `1` when it holds and `0` otherwise. -/
def c_bool (b : Bool) : Int := if b then 1 else 0

/-- The descriptor `wspawn_tasks_args_t` without its two uninterpreted members
(`callback`, `arg`). -/
structure wspawn_tasks_args_t where
  offset : Int
  remain : Int
  FWs : Int
  RWs : Int
deriving DecidableEq

/-- Modelled from the spec: the type `pocl_kernel_context_t` is declared in `vx_spawn.h`,
which is not part of the sources at hand.  Only the members read by `vx_spawn.c` are kept:
the grid dimensions `num_groups[0..2]` (X, Y, Z) and the local group size
`local_size[0..2]`. -/
structure pocl_kernel_context_t where
  num_groups0 : Int
  num_groups1 : Int
  num_groups2 : Int
  local_size0 : Int
  local_size1 : Int
  local_size2 : Int
deriving DecidableEq

/-- The descriptor `wspawn_pocl_kernel_args_t` without its uninterpreted members
(`callback`, `arg`).  The three `char` members hold integers. -/
structure wspawn_pocl_kernel_args_t where
  ctx : pocl_kernel_context_t
  local_size : Int
  offset : Int
  remain : Int
  FWs : Int
  RWs : Int
  isXYpow2 : Int
  log2XY : Int
  log2X : Int
deriving DecidableEq

/-- One invocation `callback(arg, ctx, i, j, k, local_offset)` of a grid callback. -/
structure pocl_call where
  i : Int
  j : Int
  k : Int
  local_offset : Int
deriving DecidableEq

/-! ## Bit-level helpers -/

/-- The 32-bit two's complement pattern of a C `int`, as a natural number below `2 ^ 32`. -/
def to_u32 (x : Int) : Nat := (x % 2 ^ 32).toNat

/-- Conversion of an `int` to `char` (unsigned in the RISC-V ABI): reduction modulo `2 ^ 8`. -/
def to_char (x : Int) : Int := x % 2 ^ 8

/-- The helper `is_log2`: `(x & (x-1)) == 0`, as the `char` `1` or `0`.  The conjunction is taken
on the 32-bit patterns. -/
def is_log2 (x : Int) : Int :=
  c_bool (Nat.land (to_u32 x) (to_u32 (x - 1)) == 0)

/-- The compiler builtin `__builtin_clz` on a 32-bit word: the number of leading zero bits, counted
from bit 31 downwards until the first bit that is set. -/
def builtin_clz (u : Nat) : Nat :=
  ((List.range 32).reverse.takeWhile (fun i => !u.testBit i)).length

/-- The helper `log2_fast`: `31 - __builtin_clz(x)`. -/
def log2_fast (x : Int) : Int := 31 - (builtin_clz (to_u32 x) : Int)

/-! ## Stub routines of the flat dispatch -/

/-- The loop `for (task_id = ..., N = ...; task_id < N; task_id += NT) callback(task_id, arg)`
of `spawn_tasks_all_stub`, started at `task_id`.  The result lists the `task_id`
arguments of the callback invocations. -/
def tasks_loop (NT N : Int) : Nat → Int → Option (List Int)
  | 0, _ => none
  | fuel + 1, task_id =>
    if task_id < N then
      (tasks_loop NT N fuel (task_id + NT)).map (fun rest => task_id :: rest)
    else some []

/-- The routine `spawn_tasks_all_stub`, run by lane `tid` of wave `wid` against the descriptor read
from the scratch register. -/
def spawn_tasks_all_stub (fuel : Nat) (NT wid tid : Int) (p_wspawn_args : wspawn_tasks_args_t) :
    Option (List Int) :=
  let wK := (p_wspawn_args.FWs * wid) + MIN p_wspawn_args.RWs wid
  let tK := p_wspawn_args.FWs + c_bool (decide (wid < p_wspawn_args.RWs))
  let offset := p_wspawn_args.offset + (wK * NT) + tid
  tasks_loop NT (offset + tK * NT) fuel offset

/-- The routine `spawn_tasks_rem_stub`, run by lane `tid`: one call, on `remain + tid`. -/
def spawn_tasks_rem_stub (tid : Int) (p_wspawn_args : wspawn_tasks_args_t) : List Int :=
  let task_id := p_wspawn_args.remain + tid
  [task_id]

/-! ## Stub routines of the grid dispatch -/

/-- The body of the loop on the fast path (`isXYpow2` set): decomposition of `wg_id` with shifts. -/
def pocl_body_pow2 (p_wspawn_args : wspawn_pocl_kernel_args_t) (X XY wg_id : Int) : pocl_call :=
  let k := wg_id >>> p_wspawn_args.log2XY
  let wg_2d := wg_id - k * XY
  let j := wg_2d >>> p_wspawn_args.log2X
  let i := wg_2d - j * X
  let local_offset := wg_id * p_wspawn_args.local_size
  { i := i, j := j, k := k, local_offset := local_offset }

/-- The body of the loop on the general path: decomposition of `wg_id` with divisions. -/
def pocl_body_div (p_wspawn_args : wspawn_pocl_kernel_args_t) (X XY wg_id : Int) : pocl_call :=
  let k := Int.tdiv wg_id XY
  let wg_2d := wg_id - k * XY
  let j := Int.tdiv wg_2d X
  let i := wg_2d - j * X
  let local_offset := wg_id * p_wspawn_args.local_size
  { i := i, j := j, k := k, local_offset := local_offset }

/-- One of the two loops `for (wg_id = offset, N = ...; wg_id < N; wg_id += NT) { ... }` of
`spawn_pocl_kernel_all_stub`, with the given loop body. -/
def pocl_loop (body : Int → pocl_call) (NT N : Int) : Nat → Int → Option (List pocl_call)
  | 0, _ => none
  | fuel + 1, wg_id =>
    if wg_id < N then
      (pocl_loop body NT N fuel (wg_id + NT)).map (fun rest => body wg_id :: rest)
    else some []

/-- The routine `spawn_pocl_kernel_all_stub`, run by lane `tid` of wave `wid`. -/
def spawn_pocl_kernel_all_stub (fuel : Nat) (NT wid tid : Int)
    (p_wspawn_args : wspawn_pocl_kernel_args_t) : Option (List pocl_call) :=
  let ctx := p_wspawn_args.ctx
  let wK := (p_wspawn_args.FWs * wid) + MIN p_wspawn_args.RWs wid
  let tK := p_wspawn_args.FWs + c_bool (decide (wid < p_wspawn_args.RWs))
  let offset := p_wspawn_args.offset + (wK * NT) + tid
  let X := ctx.num_groups0
  let Y := ctx.num_groups1
  let XY := X * Y
  if p_wspawn_args.isXYpow2 ≠ 0 then
    pocl_loop (pocl_body_pow2 p_wspawn_args X XY) NT (offset + tK * NT) fuel offset
  else
    pocl_loop (pocl_body_div p_wspawn_args X XY) NT (offset + tK * NT) fuel offset

/-- The routine `spawn_pocl_kernel_rem_stub`, run by lane `tid`: one call, on `remain + tid`. -/
def spawn_pocl_kernel_rem_stub (tid : Int) (p_wspawn_args : wspawn_pocl_kernel_args_t) :
    List pocl_call :=
  let ctx := p_wspawn_args.ctx
  let X := ctx.num_groups0
  let Y := ctx.num_groups1
  let XY := X * Y
  let wg_id := p_wspawn_args.remain + tid
  if p_wspawn_args.isXYpow2 ≠ 0 then
    [pocl_body_pow2 p_wspawn_args X XY wg_id]
  else
    [pocl_body_div p_wspawn_args X XY wg_id]

/-! ## Substrate operations issued by the initiating lane -/

/-- The operations the initiating lane of a core issues on the execution substrate, in program
order.  `D` is the type of the descriptor written to the scratch register. -/
inductive Op (D : Type) where
  /-- Write the address of the descriptor to the scratch register: `csr_write(VX_CSR_MSCRATCH, _)`. -/
  | csr_write (d : D)
  /-- Request the waves: `vx_wspawn(nw, _all_cb)`. -/
  | wspawn (nw : Int)
  /-- Set the lane mask of the current wave: `vx_tmc(mask)`. -/
  | tmc (mask : Int)
  /-- Call the bulk stub (`spawn_tasks_all_stub` or `spawn_pocl_kernel_all_stub`) inline. -/
  | all_stub
  /-- Call the remainder stub (`spawn_tasks_rem_stub` or `spawn_pocl_kernel_rem_stub`) inline. -/
  | rem_stub
  /-- Back to a single lane: `vx_tmc_one()`. -/
  | tmc_one
  /-- Wait for the spawned waves: `vx_wspawn_wait()`. -/
  | wspawn_wait
deriving DecidableEq

/-! ## The flat dispatch `vx_spawn_tasks` -/

/-- The local variables of `vx_spawn_tasks` once the descriptor members are computed. -/
structure spawn_locals where
  WT : Int
  nC : Int
  nc : Int
  tasks_per_core : Int
  tasks_per_core_n1 : Int
  TW : Int
  rT : Int
  fW : Int
  rW : Int
  offset : Int
  remain : Int
deriving DecidableEq

/-- The arithmetic of `vx_spawn_tasks` (`int WT = NW * NT;` down to `int remain = ...;`) for the
core `core_id`, as the values of its local variables. -/
def vx_spawn_tasks_locals (NC NW NT core_id num_tasks : Int) : spawn_locals :=
  -- calculate necessary active cores
  let WT := NW * NT
  let nC := if num_tasks > WT then Int.tdiv num_tasks WT else 1
  let nc := MIN nC NC
  -- number of tasks per core
  let tasks_per_core := Int.tdiv num_tasks nc
  let tasks_per_core_n1 :=
    if core_id = nc - 1 then
      let rem := num_tasks - (nc * tasks_per_core)
      tasks_per_core + rem
    else tasks_per_core
  -- number of tasks per warp
  let TW := Int.tdiv tasks_per_core_n1 NT
  let rT := tasks_per_core_n1 - TW * NT
  let fW := if TW ≥ NW then Int.tdiv TW NW else 1
  let rW := if TW ≥ NW then TW - (Int.tdiv TW NW) * NW else 0
  let offset := core_id * tasks_per_core
  let remain := offset + (tasks_per_core_n1 - rT)
  { WT := WT, nC := nC, nc := nc, tasks_per_core := tasks_per_core,
    tasks_per_core_n1 := tasks_per_core_n1, TW := TW, rT := rT, fW := fW, rW := rW,
    offset := offset, remain := remain }

/-- The tail of both dispatch functions, from the write of the descriptor `d` to the join. -/
def spawn_ops {D : Type} (d : D) (NW TW rT : Int) : List (Op D) :=
  [Op.csr_write d]
  ++ (if TW ≥ 1 then
        -- execute callback on other warps, activate all threads, call stub routine,
        -- back to single-threaded
        let nw := MIN TW NW
        [Op.wspawn nw, Op.tmc (-1), Op.all_stub, Op.tmc_one]
      else [])
  ++ (if rT ≠ 0 then
        -- activate remaining threads, call stub routine, back to single-threaded
        let tmask := ((1 : Int) <<< rT) - 1
        [Op.tmc tmask, Op.rem_stub, Op.tmc_one]
      else [])
  -- wait for spawn warps to terminate
  ++ [Op.wspawn_wait]

/-- The function `vx_spawn_tasks(num_tasks, callback, arg)` run by the initiating lane of the core
`core_id` on a device with `NC` cores, `NW` waves per core and `NT` lanes per wave: the
substrate operations it issues.  The two early returns issue nothing. -/
def vx_spawn_tasks (NC NW NT core_id num_tasks : Int) : List (Op wspawn_tasks_args_t) :=
  if core_id ≥ NUM_CORES_MAX then []
  else
    let v := vx_spawn_tasks_locals NC NW NT core_id num_tasks
    if core_id ≥ v.nc then [] -- terminate extra cores
    else
      let wspawn_args : wspawn_tasks_args_t :=
        { offset := v.offset, remain := v.remain, FWs := v.fW, RWs := v.rW }
      spawn_ops wspawn_args NW v.TW v.rT

/-! ## The grid dispatch `vx_spawn_pocl_kernel` -/

/-- The arithmetic of `vx_spawn_pocl_kernel` on the task count (`int WT = NW * NT;` down to
`int remain = ...;`, the fast path variables apart), as the values of its local variables. -/
def vx_spawn_pocl_kernel_locals (ctx : pocl_kernel_context_t) (NC NW NT core_id : Int) :
    spawn_locals :=
  -- total number of WGs
  let X := ctx.num_groups0
  let Y := ctx.num_groups1
  let Z := ctx.num_groups2
  let XY := X * Y
  let num_tasks := XY * Z
  -- calculate necessary active cores
  let WT := NW * NT
  let nC := if num_tasks > WT then Int.tdiv num_tasks WT else 1
  let nc := MIN nC NC
  -- number of tasks per core
  let tasks_per_core := Int.tdiv num_tasks nc
  let tasks_per_core_n1 :=
    if core_id = nc - 1 then
      let rem := num_tasks - (nc * tasks_per_core)
      tasks_per_core + rem
    else tasks_per_core
  -- number of tasks per warp
  let TW := Int.tdiv tasks_per_core_n1 NT
  let rT := tasks_per_core_n1 - TW * NT
  let fW := if TW ≥ NW then Int.tdiv TW NW else 1
  let rW := if TW ≥ NW then TW - (Int.tdiv TW NW) * NW else 0
  let offset := core_id * tasks_per_core
  let remain := offset + (tasks_per_core_n1 - rT)
  { WT := WT, nC := nC, nc := nc, tasks_per_core := tasks_per_core,
    tasks_per_core_n1 := tasks_per_core_n1, TW := TW, rT := rT, fW := fW, rW := rW,
    offset := offset, remain := remain }

/-- The function `vx_spawn_pocl_kernel(ctx, callback, arg)` run by the initiating lane of the core
`core_id`: the substrate operations it issues. -/
def vx_spawn_pocl_kernel (ctx : pocl_kernel_context_t) (NC NW NT core_id : Int) :
    List (Op wspawn_pocl_kernel_args_t) :=
  let X := ctx.num_groups0
  let Y := ctx.num_groups1
  let XY := X * Y
  if core_id ≥ NUM_CORES_MAX then []
  else
    let v := vx_spawn_pocl_kernel_locals ctx NC NW NT core_id
    if core_id ≥ v.nc then [] -- terminate extra cores
    else
      -- fast path handling
      let isXYpow2 := is_log2 XY
      let log2XY := to_char (log2_fast XY)
      let log2X := to_char (log2_fast X)
      let local_size := ctx.local_size0 * ctx.local_size1 * ctx.local_size2
      let wspawn_args : wspawn_pocl_kernel_args_t :=
        { ctx := ctx, local_size := local_size, offset := v.offset, remain := v.remain,
          FWs := v.fW, RWs := v.rW, isXYpow2 := isXYpow2, log2XY := log2XY, log2X := log2X }
      spawn_ops wspawn_args NW v.TW v.rT

/-! ## The execution substrate -/

/-- Gather the results of a list of runs; `none` as soon as one of them did not finish. -/
def collect {α : Type} : List (Option (List α)) → Option (List α)
  | [] => some []
  | r :: rs => r.bind (fun a => (collect rs).map (fun b => a ++ b))

/-- Modelled from the spec: lane activation (`activate_lanes(mask)` of the substrate interface,
the intrinsic `vx_tmc` of `vx_intrinsics.h`, which is not part of the sources at hand).  Of the
`NT` lanes of a wave, those whose bit is set in the mask are active. -/
def active_lanes (NT mask : Int) : List Int :=
  ((List.range NT.toNat).filter (fun (t : Nat) => mask.testBit t)).map (fun (t : Nat) => (t : Int))

/-- Modelled from the spec: wave spawning (`spawn_waves(count, entry_point)` of the substrate
interface, the intrinsic `vx_wspawn` of `vx_intrinsics.h`, which is not part of the sources at
hand).  A request for `nw` waves makes `nw` waves run: wave `0` is the one that issues the
request and goes on with its own code (it calls the bulk stub inline), and the waves
`1 .. nw-1` are started at the entry point.  The waves that run the bulk stub are therefore the
waves `0 .. nw-1`. -/
def spawned_waves (nw : Int) : List Int :=
  (List.range' 1 (nw.toNat - 1)).map (fun (w : Nat) => (w : Int))

/-- The state of a core during a dispatch: the scratch register (`none` before the first write),
the lane mask of wave `0`, and the callback invocations made so far. -/
structure core_state (D C : Type) where
  mscratch : Option D
  tmask : Int
  calls : List C

/-- The entry point of a spawned wave, `spawn_tasks_all_cb` or `spawn_pocl_kernel_all_cb`: activate
all lanes (`vx_tmc(-1)`), call the bulk stub on each of them, disable the wave. -/
def all_cb {D C : Type} (all : Int → Int → D → Option (List C)) (NT wid : Int) (d : D) :
    Option (List C) :=
  collect ((active_lanes NT (-1)).map (fun tid => all wid tid d))

/-- Modelled from the spec: the effect of one substrate operation on a core.  `all wid tid d` is
the bulk stub run by lane `tid` of wave `wid` and `rem tid d` the remainder stub run by lane
`tid`, both against the descriptor `d` found in the scratch register.  The initiating lane
belongs to wave `0`. -/
def exec_op {D C : Type} (all : Int → Int → D → Option (List C)) (rem : Int → D → List C)
    (NT : Int) (st : core_state D C) : Op D → Option (core_state D C)
  | Op.csr_write d => some { st with mscratch := some d }
  | Op.wspawn nw =>
    match st.mscratch with
    | none => none
    | some d =>
      (collect ((spawned_waves nw).map (fun wid => all_cb all NT wid d))).map
        (fun cs => { st with calls := st.calls ++ cs })
  | Op.tmc mask => some { st with tmask := mask }
  | Op.all_stub =>
    match st.mscratch with
    | none => none
    | some d =>
      (collect ((active_lanes NT st.tmask).map (fun tid => all 0 tid d))).map
        (fun cs => { st with calls := st.calls ++ cs })
  | Op.rem_stub =>
    match st.mscratch with
    | none => none
    | some d =>
      some { st with calls := st.calls ++ ((active_lanes NT st.tmask).map (fun tid => rem tid d)).flatten }
  | Op.tmc_one => some { st with tmask := 1 }
  | Op.wspawn_wait => some st

/-- Run a sequence of substrate operations from a state. -/
def exec_ops {D C : Type} (all : Int → Int → D → Option (List C)) (rem : Int → D → List C)
    (NT : Int) : core_state D C → List (Op D) → Option (core_state D C)
  | st, [] => some st
  | st, op :: ops =>
    match exec_op all rem NT st op with
    | none => none
    | some st1 => exec_ops all rem NT st1 ops

/-- Run the operations of one core from the initial state (scratch register not written, one
active lane): the callback invocations of the dispatch on that core. -/
def run_core {D C : Type} (all : Int → Int → D → Option (List C)) (rem : Int → D → List C)
    (NT : Int) (ops : List (Op D)) : Option (List C) :=
  (exec_ops all rem NT { mscratch := none, tmask := 1, calls := [] } ops).map (fun st => st.calls)

/-- The identifiers of the cores of a device with `NC` cores: `0 .. NC-1`. -/
def core_ids (NC : Int) : List Int := (List.range NC.toNat).map (fun (c : Nat) => (c : Int))

/-- The flat dispatch on one core: the `task_id` arguments of all callback invocations made on the
core `core_id` by `vx_spawn_tasks(num_tasks, callback, arg)`. -/
def dispatch_flat_core (fuel : Nat) (NC NW NT num_tasks core_id : Int) : Option (List Int) :=
  run_core (spawn_tasks_all_stub fuel NT) spawn_tasks_rem_stub NT
    (vx_spawn_tasks NC NW NT core_id num_tasks)

/-- The flat dispatch on the whole device: `vx_spawn_tasks(num_tasks, callback, arg)` is run on
every core `0 .. NC-1`; the result lists the `task_id` arguments of all callback invocations. -/
def dispatch_flat (fuel : Nat) (NC NW NT num_tasks : Int) : Option (List Int) :=
  collect ((core_ids NC).map (dispatch_flat_core fuel NC NW NT num_tasks))

/-- The grid dispatch on one core: all callback invocations made on the core `core_id` by
`vx_spawn_pocl_kernel(ctx, callback, arg)`. -/
def dispatch_grid_core (fuel : Nat) (ctx : pocl_kernel_context_t) (NC NW NT core_id : Int) :
    Option (List pocl_call) :=
  run_core (spawn_pocl_kernel_all_stub fuel NT) spawn_pocl_kernel_rem_stub NT
    (vx_spawn_pocl_kernel ctx NC NW NT core_id)

/-- The grid dispatch on the whole device: all callback invocations of all cores `0 .. NC-1`. -/
def dispatch_grid (fuel : Nat) (ctx : pocl_kernel_context_t) (NC NW NT : Int) :
    Option (List pocl_call) :=
  collect ((core_ids NC).map (dispatch_grid_core fuel ctx NC NW NT))

/-! ## Auxiliary definitions for the statements -/

/-- The integers `a, a+1, ..., a+n-1`, in increasing order. -/
def irange (a : Int) (n : Nat) : List Int := (List.range n).map (fun (i : Nat) => a + (i : Int))

/-- The callback invocations of the bulk phase of a dispatch: the spawned waves, then wave 0. -/
def bulk_calls {D C : Type} (all : Int → Int → D → Option (List C)) (NT NW TW : Int) (d : D) :
    Option (List C) :=
  if TW ≥ 1 then
    collect [collect ((spawned_waves (MIN TW NW)).map (fun wid => all_cb all NT wid d)),
             all_cb all NT 0 d]
  else some []

/-- The callback invocations of the remainder phase of a dispatch. -/
def rem_calls {D C : Type} (rem : Int → D → List C) (NT rT : Int) (d : D) : List C :=
  if rT ≠ 0 then ((active_lanes NT (((1 : Int) <<< rT) - 1)).map (fun tid => rem tid d)).flatten
  else []

/-- The starting batch index of the wave `wid`, as the bulk stubs compute it. -/
def wK_at (FWs RWs wid : Int) : Int := (FWs * wid) + MIN RWs wid

/-- The batch count of the wave `wid`, as the bulk stubs compute it. -/
def tK_at (FWs RWs wid : Int) : Int := FWs + c_bool (decide (wid < RWs))

/-- Starting batch index of wave `w` over the naturals: `f * w + min r w`. -/
def wKn (f r w : Nat) : Nat := f * w + min r w

/-- Batch count of wave `w` over the naturals: `f + 1` below `r` and `f` from `r` on. -/
def tKn (f r w : Nat) : Nat := f + (if w < r then 1 else 0)

/-- The number of participating cores computed by both dispatch functions. -/
def nc_of (NC NW NT num_tasks : Int) : Int :=
  MIN (if num_tasks > NW * NT then Int.tdiv num_tasks (NW * NT) else 1) NC

/-- The descriptor `wspawn_args` that `vx_spawn_pocl_kernel` builds from the kernel context and from
the values of `offset`, `remain`, `fW`, `rW` of the core. -/
def grid_args (ctx : pocl_kernel_context_t) (offset remain fW rW : Int) :
    wspawn_pocl_kernel_args_t :=
  { ctx := ctx, local_size := ctx.local_size0 * ctx.local_size1 * ctx.local_size2,
    offset := offset, remain := remain, FWs := fW, RWs := rW,
    isXYpow2 := is_log2 (ctx.num_groups0 * ctx.num_groups1),
    log2XY := to_char (log2_fast (ctx.num_groups0 * ctx.num_groups1)),
    log2X := to_char (log2_fast ctx.num_groups0) }

/-- The decomposition both grid stubs apply to a work-group identifier: the shift path when the
flag `isXYpow2` of the descriptor is set, the division path otherwise. -/
def stub_body (d : wspawn_pocl_kernel_args_t) (wg_id : Int) : pocl_call :=
  if d.isXYpow2 ≠ 0 then
    pocl_body_pow2 d d.ctx.num_groups0 (d.ctx.num_groups0 * d.ctx.num_groups1) wg_id
  else
    pocl_body_div d d.ctx.num_groups0 (d.ctx.num_groups0 * d.ctx.num_groups1) wg_id

/-- The flat part of a grid descriptor. -/
def flat_args (d : wspawn_pocl_kernel_args_t) : wspawn_tasks_args_t :=
  { offset := d.offset, remain := d.remain, FWs := d.FWs, RWs := d.RWs }

/-- The decomposition applied by the stubs of a grid dispatch on the context `ctx`; it does not
depend on the core. -/
def grid_body (ctx : pocl_kernel_context_t) : Int → pocl_call :=
  stub_body (grid_args ctx 0 0 0 0)

/-- The coordinates `(i, j, k)` of a grid callback invocation. -/
def pocl_call.coords (c : pocl_call) : Int × Int × Int := (c.i, c.j, c.k)

/-- Replace the descriptor carried by a substrate operation. -/
def Op.map_desc {D E : Type} (f : D → E) : Op D → Op E
  | Op.csr_write d => Op.csr_write (f d)
  | Op.wspawn nw => Op.wspawn nw
  | Op.tmc mask => Op.tmc mask
  | Op.all_stub => Op.all_stub
  | Op.rem_stub => Op.rem_stub
  | Op.tmc_one => Op.tmc_one
  | Op.wspawn_wait => Op.wspawn_wait

/-! # Properties -/

theorem irange_zero (a : Int) : irange a 0 = [] := rfl

theorem irange_succ (a : Int) (n : Nat) : irange a (n + 1) = irange a n ++ [a + (n : Int)] := by
  simp [irange, List.range_succ]

theorem irange_add (a : Int) (n m : Nat) :
    irange a (n + m) = irange a n ++ irange (a + (n : Int)) m := by
  induction m with
  | zero => simp [irange]
  | succ m ih =>
    rw [← Nat.add_assoc, irange_succ, ih, irange_succ, List.append_assoc]
    congr 2
    push_cast
    ring_nf

theorem mem_irange {a x : Int} {n : Nat} : x ∈ irange a n ↔ a ≤ x ∧ x < a + n := by
  simp only [irange, List.mem_map, List.mem_range]
  constructor
  · rintro ⟨i, hi, rfl⟩
    omega
  · intro h
    exact ⟨(x - a).toNat, by omega, by omega⟩

theorem length_irange (a : Int) (n : Nat) : (irange a n).length = n := by
  simp [irange]

/-! ### The loops -/

theorem tasks_loop_eq (NT : Int) (hNT : 0 < NT) (k : Nat) :
    ∀ (fuel : Nat) (o : Int), k < fuel →
      tasks_loop NT (o + (k : Int) * NT) fuel o
        = some ((List.range k).map (fun (b : Nat) => o + (b : Int) * NT)) := by
  induction k with
  | zero =>
    intro fuel o hf
    obtain ⟨f, rfl⟩ : ∃ f, fuel = f + 1 := ⟨fuel - 1, by omega⟩
    simp [tasks_loop]
  | succ k ih =>
    intro fuel o hf
    obtain ⟨f, rfl⟩ : ∃ f, fuel = f + 1 := ⟨fuel - 1, by omega⟩
    have hlt : o < o + ((k + 1 : Nat) : Int) * NT := by
      have : (0 : Int) < ((k + 1 : Nat) : Int) * NT := by positivity
      omega
    have hN : o + ((k + 1 : Nat) : Int) * NT = (o + NT) + (k : Int) * NT := by
      push_cast; ring
    rw [tasks_loop, if_pos hlt, hN, ih f (o + NT) (by omega)]
    simp only [Option.map_some', List.range_succ_eq_map, List.map_cons, List.map_map]
    congr 2
    · simp
    · apply List.map_congr_left
      intro b _
      simp only [Function.comp, Nat.succ_eq_add_one]
      push_cast; ring

theorem pocl_loop_eq_map (body : Int → pocl_call) (NT N : Int) :
    ∀ (fuel : Nat) (o : Int),
      pocl_loop body NT N fuel o = (tasks_loop NT N fuel o).map (List.map body) := by
  intro fuel
  induction fuel with
  | zero => intro o; rfl
  | succ f ih =>
    intro o
    rw [pocl_loop, tasks_loop]
    split
    · rw [ih]
      cases tasks_loop NT N f (o + NT) <;> simp
    · rfl

/-! ### Gathering results -/

theorem collect_map_some {α β : Type} (l : List α) (f : α → Option (List β)) (g : α → List β)
    (h : ∀ x ∈ l, f x = some (g x)) : collect (l.map f) = some (l.flatMap g) := by
  induction l with
  | nil => rfl
  | cons x xs ih =>
    have hx := h x (List.mem_cons_self _ _)
    have hxs := ih (fun y hy => h y (List.mem_cons_of_mem _ hy))
    simp only [List.map_cons, collect, hx, hxs, List.flatMap_cons, Option.some_bind,
      Option.map_some']

theorem collect_map_map {α β γ : Type} (l : List α) (f : α → Option (List β)) (g : β → γ) :
    collect (l.map (fun x => (f x).map (List.map g))) = (collect (l.map f)).map (List.map g) := by
  induction l with
  | nil => rfl
  | cons x xs ih =>
    simp only [List.map_cons, collect, ih]
    cases f x <;> cases collect (xs.map f) <;> simp

/-! ### Running the operations of a dispatch -/

theorem run_core_spawn_ops {D C : Type} (all : Int → Int → D → Option (List C))
    (rem : Int → D → List C) (NT NW TW rT : Int) (d : D) :
    run_core all rem NT (spawn_ops d NW TW rT)
      = (bulk_calls all NT NW TW d).map (fun b => b ++ rem_calls rem NT rT d) := by
  unfold run_core spawn_ops bulk_calls rem_calls
  by_cases hTW : TW ≥ 1 <;> by_cases hrT : rT ≠ 0
  all_goals
    simp only [hTW, hrT, if_true, if_false, List.cons_append, List.nil_append, List.append_nil,
      exec_ops, exec_op, all_cb, collect, not_true_eq_false, ne_eq, not_false_eq_true]
  · generalize collect (List.map (fun wid => collect (List.map (fun tid => all wid tid d)
      (active_lanes NT (-1)))) (spawned_waves (MIN TW NW))) = A
    cases A
    · simp
    · simp only [Option.map_some']
      generalize collect (List.map (fun tid => all 0 tid d) (active_lanes NT (-1))) = B
      cases B <;> simp
  · generalize collect (List.map (fun wid => collect (List.map (fun tid => all wid tid d)
      (active_lanes NT (-1)))) (spawned_waves (MIN TW NW))) = A
    cases A
    · simp
    · simp only [Option.map_some']
      generalize collect (List.map (fun tid => all 0 tid d) (active_lanes NT (-1))) = B
      cases B <;> simp
  · simp
  · simp

/-! ### Lanes and waves -/

theorem active_lanes_all (NT : Int) : active_lanes NT (-1) = irange 0 NT.toNat := by
  unfold active_lanes irange
  rw [List.filter_eq_self.2]
  · simp
  · intro t _
    have : (-1 : Int) = Int.negSucc 0 := rfl
    rw [this]
    simp [Int.testBit]

theorem filter_lt_range (r n : Nat) (h : r ≤ n) :
    (List.range n).filter (fun t => decide (t < r)) = List.range r := by
  induction n with
  | zero =>
    have : r = 0 := by omega
    subst this; rfl
  | succ n ih =>
    rw [List.range_succ, List.filter_append]
    by_cases hr : r = n + 1
    · subst hr
      rw [List.filter_eq_self.2 (by intro t ht; simp at ht; simp; omega)]
      simp [List.range_succ]
    · rw [ih (by omega)]
      simp
      omega

theorem active_lanes_mask (NT rT : Int) (h0 : 0 ≤ rT) (h1 : rT ≤ NT) :
    active_lanes NT (((1 : Int) <<< rT) - 1) = irange 0 rT.toNat := by
  obtain ⟨r, rfl⟩ := Int.eq_ofNat_of_zero_le h0
  have hmask : ((1 : Int) <<< (r : Int)) - 1 = ((2 ^ r - 1 : Nat) : Int) := by
    rw [Int.one_shiftLeft]
    have : 1 ≤ 2 ^ r := Nat.one_le_two_pow
    omega
  unfold active_lanes irange
  rw [hmask]
  have : (fun (t : Nat) => Int.testBit ((2 ^ r - 1 : Nat) : Int) t) = fun t => decide (t < r) := by
    funext t
    show Nat.testBit (2 ^ r - 1) t = _
    exact Nat.testBit_two_pow_sub_one r t
  rw [this, filter_lt_range r NT.toNat (by omega)]
  simp

theorem wK_at_succ (FWs RWs wid : Int) :
    wK_at FWs RWs (wid + 1) = wK_at FWs RWs wid + tK_at FWs RWs wid := by
  unfold wK_at tK_at MIN c_bool
  simp only [decide_eq_true_eq]
  split_ifs <;> ring_nf <;> omega

theorem tK_at_nonneg (FWs RWs wid : Int) (h : 0 ≤ FWs) : 0 ≤ tK_at FWs RWs wid := by
  unfold tK_at c_bool
  split_ifs <;> omega

theorem wK_at_zero (FWs RWs : Int) (h : 0 ≤ RWs) : wK_at FWs RWs 0 = 0 := by
  unfold wK_at MIN
  split_ifs <;> omega

theorem spawn_tasks_all_stub_eq (fuel : Nat) (NT wid tid : Int) (d : wspawn_tasks_args_t)
    (hNT : 0 < NT) (hF : 0 ≤ d.FWs) (hfuel : (tK_at d.FWs d.RWs wid).toNat < fuel) :
    spawn_tasks_all_stub fuel NT wid tid d
      = some ((List.range (tK_at d.FWs d.RWs wid).toNat).map
          (fun (b : Nat) => d.offset + wK_at d.FWs d.RWs wid * NT + tid + (b : Int) * NT)) := by
  have h0 := tK_at_nonneg d.FWs d.RWs wid hF
  have := tasks_loop_eq NT hNT (tK_at d.FWs d.RWs wid).toNat fuel
    (d.offset + wK_at d.FWs d.RWs wid * NT + tid) hfuel
  rw [Int.toNat_of_nonneg h0] at this
  exact this

/-- One wave: the `n` lanes, each striding `k` times by `n`, cover a block of `k * n`
consecutive identifiers. -/

theorem lanes_block_perm (o : Int) (n k : Nat) :
    ((irange 0 n).flatMap (fun tid =>
        (List.range k).map (fun (b : Nat) => o + tid + (b : Int) * (n : Int)))).Perm
      (irange o (k * n)) := by
  induction k with
  | zero => simp [irange]
  | succ k ih =>
    have h1 : ∀ tid : Int,
        (List.range (k + 1)).map (fun (b : Nat) => o + tid + (b : Int) * (n : Int))
          = (List.range k).map (fun (b : Nat) => o + tid + (b : Int) * (n : Int))
            ++ [o + tid + (k : Int) * (n : Int)] := by
      intro tid; simp [List.range_succ]
    simp only [h1]
    refine (List.flatMap_append_perm _ _ _).symm.trans ?_
    rw [Nat.succ_mul, irange_add]
    refine List.Perm.append ih ?_
    have : (irange 0 n).flatMap (fun tid => [o + tid + (k : Int) * (n : Int)])
        = irange (o + ((k * n : Nat) : Int)) n := by
      simp only [irange, List.flatMap_map]
      rw [List.map_eq_flatMap]
      congr 1
      funext i
      congr 1
      push_cast; ring
    rw [this]

theorem wK_at_cast (f r w : Nat) : wK_at (f : Int) (r : Int) (w : Int) = ((wKn f r w : Nat) : Int) := by
  unfold wK_at wKn MIN
  push_cast
  split_ifs <;> omega

theorem tK_at_cast (f r w : Nat) : tK_at (f : Int) (r : Int) (w : Int) = ((tKn f r w : Nat) : Int) := by
  unfold tK_at tKn c_bool
  simp only [decide_eq_true_eq, Nat.cast_lt]
  split_ifs <;> simp

theorem wKn_succ (f r w : Nat) : wKn f r (w + 1) = wKn f r w + tKn f r w := by
  unfold wKn tKn
  split_ifs <;> (rw [Nat.mul_succ]; omega)

theorem wKn_zero (f r : Nat) : wKn f r 0 = 0 := by simp [wKn]

/-- The waves `0 .. m-1`: their blocks, one after the other, are the first `wKn f r m` batches. -/

theorem waves_concat (base : Int) (f r n : Nat) (m : Nat) :
    (List.range m).flatMap
        (fun w => irange (base + ((wKn f r w * n : Nat) : Int)) (tKn f r w * n))
      = irange base (wKn f r m * n) := by
  induction m with
  | zero => simp [wKn_zero, irange]
  | succ m ih =>
    rw [List.range_succ, List.flatMap_append, ih, wKn_succ, Nat.add_mul, irange_add]
    simp

/-- The calls of one wave against a descriptor with non-negative batch counts. -/

theorem all_cb_tasks_eq (fuel : Nat) (n f r w : Nat) (base remain : Int) (hn : 0 < n)
    (hfuel : f + 1 < fuel) :
    all_cb (spawn_tasks_all_stub fuel (n : Int)) (n : Int) (w : Int)
        { offset := base, remain := remain, FWs := (f : Int), RWs := (r : Int) }
      = some ((irange 0 n).flatMap (fun tid =>
          (List.range (tKn f r w)).map
            (fun (b : Nat) => base + ((wKn f r w * n : Nat) : Int) + tid + (b : Int) * (n : Int)))) := by
  unfold all_cb
  rw [active_lanes_all, Int.toNat_ofNat]
  apply collect_map_some
  intro tid _
  have htk : (tK_at (f : Int) (r : Int) (w : Int)).toNat = tKn f r w := by
    rw [tK_at_cast, Int.toNat_ofNat]
  have hle : tKn f r w ≤ f + 1 := by unfold tKn; split_ifs <;> omega
  rw [spawn_tasks_all_stub_eq fuel (n : Int) (w : Int) tid _ (by exact_mod_cast hn)
    (by simp) (by simp only [htk]; omega)]
  simp only [htk, wK_at_cast]
  push_cast
  rfl

theorem spawned_waves_eq (m : Nat) :
    spawned_waves ((m + 1 : Nat) : Int) = (List.range m).map (fun (w : Nat) => ((w + 1 : Nat) : Int)) := by
  unfold spawned_waves
  rw [Int.toNat_ofNat, Nat.add_sub_cancel, List.range'_eq_map_range, List.map_map]
  apply List.map_congr_left
  intro w _
  simp [Nat.add_comm]

/-- The bulk phase on one core covers the first `TW * NT` identifiers of the core's range. -/

theorem bulk_calls_tasks (fuel : Nat) (n f r m : Nat) (NW TW base remain : Int) (hn : 0 < n)
    (hTW : TW ≥ 1) (hm : MIN TW NW = ((m + 1 : Nat) : Int)) (hfuel : f + 1 < fuel) :
    ∃ calls,
      bulk_calls (spawn_tasks_all_stub fuel (n : Int)) (n : Int) NW TW
          { offset := base, remain := remain, FWs := (f : Int), RWs := (r : Int) } = some calls
      ∧ calls.Perm (irange base (wKn f r (m + 1) * n)) := by
  unfold bulk_calls
  rw [if_pos hTW, hm, spawned_waves_eq]
  have h0 := all_cb_tasks_eq fuel n f r 0 base remain hn hfuel
  simp only [Nat.cast_zero] at h0
  simp only [collect, h0, Option.some_bind, Option.map_some', List.map_map]
  rw [collect_map_some _ _ (fun (w : Nat) => (irange 0 n).flatMap (fun tid =>
          (List.range (tKn f r (w + 1))).map
            (fun (b : Nat) => base + ((wKn f r (w + 1) * n : Nat) : Int) + tid + (b : Int) * (n : Int))))
    (by intro w _; exact all_cb_tasks_eq fuel n f r (w + 1) base remain hn hfuel)]
  refine ⟨_, rfl, ?_⟩
  rw [← waves_concat base f r n (m + 1), List.range_succ_eq_map, List.flatMap_cons,
    List.flatMap_map]
  simp only [List.append_nil]
  refine List.perm_append_comm.trans (List.Perm.append ?_ ?_)
  · exact lanes_block_perm _ n _
  · apply List.Perm.flatMap_left
    intro w _
    exact lanes_block_perm _ n _

theorem rem_calls_tasks (n : Nat) (rT base remain fW rW : Int) (h0 : 0 ≤ rT) (h1 : rT < n) :
    rem_calls spawn_tasks_rem_stub (n : Int) rT
        { offset := base, remain := remain, FWs := fW, RWs := rW }
      = irange remain rT.toNat := by
  unfold rem_calls
  split
  · rw [active_lanes_mask _ _ h0 (by omega)]
    simp only [spawn_tasks_rem_stub, irange, List.map_map, zero_add]
    induction (List.range rT.toNat) with
    | nil => rfl
    | cons x xs ih => simp [ih]
  · have : rT = 0 := by omega
    subst this; rfl

/-! ### One core -/

/-- The wave batches add up: the starting batch index after the last requested wave is `TW`. -/

theorem wK_at_total (NW TW : Int) (hNW : 0 < NW) (hTW : TW ≥ 1) :
    wK_at (if TW ≥ NW then Int.tdiv TW NW else 1)
        (if TW ≥ NW then TW - (Int.tdiv TW NW) * NW else 0) (MIN TW NW) = TW := by
  have h0 : (0 : Int) ≤ TW := by omega
  rw [Int.tdiv_eq_ediv h0 hNW.le]
  unfold wK_at MIN
  by_cases h : TW ≥ NW
  · have hm := Int.emod_add_ediv TW NW
    have hm0 := Int.emod_nonneg TW hNW.ne'
    have hm1 := Int.emod_lt_of_pos TW hNW
    have hr : TW - TW / NW * NW = TW % NW := by linarith
    simp only [h, if_true, hr]
    rw [if_neg (by omega), if_pos hm1]
    linarith
  · simp only [h, if_false]
    rw [if_pos (by omega), if_pos (by omega)]
    omega

/-- The distributor on one core: with share `S` and base offset `base`, the bulk stubs and the
remainder stub together call back on each of `base, ..., base + S - 1` once. -/

theorem dist_cover_tasks (fuel : Nat) (NT NW S base : Int) (hNT : 0 < NT) (hNW : 0 < NW)
    (hS : 0 ≤ S) (hfuel : S.toNat + 1 < fuel) :
    ∃ calls,
      run_core (spawn_tasks_all_stub fuel NT) spawn_tasks_rem_stub NT
        (spawn_ops
          ({ offset := base,
             remain := base + (S - (S - (Int.tdiv S NT) * NT)),
             FWs := if Int.tdiv S NT ≥ NW then Int.tdiv (Int.tdiv S NT) NW else 1,
             RWs := if Int.tdiv S NT ≥ NW
                    then Int.tdiv S NT - (Int.tdiv (Int.tdiv S NT) NW) * NW else 0 } :
            wspawn_tasks_args_t)
          NW (Int.tdiv S NT) (S - (Int.tdiv S NT) * NT)) = some calls
      ∧ calls.Perm (irange base S.toNat) := by
  have hdiv : Int.tdiv S NT = S / NT := Int.tdiv_eq_ediv hS hNT.le
  have hTW0 : 0 ≤ S / NT := Int.ediv_nonneg hS hNT.le
  have hm := Int.emod_add_ediv S NT
  have hm0 := Int.emod_nonneg S hNT.ne'
  have hm1 := Int.emod_lt_of_pos S hNT
  have hrT : S - (S / NT) * NT = S % NT := by linarith
  have hTWle : S / NT ≤ S := by
    have : (S / NT) * 1 ≤ (S / NT) * NT := by
      apply mul_le_mul_of_nonneg_left _ hTW0
      omega
    linarith
  generalize hfW : (if Int.tdiv S NT ≥ NW then Int.tdiv (Int.tdiv S NT) NW else 1) = fW
  generalize hrW : (if Int.tdiv S NT ≥ NW
      then Int.tdiv S NT - (Int.tdiv (Int.tdiv S NT) NW) * NW else 0) = rW
  have htot : Int.tdiv S NT ≥ 1 → wK_at fW rW (MIN (Int.tdiv S NT) NW) = Int.tdiv S NT := by
    intro h
    rw [← hfW, ← hrW]
    exact wK_at_total NW _ hNW h
  have hfW0 : 0 ≤ fW ∧ (Int.tdiv S NT ≥ 1 → fW ≤ S) := by
    rw [← hfW, hdiv, Int.tdiv_eq_ediv hTW0 hNW.le]
    split
    · refine ⟨Int.ediv_nonneg hTW0 hNW.le, fun _ => ?_⟩
      have : S / NT / NW ≤ S / NT := Int.ediv_le_self _ hTW0
      omega
    · exact ⟨by omega, fun h => by omega⟩
  have hrW0 : 0 ≤ rW := by
    rw [← hrW, hdiv, Int.tdiv_eq_ediv hTW0 hNW.le]
    split
    · have := Int.emod_add_ediv (S / NT) NW
      have := Int.emod_nonneg (S / NT) hNW.ne'
      linarith
    · omega
  rw [hdiv] at htot hfW0 ⊢
  rw [hrT]
  obtain ⟨n, rfl⟩ := Int.eq_ofNat_of_zero_le hNT.le
  obtain ⟨f, rfl⟩ := Int.eq_ofNat_of_zero_le hfW0.1
  obtain ⟨r, rfl⟩ := Int.eq_ofNat_of_zero_le hrW0
  have hn : 0 < n := by exact_mod_cast hNT
  rw [run_core_spawn_ops, rem_calls_tasks n _ _ _ _ _ hm0 hm1]
  by_cases hTW : S / (n : Int) ≥ 1
  · have hmin : 1 ≤ MIN (S / (n : Int)) NW := by unfold MIN; split <;> omega
    obtain ⟨m, hmeq⟩ : ∃ m : Nat, MIN (S / (n : Int)) NW = ((m + 1 : Nat) : Int) :=
      ⟨(MIN (S / (n : Int)) NW).toNat - 1, by omega⟩
    obtain ⟨calls, hc, hp⟩ := bulk_calls_tasks fuel n f r m NW (S / (n : Int)) base
      (base + (S - S % (n : Int))) hn hTW hmeq (by have := hfW0.2 hTW; omega)
    refine ⟨_, by rw [hc]; rfl, ?_⟩
    have hw : ((wKn f r (m + 1) : Nat) : Int) = S / (n : Int) := by
      rw [← wK_at_cast, ← hmeq]
      exact htot hTW
    have hsplit : S.toNat = wKn f r (m + 1) * n + (S % (n : Int)).toNat := by
      have : ((wKn f r (m + 1) * n : Nat) : Int) = S / (n : Int) * (n : Int) := by
        push_cast; rw [hw]
      zify
      rw [Int.toNat_of_nonneg hS, Int.toNat_of_nonneg hm0, hw]
      linarith
    rw [hsplit, irange_add]
    refine List.Perm.append hp ?_
    have : base + (S - S % (n : Int)) = base + ((wKn f r (m + 1) * n : Nat) : Int) := by
      push_cast; rw [hw]; linarith
    rw [this]
  · have hz : S / (n : Int) = 0 := by omega
    refine ⟨_, by unfold bulk_calls; rw [if_neg hTW]; rfl, ?_⟩
    have h1 : S % (n : Int) = S := by rw [hz] at hm; linarith
    simp [h1]

/-! ### The partition across cores -/

theorem nc_of_bounds (NC NW NT T : Int) (hT : 1 ≤ T) (hNC : 1 ≤ NC) (hNW : 1 ≤ NW)
    (hNT : 1 ≤ NT) :
    1 ≤ nc_of NC NW NT T ∧ nc_of NC NW NT T ≤ NC ∧ nc_of NC NW NT T ≤ T := by
  have hWT : 1 ≤ NW * NT := by nlinarith
  unfold nc_of MIN
  by_cases h : T > NW * NT
  · rw [if_pos h, Int.tdiv_eq_ediv (by omega) (by omega)]
    have h1 : 1 ≤ T / (NW * NT) := by
      apply Int.le_ediv_of_mul_le (by omega)
      omega
    have h2 : T / (NW * NT) ≤ T := Int.ediv_le_self _ (by omega)
    split <;> omega
  · rw [if_neg h]
    split <;> omega

theorem locals_nc (NC NW NT c T : Int) :
    (vx_spawn_tasks_locals NC NW NT c T).nc = nc_of NC NW NT T := rfl

/-- The share of a core that passes both guards is between `1` and `num_tasks`. -/

theorem locals_share_bounds (NC NW NT c T : Int) (hT : 1 ≤ T) (hNC : 1 ≤ NC) (hNW : 1 ≤ NW)
    (hNT : 1 ≤ NT) :
    1 ≤ (vx_spawn_tasks_locals NC NW NT c T).tasks_per_core
    ∧ (vx_spawn_tasks_locals NC NW NT c T).tasks_per_core
        = T / nc_of NC NW NT T
    ∧ 1 ≤ (vx_spawn_tasks_locals NC NW NT c T).tasks_per_core_n1
    ∧ (vx_spawn_tasks_locals NC NW NT c T).tasks_per_core_n1 ≤ T := by
  obtain ⟨h1, h2, h3⟩ := nc_of_bounds NC NW NT T hT hNC hNW hNT
  have htpc : (vx_spawn_tasks_locals NC NW NT c T).tasks_per_core = T / nc_of NC NW NT T := by
    show Int.tdiv T (nc_of NC NW NT T) = _
    exact Int.tdiv_eq_ediv (by omega) (by omega)
  have hn1 : (vx_spawn_tasks_locals NC NW NT c T).tasks_per_core_n1
      = if c = nc_of NC NW NT T - 1
        then (vx_spawn_tasks_locals NC NW NT c T).tasks_per_core
          + (T - nc_of NC NW NT T * (vx_spawn_tasks_locals NC NW NT c T).tasks_per_core)
        else (vx_spawn_tasks_locals NC NW NT c T).tasks_per_core := rfl
  rw [hn1, htpc]
  have hq1 : 1 ≤ T / nc_of NC NW NT T := Int.le_ediv_of_mul_le (by omega) (by omega)
  have hq2 : T / nc_of NC NW NT T ≤ T := Int.ediv_le_self _ (by omega)
  have hm := Int.emod_add_ediv T (nc_of NC NW NT T)
  have hm0 := Int.emod_nonneg T (b := nc_of NC NW NT T) (by omega)
  refine ⟨hq1, rfl, ?_, ?_⟩
  · split
    · linarith
    · exact hq1
  · split
    · have : 0 ≤ (nc_of NC NW NT T - 1) * (T / nc_of NC NW NT T) :=
        mul_nonneg (by omega) (by omega)
      linarith
    · exact hq2

/-- A core that passes both guards covers its own range. -/

theorem dispatch_flat_core_cover (fuel : Nat) (NC NW NT T c : Int) (hT : 1 ≤ T) (hNC : 1 ≤ NC)
    (hNW : 1 ≤ NW) (hNT : 1 ≤ NT) (hc1 : c < nc_of NC NW NT T) (hc2 : c < NUM_CORES_MAX)
    (hfuel : T.toNat + 1 < fuel) :
    ∃ calls, dispatch_flat_core fuel NC NW NT T c = some calls
      ∧ calls.Perm (irange (vx_spawn_tasks_locals NC NW NT c T).offset
          (vx_spawn_tasks_locals NC NW NT c T).tasks_per_core_n1.toNat) := by
  obtain ⟨_, _, hs1, hs2⟩ := locals_share_bounds NC NW NT c T hT hNC hNW hNT
  unfold dispatch_flat_core vx_spawn_tasks
  rw [if_neg (by omega)]
  simp only [locals_nc]
  rw [if_neg (by omega)]
  exact dist_cover_tasks fuel NT NW (vx_spawn_tasks_locals NC NW NT c T).tasks_per_core_n1
    (vx_spawn_tasks_locals NC NW NT c T).offset (by omega) (by omega) (by omega) (by omega)

/-- A core that fails one of the two guards calls nothing. -/

theorem dispatch_flat_core_idle (fuel : Nat) (NC NW NT T c : Int)
    (hc : nc_of NC NW NT T ≤ c ∨ NUM_CORES_MAX ≤ c) :
    dispatch_flat_core fuel NC NW NT T c = some [] := by
  unfold dispatch_flat_core vx_spawn_tasks
  by_cases h : c ≥ NUM_CORES_MAX
  · rw [if_pos h]; rfl
  · rw [if_neg h]
    simp only [locals_nc]
    rw [if_pos (by omega)]; rfl

theorem to_u32_of_lt (x : Int) (h0 : 0 ≤ x) (h1 : x < 2 ^ 32) : to_u32 x = x.toNat := by
  unfold to_u32
  rw [Int.emod_eq_of_lt h0 h1]

theorem testBit_top (y a : Nat) (h0 : 2 ^ a ≤ y) (h1 : y < 2 ^ (a + 1)) : y.testBit a = true := by
  obtain ⟨z, rfl⟩ : ∃ z, y = 2 ^ a + z := ⟨y - 2 ^ a, by omega⟩
  rw [Nat.testBit_two_pow_add_eq, Nat.testBit_lt_two_pow (by rw [Nat.pow_succ] at h1; omega)]
  rfl

/-- A positive natural whose conjunction with its predecessor is zero is a power of two. -/
theorem pow2_of_land_pred (x : Nat) (hx : 1 ≤ x) (h : x &&& (x - 1) = 0) : ∃ a, x = 2 ^ a := by
  refine ⟨x.size - 1, ?_⟩
  have hs : 1 ≤ x.size := by
    rcases Nat.eq_zero_or_pos x.size with h0 | h0
    · rw [Nat.size_eq_zero] at h0; omega
    · exact h0
  have hlo : 2 ^ (x.size - 1) ≤ x := Nat.lt_size.1 (by omega)
  have hhi : x < 2 ^ (x.size - 1 + 1) := by
    rw [Nat.sub_add_cancel hs]; exact Nat.lt_size_self x
  by_contra hne
  have h1 := testBit_top x (x.size - 1) hlo hhi
  have h2 := testBit_top (x - 1) (x.size - 1) (by omega) (by omega)
  have h3 : (x &&& (x - 1)).testBit (x.size - 1) = true := by
    rw [Nat.testBit_and, h1, h2]; rfl
  rw [h, Nat.zero_testBit] at h3
  exact Bool.noConfusion h3

/-- A power of two has an empty conjunction with its predecessor. -/
theorem land_pred_pow2 (a : Nat) : (2 ^ a) &&& (2 ^ a - 1) = 0 := by
  rw [Nat.and_pow_two_sub_one_eq_mod, Nat.mod_self]

theorem is_log2_ne_zero_iff (x : Int) (h0 : 1 ≤ x) (h1 : x < 2 ^ 32) :
    is_log2 x ≠ 0 ↔ ∃ a : Nat, x = 2 ^ a := by
  obtain ⟨n, rfl⟩ := Int.eq_ofNat_of_zero_le (by omega : 0 ≤ x)
  have hn : 1 ≤ n := by exact_mod_cast h0
  have e1 : to_u32 (n : Int) = n := by rw [to_u32_of_lt _ (by omega) h1]; rfl
  have e2 : to_u32 ((n : Int) - 1) = n - 1 := by
    rw [to_u32_of_lt _ (by omega) (by omega)]; omega
  unfold is_log2 c_bool
  rw [e1, e2]
  constructor
  · intro h
    have h' : n &&& (n - 1) = 0 := by
      by_contra hne
      apply h
      have : (Nat.land n (n - 1) == 0) = false := by
        simpa using hne
      rw [this]; rfl
    obtain ⟨a, ha⟩ := pow2_of_land_pred n hn h'
    exact ⟨a, by rw [ha]; push_cast; rfl⟩
  · rintro ⟨a, ha⟩
    have ha' : n = 2 ^ a := by exact_mod_cast ha
    have : (Nat.land n (n - 1) == 0) = true := by
      rw [ha']
      have h2 : Nat.land (2 ^ a) (2 ^ a - 1) = 0 := land_pred_pow2 a
      rw [h2]; rfl
    rw [this]; decide

/-- Scanning the bits `m-1, ..., 0` of a number whose top bit is bit `n < m` skips `m - 1 - n`
zero bits. -/
theorem leading_zeros_count (x n : Nat) (h0 : 2 ^ n ≤ x) (h1 : x < 2 ^ (n + 1)) :
    ∀ m, n < m →
      ((List.range m).reverse.takeWhile (fun i => !x.testBit i)).length = m - 1 - n := by
  intro m hm
  induction m with
  | zero => omega
  | succ m ih =>
    rw [List.range_succ, List.reverse_append, List.reverse_singleton, List.singleton_append]
    by_cases hmn : n = m
    · subst hmn
      rw [List.takeWhile_cons, testBit_top x n h0 h1]
      simp
    · have hlt : x < 2 ^ m := by
        have : 2 ^ (n + 1) ≤ 2 ^ m := Nat.pow_le_pow_right (by norm_num) (by omega)
        omega
      rw [List.takeWhile_cons, Nat.testBit_lt_two_pow hlt]
      simp only [Bool.not_false, if_true, List.length_cons]
      rw [ih (by omega)]
      omega

/-- The helper `builtin_clz` on a word whose top bit is bit `n`. -/
theorem builtin_clz_eq (x n : Nat) (hn : n < 32) (h0 : 2 ^ n ≤ x) (h1 : x < 2 ^ (n + 1)) :
    builtin_clz x = 31 - n :=
  leading_zeros_count x n h0 h1 32 hn

theorem log2_fast_pow2 (a : Nat) (ha : a < 32) : log2_fast (2 ^ a) = a := by
  unfold log2_fast
  have hlt : (2 : Int) ^ a < 2 ^ 32 := by
    exact pow_lt_pow_right₀ (by norm_num) ha
  rw [to_u32_of_lt _ (by positivity) hlt]
  have : ((2 : Int) ^ a).toNat = 2 ^ a := by
    have : ((2 : Int) ^ a) = ((2 ^ a : Nat) : Int) := by push_cast; rfl
    rw [this, Int.toNat_ofNat]
  rw [this, builtin_clz_eq (2 ^ a) a ha (Nat.le_refl _)
    (Nat.pow_lt_pow_right (by norm_num) (by omega))]
  omega

theorem to_char_of_lt (x : Int) (h0 : 0 ≤ x) (h1 : x < 256) : to_char x = x := by
  unfold to_char
  exact Int.emod_eq_of_lt h0 (by norm_num; exact h1)

/-- A positive divisor of a power of two is a power of two. -/
theorem pow2_factor (X Y : Int) (a : Nat) (hX : 1 ≤ X) (hY : 1 ≤ Y) (h : X * Y = 2 ^ a) :
    ∃ b : Nat, b ≤ a ∧ X = 2 ^ b := by
  obtain ⟨x, rfl⟩ := Int.eq_ofNat_of_zero_le (by omega : 0 ≤ X)
  obtain ⟨y, rfl⟩ := Int.eq_ofNat_of_zero_le (by omega : 0 ≤ Y)
  have h' : x * y = 2 ^ a := by exact_mod_cast h
  have hd : x ∣ 2 ^ a := ⟨y, h'.symm⟩
  obtain ⟨b, hb, hxb⟩ := (Nat.dvd_prime_pow Nat.prime_two).1 hd
  exact ⟨b, hb, by rw [hxb]; push_cast; rfl⟩

/-- On a non-negative integer the arithmetic right shift by `a` is the division by `2 ^ a`. -/
theorem shiftRight_eq_tdiv (x : Int) (a : Nat) (hx : 0 ≤ x) :
    x >>> (a : Int) = Int.tdiv x (2 ^ a) := by
  obtain ⟨n, rfl⟩ := Int.eq_ofNat_of_zero_le hx
  rw [Int.shiftRight_coe_nat, Nat.shiftRight_eq_div_pow, Int.tdiv_eq_ediv (by omega) (by positivity)]
  push_cast
  rfl

theorem rem_stub_eq_body (tid : Int) (d : wspawn_pocl_kernel_args_t) :
    spawn_pocl_kernel_rem_stub tid d = [stub_body d (d.remain + tid)] := by
  unfold spawn_pocl_kernel_rem_stub stub_body
  split <;> rfl

theorem all_stub_eq_map (fuel : Nat) (NT wid tid : Int) (d : wspawn_pocl_kernel_args_t) :
    spawn_pocl_kernel_all_stub fuel NT wid tid d
      = (spawn_tasks_all_stub fuel NT wid tid (flat_args d)).map (List.map (stub_body d)) := by
  unfold spawn_pocl_kernel_all_stub spawn_tasks_all_stub
  simp only [pocl_loop_eq_map, flat_args]
  by_cases h : d.isXYpow2 ≠ 0
  · have : stub_body d = pocl_body_pow2 d d.ctx.num_groups0 (d.ctx.num_groups0 * d.ctx.num_groups1) := by
      funext x; unfold stub_body; rw [if_pos h]
    rw [if_pos h, this]
  · have : stub_body d = pocl_body_div d d.ctx.num_groups0 (d.ctx.num_groups0 * d.ctx.num_groups1) := by
      funext x; unfold stub_body; rw [if_neg h]
    rw [if_neg h, this]

/-! ### The decomposition of a work-group identifier -/

/-- The division path recovers the coordinates of `id`. -/

theorem body_div_spec (d : wspawn_pocl_kernel_args_t) (X Y Z id : Int) (hX : 1 ≤ X) (hY : 1 ≤ Y)
    (h0 : 0 ≤ id) (h1 : id < X * Y * Z) :
    (pocl_body_div d X (X * Y) id).k * X * Y + (pocl_body_div d X (X * Y) id).j * X
        + (pocl_body_div d X (X * Y) id).i = id
    ∧ 0 ≤ (pocl_body_div d X (X * Y) id).i ∧ (pocl_body_div d X (X * Y) id).i < X
    ∧ 0 ≤ (pocl_body_div d X (X * Y) id).j ∧ (pocl_body_div d X (X * Y) id).j < Y
    ∧ 0 ≤ (pocl_body_div d X (X * Y) id).k ∧ (pocl_body_div d X (X * Y) id).k < Z := by
  have hXY : 1 ≤ X * Y := by nlinarith
  have hk : Int.tdiv id (X * Y) = id / (X * Y) := Int.tdiv_eq_ediv h0 (by omega)
  have hm := Int.emod_add_ediv id (X * Y)
  have hm0 := Int.emod_nonneg id (b := X * Y) (by omega)
  have hm1 := Int.emod_lt_of_pos id (b := X * Y) (by omega)
  have hw : id - id / (X * Y) * (X * Y) = id % (X * Y) := by linarith
  have hj : Int.tdiv (id % (X * Y)) X = id % (X * Y) / X := Int.tdiv_eq_ediv hm0 (by omega)
  have hn := Int.emod_add_ediv (id % (X * Y)) X
  have hn0 := Int.emod_nonneg (id % (X * Y)) (b := X) (by omega)
  have hn1 := Int.emod_lt_of_pos (id % (X * Y)) (b := X) (by omega)
  have hk0 : 0 ≤ id / (X * Y) := Int.ediv_nonneg h0 (by omega)
  have hk1 : id / (X * Y) < Z := Int.ediv_lt_of_lt_mul (by omega) (by linarith)
  have hj0 : 0 ≤ id % (X * Y) / X := Int.ediv_nonneg hm0 (by omega)
  have hj1 : id % (X * Y) / X < Y := Int.ediv_lt_of_lt_mul (by omega) (by linarith)
  simp only [pocl_body_div, hk, hw, hj]
  refine ⟨by linarith, by linarith, by linarith, hj0, hj1, hk0, hk1⟩

/-- With `X * Y` a power of two below `2 ^ 31` the shift path and the division path agree on every
non-negative identifier. -/

theorem body_pow2_eq_div (d : wspawn_pocl_kernel_args_t) (X Y id : Int) (a : Nat)
    (hX : 1 ≤ X) (hY : 1 ≤ Y) (hpow : X * Y = 2 ^ a) (hlt : X * Y < 2 ^ 31) (h0 : 0 ≤ id)
    (hl1 : d.log2XY = to_char (log2_fast (X * Y))) (hl2 : d.log2X = to_char (log2_fast X)) :
    pocl_body_pow2 d X (X * Y) id = pocl_body_div d X (X * Y) id := by
  have ha : a < 31 := by
    rw [hpow] at hlt
    exact (pow_lt_pow_iff_right₀ (by norm_num : (1 : Int) < 2)).1 hlt
  obtain ⟨b, hb, hXb⟩ := pow2_factor X Y a hX hY hpow
  have e1 : d.log2XY = (a : Int) := by
    rw [hl1, hpow, log2_fast_pow2 a (by omega), to_char_of_lt _ (by omega) (by omega)]
  have e2 : d.log2X = (b : Int) := by
    rw [hl2, hXb, log2_fast_pow2 b (by omega), to_char_of_lt _ (by omega) (by omega)]
  have hk : id >>> (a : Int) = Int.tdiv id (X * Y) := by
    rw [shiftRight_eq_tdiv id a h0, hpow]
  have hw0 : 0 ≤ id - Int.tdiv id (X * Y) * (X * Y) := by
    rw [Int.tdiv_eq_ediv h0 (by nlinarith)]
    have hm := Int.emod_add_ediv id (X * Y)
    have hm0 := Int.emod_nonneg id (b := X * Y) (by nlinarith)
    linarith
  have hj : (id - Int.tdiv id (X * Y) * (X * Y)) >>> (b : Int)
      = Int.tdiv (id - Int.tdiv id (X * Y) * (X * Y)) X := by
    rw [shiftRight_eq_tdiv _ b hw0, hXb]
  simp only [pocl_body_pow2, pocl_body_div, e1, e2, hk, hj]

/-- Every descriptor built by `vx_spawn_pocl_kernel` for a grid of positive dimensions whose size
fits a 32-bit `int` decomposes identifiers as the division path does. -/

theorem stub_body_grid_args (ctx : pocl_kernel_context_t) (offset remain fW rW id : Int)
    (hX : 1 ≤ ctx.num_groups0) (hY : 1 ≤ ctx.num_groups1)
    (hlt : ctx.num_groups0 * ctx.num_groups1 < 2 ^ 31) (h0 : 0 ≤ id) :
    stub_body (grid_args ctx offset remain fW rW) id
      = pocl_body_div (grid_args ctx offset remain fW rW) ctx.num_groups0
          (ctx.num_groups0 * ctx.num_groups1) id := by
  unfold stub_body
  split
  · rename_i h
    have hflag : is_log2 (ctx.num_groups0 * ctx.num_groups1) ≠ 0 := h
    obtain ⟨a, ha⟩ := (is_log2_ne_zero_iff _ (by nlinarith) (by omega)).1 hflag
    exact body_pow2_eq_div _ _ _ id a hX hY ha hlt h0 rfl rfl
  · rfl

/-! ### The grid dispatch as the image of the flat dispatch -/

theorem stub_body_grid_body (ctx : pocl_kernel_context_t) (offset remain fW rW : Int) :
    stub_body (grid_args ctx offset remain fW rW) = grid_body ctx := rfl

theorem all_cb_map {D E C F : Type} (all : Int → Int → D → Option (List C))
    (all2 : Int → Int → E → Option (List F)) (g : C → F) (d : D) (e : E) (NT wid : Int)
    (h : ∀ wid tid, all2 wid tid e = (all wid tid d).map (List.map g)) :
    all_cb all2 NT wid e = (all_cb all NT wid d).map (List.map g) := by
  unfold all_cb
  simp only [h]
  exact collect_map_map _ (fun tid => all wid tid d) g

theorem bulk_calls_map {D E C F : Type} (all : Int → Int → D → Option (List C))
    (all2 : Int → Int → E → Option (List F)) (g : C → F) (d : D) (e : E) (NT NW TW : Int)
    (h : ∀ wid tid, all2 wid tid e = (all wid tid d).map (List.map g)) :
    bulk_calls all2 NT NW TW e = (bulk_calls all NT NW TW d).map (List.map g) := by
  unfold bulk_calls
  split
  · simp only [all_cb_map all all2 g d e NT _ h]
    rw [collect_map_map _ (fun wid => all_cb all NT wid d) g]
    exact collect_map_map
      [collect ((spawned_waves (MIN TW NW)).map (fun wid => all_cb all NT wid d)),
        all_cb all NT 0 d] (fun x => x) g
  · rfl

theorem rem_calls_map {D E C F : Type} (rem : Int → D → List C) (rem2 : Int → E → List F)
    (g : C → F) (d : D) (e : E) (NT rT : Int) (h : ∀ tid, rem2 tid e = (rem tid d).map g) :
    rem_calls rem2 NT rT e = (rem_calls rem NT rT d).map g := by
  unfold rem_calls
  split
  · simp only [h, List.map_flatten, List.map_map]
    rfl
  · rfl

theorem dispatch_grid_core_eq (fuel : Nat) (ctx : pocl_kernel_context_t) (NC NW NT c : Int) :
    dispatch_grid_core fuel ctx NC NW NT c
      = (dispatch_flat_core fuel NC NW NT
          (ctx.num_groups0 * ctx.num_groups1 * ctx.num_groups2) c).map
          (List.map (grid_body ctx)) := by
  unfold dispatch_grid_core dispatch_flat_core vx_spawn_pocl_kernel vx_spawn_tasks
  have hv : vx_spawn_pocl_kernel_locals ctx NC NW NT c
      = vx_spawn_tasks_locals NC NW NT c
          (ctx.num_groups0 * ctx.num_groups1 * ctx.num_groups2) := rfl
  simp only [hv]
  by_cases h1 : c ≥ NUM_CORES_MAX
  · simp only [if_pos h1]; rfl
  · simp only [if_neg h1]
    split
    · rfl
    · rw [run_core_spawn_ops, run_core_spawn_ops]
      generalize vx_spawn_tasks_locals NC NW NT c
          (ctx.num_groups0 * ctx.num_groups1 * ctx.num_groups2) = v
      have hd : ({ ctx := ctx,
                   local_size := ctx.local_size0 * ctx.local_size1 * ctx.local_size2,
                   offset := v.offset, remain := v.remain, FWs := v.fW, RWs := v.rW,
                   isXYpow2 := is_log2 (ctx.num_groups0 * ctx.num_groups1),
                   log2XY := to_char (log2_fast (ctx.num_groups0 * ctx.num_groups1)),
                   log2X := to_char (log2_fast ctx.num_groups0) } : wspawn_pocl_kernel_args_t)
          = grid_args ctx v.offset v.remain v.fW v.rW := rfl
      rw [hd]
      have hb := bulk_calls_map (spawn_tasks_all_stub fuel NT) (spawn_pocl_kernel_all_stub fuel NT)
        (grid_body ctx)
        ({ offset := v.offset, remain := v.remain, FWs := v.fW, RWs := v.rW } : wspawn_tasks_args_t)
        (grid_args ctx v.offset v.remain v.fW v.rW) NT NW v.TW
        (fun wid tid => all_stub_eq_map fuel NT wid tid _)
      have hr := rem_calls_map spawn_tasks_rem_stub spawn_pocl_kernel_rem_stub (grid_body ctx)
        ({ offset := v.offset, remain := v.remain, FWs := v.fW, RWs := v.rW } : wspawn_tasks_args_t)
        (grid_args ctx v.offset v.remain v.fW v.rW) NT v.rT
        (fun tid => rem_stub_eq_body tid _)
      rw [hb, hr]
      cases bulk_calls (spawn_tasks_all_stub fuel NT) NT NW v.TW
        ({ offset := v.offset, remain := v.remain, FWs := v.fW, RWs := v.rW } : wspawn_tasks_args_t)
        <;> simp

theorem dispatch_grid_eq (fuel : Nat) (ctx : pocl_kernel_context_t) (NC NW NT : Int) :
    dispatch_grid fuel ctx NC NW NT
      = (dispatch_flat fuel NC NW NT
          (ctx.num_groups0 * ctx.num_groups1 * ctx.num_groups2)).map
          (List.map (grid_body ctx)) := by
  unfold dispatch_grid dispatch_flat
  rw [← collect_map_map]
  congr 1
  apply List.map_congr_left
  intro c _
  exact dispatch_grid_core_eq fuel ctx NC NW NT c

/-! ### Enumeration of the grid coordinates -/

/-- C3: for every grid `X, Y, Z ≥ 1` (the product `X*Y` being representable as a 32-bit `int`, as
the variable `XY` of the stubs requires) and every `id` with `0 ≤ id < X*Y*Z`, the call the
stubs make for `wg_id = id` against a descriptor built by `vx_spawn_pocl_kernel` (division path,
or shift path when the flag `isXYpow2` is set) has coordinates with `k*X*Y + j*X + i = id`,
`0 ≤ i < X`, `0 ≤ j < Y` and `0 ≤ k < Z`. -/
theorem C3_grid_decomposition_roundtrip (ctx : pocl_kernel_context_t)
    (offset remain fW rW id : Int)
    (hX : 1 ≤ ctx.num_groups0) (hY : 1 ≤ ctx.num_groups1) (_hZ : 1 ≤ ctx.num_groups2)
    (hfit : ctx.num_groups0 * ctx.num_groups1 < 2 ^ 31)
    (h0 : 0 ≤ id) (h1 : id < ctx.num_groups0 * ctx.num_groups1 * ctx.num_groups2) :
    (stub_body (grid_args ctx offset remain fW rW) id).k * ctx.num_groups0 * ctx.num_groups1
        + (stub_body (grid_args ctx offset remain fW rW) id).j * ctx.num_groups0
        + (stub_body (grid_args ctx offset remain fW rW) id).i = id
    ∧ 0 ≤ (stub_body (grid_args ctx offset remain fW rW) id).i
    ∧ (stub_body (grid_args ctx offset remain fW rW) id).i < ctx.num_groups0
    ∧ 0 ≤ (stub_body (grid_args ctx offset remain fW rW) id).j
    ∧ (stub_body (grid_args ctx offset remain fW rW) id).j < ctx.num_groups1
    ∧ 0 ≤ (stub_body (grid_args ctx offset remain fW rW) id).k
    ∧ (stub_body (grid_args ctx offset remain fW rW) id).k < ctx.num_groups2 := by
  rw [stub_body_grid_args ctx offset remain fW rW id hX hY hfit h0]
  exact body_div_spec _ _ _ _ id hX hY h0 h1

/-- C3, witness: the grid `4 × 4 × 2` and `id = 21` of scenario B (flag `isXYpow2` set). -/

theorem C3_grid_decomposition_roundtrip_witness :
    ((1 : Int) ≤ 4 ∧ (1 : Int) ≤ 2 ∧ (4 : Int) * 4 < 2 ^ 31 ∧ (0 : Int) ≤ 21
      ∧ (21 : Int) < 4 * 4 * 2)
    ∧ ((stub_body (grid_args ⟨4, 4, 2, 1, 1, 1⟩ 0 0 1 0) 21).k * 4 * 4
        + (stub_body (grid_args ⟨4, 4, 2, 1, 1, 1⟩ 0 0 1 0) 21).j * 4
        + (stub_body (grid_args ⟨4, 4, 2, 1, 1, 1⟩ 0 0 1 0) 21).i = 21
      ∧ 0 ≤ (stub_body (grid_args ⟨4, 4, 2, 1, 1, 1⟩ 0 0 1 0) 21).i
      ∧ (stub_body (grid_args ⟨4, 4, 2, 1, 1, 1⟩ 0 0 1 0) 21).i < 4
      ∧ 0 ≤ (stub_body (grid_args ⟨4, 4, 2, 1, 1, 1⟩ 0 0 1 0) 21).j
      ∧ (stub_body (grid_args ⟨4, 4, 2, 1, 1, 1⟩ 0 0 1 0) 21).j < 4
      ∧ 0 ≤ (stub_body (grid_args ⟨4, 4, 2, 1, 1, 1⟩ 0 0 1 0) 21).k
      ∧ (stub_body (grid_args ⟨4, 4, 2, 1, 1, 1⟩ 0 0 1 0) 21).k < 2) :=
  ⟨by decide, C3_grid_decomposition_roundtrip ⟨4, 4, 2, 1, 1, 1⟩ 0 0 1 0 21 (by decide)
    (by decide) (by decide) (by decide) (by decide) (by decide)⟩

/-- C4: for every `X, Y ≥ 1` such that `X*Y` is a power of two below `2 ^ 31` and every
`id ≥ 0`, the shift-based decomposition with `log2XY = log2_fast(X*Y)` and
`log2X = log2_fast(X)` (as stored in the `char` members of the descriptor) makes the same call
as the division-based decomposition: same `i`, `j`, `k` (and `local_offset`). -/

theorem C4_fast_path_eq_general_path (d : wspawn_pocl_kernel_args_t) (X Y id : Int) (a : Nat)
    (hX : 1 ≤ X) (hY : 1 ≤ Y) (hpow : X * Y = 2 ^ a) (hfit : X * Y < 2 ^ 31) (h0 : 0 ≤ id)
    (hl1 : d.log2XY = to_char (log2_fast (X * Y))) (hl2 : d.log2X = to_char (log2_fast X)) :
    pocl_body_pow2 d X (X * Y) id = pocl_body_div d X (X * Y) id :=
  body_pow2_eq_div d X Y id a hX hY hpow hfit h0 hl1 hl2

/-- C4, witness: scenario B, `X = 4`, `Y = 4`, `id = 21`; both paths give `i = 1`, `j = 1`,
`k = 1`. -/

theorem C4_fast_path_eq_general_path_witness :
    ((1 : Int) ≤ 4 ∧ (4 : Int) * 4 = 2 ^ 4 ∧ (4 : Int) * 4 < 2 ^ 31 ∧ (0 : Int) ≤ 21
      ∧ (grid_args ⟨4, 4, 2, 1, 1, 1⟩ 0 0 1 0).log2XY = to_char (log2_fast (4 * 4))
      ∧ (grid_args ⟨4, 4, 2, 1, 1, 1⟩ 0 0 1 0).log2X = to_char (log2_fast 4))
    ∧ pocl_body_pow2 (grid_args ⟨4, 4, 2, 1, 1, 1⟩ 0 0 1 0) 4 (4 * 4) 21
        = pocl_body_div (grid_args ⟨4, 4, 2, 1, 1, 1⟩ 0 0 1 0) 4 (4 * 4) 21
    ∧ (pocl_body_div (grid_args ⟨4, 4, 2, 1, 1, 1⟩ 0 0 1 0) 4 (4 * 4) 21).coords = (1, 1, 1) :=
  ⟨by decide, C4_fast_path_eq_general_path (grid_args ⟨4, 4, 2, 1, 1, 1⟩ 0 0 1 0) 4 4 21 4
    (by decide) (by decide) (by decide) (by decide) (by decide) (by decide) (by decide),
    by decide⟩

/-! ### C5, C6: the shares and the ranges of the participating cores -/

/-- The share and the offset of a core, in terms of `nc` and of the quotient `T / nc`. -/

theorem locals_share_offset (NC NW NT c T : Int) (hT : 1 ≤ T) (hNC : 1 ≤ NC) (hNW : 1 ≤ NW)
    (hNT : 1 ≤ NT) :
    (vx_spawn_tasks_locals NC NW NT c T).offset = c * (T / nc_of NC NW NT T)
    ∧ (vx_spawn_tasks_locals NC NW NT c T).tasks_per_core_n1
        = if c = nc_of NC NW NT T - 1
          then T - (nc_of NC NW NT T - 1) * (T / nc_of NC NW NT T)
          else T / nc_of NC NW NT T := by
  obtain ⟨-, htpc, -, -⟩ := locals_share_bounds NC NW NT c T hT hNC hNW hNT
  constructor
  · show c * (vx_spawn_tasks_locals NC NW NT c T).tasks_per_core = _
    rw [htpc]
  · have hn1 : (vx_spawn_tasks_locals NC NW NT c T).tasks_per_core_n1
        = if c = nc_of NC NW NT T - 1
          then (vx_spawn_tasks_locals NC NW NT c T).tasks_per_core
            + (T - nc_of NC NW NT T * (vx_spawn_tasks_locals NC NW NT c T).tasks_per_core)
          else (vx_spawn_tasks_locals NC NW NT c T).tasks_per_core := rfl
    rw [hn1, htpc]
    split
    · ring
    · rfl

/-- The shares of the cores `0 .. m-1`, none of them the last participating core, add up to
`m` times the quotient. -/

theorem shares_sum_below (NC NW NT T : Int) (hT : 1 ≤ T) (hNC : 1 ≤ NC) (hNW : 1 ≤ NW)
    (hNT : 1 ≤ NT) (m : Nat) (hm : (m : Int) ≤ nc_of NC NW NT T - 1) :
    ((List.range m).map
        (fun (c : Nat) => (vx_spawn_tasks_locals NC NW NT (c : Int) T).tasks_per_core_n1)).sum
      = (m : Int) * (T / nc_of NC NW NT T) := by
  induction m with
  | zero => simp
  | succ m ih =>
    rw [List.range_succ, List.map_append, List.sum_append, ih (by push_cast at hm; omega)]
    rw [List.map_singleton, List.sum_singleton,
      (locals_share_offset NC NW NT (m : Int) T hT hNC hNW hNT).2,
      if_neg (by push_cast at hm; omega)]
    push_cast; ring

theorem shares_sum (NC NW NT T : Int) (hT : 1 ≤ T) (hNC : 1 ≤ NC) (hNW : 1 ≤ NW)
    (hNT : 1 ≤ NT) :
    ((List.range (nc_of NC NW NT T).toNat).map
        (fun (c : Nat) => (vx_spawn_tasks_locals NC NW NT (c : Int) T).tasks_per_core_n1)).sum
      = T := by
  obtain ⟨hn1, -, -⟩ := nc_of_bounds NC NW NT T hT hNC hNW hNT
  obtain ⟨j, hj⟩ : ∃ j : Nat, (nc_of NC NW NT T).toNat = j + 1 :=
    ⟨(nc_of NC NW NT T).toNat - 1, by omega⟩
  have hj2 : nc_of NC NW NT T = (j : Int) + 1 := by omega
  rw [hj, List.range_succ, List.map_append, List.sum_append,
    shares_sum_below NC NW NT T hT hNC hNW hNT j (by omega)]
  rw [List.map_singleton, List.sum_singleton,
    (locals_share_offset NC NW NT (j : Int) T hT hNC hNW hNT).2, if_pos (by omega), hj2]
  ring

/-- C5: for every `T ≥ 1` and topology `NC, NW, NT ≥ 1`, the number `nc` of participating cores
computed by `vx_spawn_tasks` is `min(T > NW*NT ? T / (NW*NT) : 1, NC)`, its `tasks_per_core` is
`T / nc`, the share `tasks_per_core_n1` of core `c` is `tasks_per_core` for `c ≠ nc-1` and
`tasks_per_core + (T - nc*tasks_per_core)` for `c = nc-1`, and the shares of the participating
cores `c = 0 .. nc-1` add up to `T`. -/

theorem C5_shares_sum_to_T (NC NW NT T : Int) (hT : 1 ≤ T) (hNC : 1 ≤ NC) (hNW : 1 ≤ NW)
    (hNT : 1 ≤ NT) :
    (∀ c : Int,
      (vx_spawn_tasks_locals NC NW NT c T).nc
          = MIN (if T > NW * NT then T / (NW * NT) else 1) NC
      ∧ (vx_spawn_tasks_locals NC NW NT c T).tasks_per_core
          = T / (vx_spawn_tasks_locals NC NW NT c T).nc
      ∧ (vx_spawn_tasks_locals NC NW NT c T).tasks_per_core_n1
          = if c = (vx_spawn_tasks_locals NC NW NT c T).nc - 1
            then (vx_spawn_tasks_locals NC NW NT c T).tasks_per_core
              + (T - (vx_spawn_tasks_locals NC NW NT c T).nc
                  * (vx_spawn_tasks_locals NC NW NT c T).tasks_per_core)
            else (vx_spawn_tasks_locals NC NW NT c T).tasks_per_core)
    ∧ ((List.range (vx_spawn_tasks_locals NC NW NT 0 T).nc.toNat).map
        (fun (c : Nat) => (vx_spawn_tasks_locals NC NW NT (c : Int) T).tasks_per_core_n1)).sum
      = T := by
  refine ⟨fun c => ⟨?_, ?_, rfl⟩, shares_sum NC NW NT T hT hNC hNW hNT⟩
  · show MIN (if T > NW * NT then Int.tdiv T (NW * NT) else 1) NC = _
    rw [Int.tdiv_eq_ediv (by omega) (by nlinarith)]
  · exact (locals_share_bounds NC NW NT c T hT hNC hNW hNT).2.1

/-- C5, witness: `T = 10` on `NC = 3` cores of one wave of two lanes: shares `3 + 3 + 4`. -/

theorem C5_shares_sum_to_T_witness :
    ((1 : Int) ≤ 10 ∧ (1 : Int) ≤ 3 ∧ (1 : Int) ≤ 1 ∧ (1 : Int) ≤ 2)
    ∧ ((∀ c : Int,
      (vx_spawn_tasks_locals 3 1 2 c 10).nc
          = MIN (if (10 : Int) > 1 * 2 then 10 / (1 * 2) else 1) 3
      ∧ (vx_spawn_tasks_locals 3 1 2 c 10).tasks_per_core
          = 10 / (vx_spawn_tasks_locals 3 1 2 c 10).nc
      ∧ (vx_spawn_tasks_locals 3 1 2 c 10).tasks_per_core_n1
          = if c = (vx_spawn_tasks_locals 3 1 2 c 10).nc - 1
            then (vx_spawn_tasks_locals 3 1 2 c 10).tasks_per_core
              + (10 - (vx_spawn_tasks_locals 3 1 2 c 10).nc
                  * (vx_spawn_tasks_locals 3 1 2 c 10).tasks_per_core)
            else (vx_spawn_tasks_locals 3 1 2 c 10).tasks_per_core)
    ∧ ((List.range (vx_spawn_tasks_locals 3 1 2 0 10).nc.toNat).map
        (fun (c : Nat) => (vx_spawn_tasks_locals 3 1 2 (c : Int) 10).tasks_per_core_n1)).sum
      = 10)
    ∧ (List.range 3).map
        (fun (c : Nat) => (vx_spawn_tasks_locals 3 1 2 (c : Int) 10).tasks_per_core_n1)
      = [3, 3, 4] :=
  ⟨by decide, C5_shares_sum_to_T 3 1 2 10 (by decide) (by decide) (by decide) (by decide),
    by decide⟩

/-- The ranges of the participating cores tile `[0, T)`: every identifier below `T` lies in the
range of exactly one participating core, and the ranges stay within `[0, T)`. -/

theorem core_ranges_partition (NC NW NT T : Int) (hT : 1 ≤ T) (hNC : 1 ≤ NC) (hNW : 1 ≤ NW)
    (hNT : 1 ≤ NT) (x : Int) :
    (0 ≤ x ∧ x < T) ↔
      ∃ c : Int, (0 ≤ c ∧ c < nc_of NC NW NT T)
        ∧ (vx_spawn_tasks_locals NC NW NT c T).offset ≤ x
        ∧ x < (vx_spawn_tasks_locals NC NW NT c T).offset
              + (vx_spawn_tasks_locals NC NW NT c T).tasks_per_core_n1 := by
  obtain ⟨hn1, hn2, hn3⟩ := nc_of_bounds NC NW NT T hT hNC hNW hNT
  have hso := fun c => locals_share_offset NC NW NT c T hT hNC hNW hNT
  generalize nc_of NC NW NT T = n at *
  have hq1 : 1 ≤ T / n := Int.le_ediv_of_mul_le (by omega) (by omega)
  have hm := Int.emod_add_ediv T n
  have hm0 := Int.emod_nonneg T (b := n) (by omega)
  generalize T / n = p at *
  constructor
  · rintro ⟨h0, h1⟩
    by_cases hc : x / p < n - 1
    · refine ⟨x / p, ⟨Int.ediv_nonneg h0 (by omega), by omega⟩, ?_⟩
      rw [(hso (x / p)).1, (hso (x / p)).2, if_neg (by omega)]
      have e := Int.emod_add_ediv x p
      have e0 := Int.emod_nonneg x (b := p) (by omega)
      have e1 := Int.emod_lt_of_pos x (b := p) (by omega)
      constructor <;> nlinarith
    · refine ⟨n - 1, ⟨by omega, by omega⟩, ?_⟩
      rw [(hso (n - 1)).1, (hso (n - 1)).2, if_pos rfl]
      have e := Int.emod_add_ediv x p
      have e0 := Int.emod_nonneg x (b := p) (by omega)
      have hge : n - 1 ≤ x / p := by omega
      have : (n - 1) * p ≤ (x / p) * p := mul_le_mul_of_nonneg_right hge (by omega)
      constructor <;> nlinarith
  · rintro ⟨c, ⟨hc0, hc1⟩, hlo, hhi⟩
    rw [(hso c).1] at hlo hhi
    rw [(hso c).2] at hhi
    have hcp : 0 ≤ c * p := mul_nonneg hc0 (by omega)
    refine ⟨by omega, ?_⟩
    split at hhi
    · rename_i h; subst h; linarith
    · have : (c + 1) * p ≤ (n - 1) * p := mul_le_mul_of_nonneg_right (by omega) (by omega)
      nlinarith

/-- Two participating cores whose ranges share an identifier are the same core. -/

theorem core_ranges_disjoint (NC NW NT T : Int) (hT : 1 ≤ T) (hNC : 1 ≤ NC) (hNW : 1 ≤ NW)
    (hNT : 1 ≤ NT) (x c d : Int) (hc : 0 ≤ c ∧ c < nc_of NC NW NT T)
    (hd : 0 ≤ d ∧ d < nc_of NC NW NT T)
    (hxc : (vx_spawn_tasks_locals NC NW NT c T).offset ≤ x
      ∧ x < (vx_spawn_tasks_locals NC NW NT c T).offset
            + (vx_spawn_tasks_locals NC NW NT c T).tasks_per_core_n1)
    (hxd : (vx_spawn_tasks_locals NC NW NT d T).offset ≤ x
      ∧ x < (vx_spawn_tasks_locals NC NW NT d T).offset
            + (vx_spawn_tasks_locals NC NW NT d T).tasks_per_core_n1) :
    c = d := by
  obtain ⟨hn1, hn2, hn3⟩ := nc_of_bounds NC NW NT T hT hNC hNW hNT
  have hso := fun c => locals_share_offset NC NW NT c T hT hNC hNW hNT
  rw [(hso c).1, (hso c).2] at hxc
  rw [(hso d).1, (hso d).2] at hxd
  generalize nc_of NC NW NT T = n at *
  have hq1 : 1 ≤ T / n := Int.le_ediv_of_mul_le (by omega) (by omega)
  generalize T / n = p at *
  -- a core below another one ends before the other one starts
  have key : ∀ a b : Int, 0 ≤ a → a < b → b < n →
      a * p ≤ x → x < a * p + (if a = n - 1 then T - (n - 1) * p else p) → b * p ≤ x → False := by
    intro a b _ hab hbn _ h2 h3
    rw [if_neg (by omega)] at h2
    have : (a + 1) * p ≤ b * p := mul_le_mul_of_nonneg_right (by omega) (by omega)
    nlinarith
  rcases lt_trichotomy c d with h | h | h
  · exact (key c d hc.1 h hd.2 hxc.1 hxc.2 hxd.1).elim
  · exact h
  · exact (key d c hd.1 h hc.2 hxd.1 hxd.2 hxc.1).elim

/-- C6: for every `T ≥ 1` and topology, with `nc` and `tasks_per_core` as computed by
`vx_spawn_tasks`, the range `[offset_c, offset_c + share_c)` of core `c`, where
`offset_c = c * tasks_per_core`, satisfies `offset_0 = 0`,
`offset_{c+1} = offset_c + share_c` for every `0 ≤ c < nc-1`, and
`offset_{nc-1} + share_{nc-1} = T`; the ranges of distinct participating cores are disjoint
and their union is `[0, T)`. -/

theorem C6_core_ranges_contiguous (NC NW NT T : Int) (hT : 1 ≤ T) (hNC : 1 ≤ NC)
    (hNW : 1 ≤ NW) (hNT : 1 ≤ NT) :
    (∀ c : Int, (vx_spawn_tasks_locals NC NW NT c T).offset
        = c * (vx_spawn_tasks_locals NC NW NT c T).tasks_per_core)
    ∧ (vx_spawn_tasks_locals NC NW NT 0 T).offset = 0
    ∧ (∀ c : Int, 0 ≤ c → c < (vx_spawn_tasks_locals NC NW NT c T).nc - 1 →
        (vx_spawn_tasks_locals NC NW NT (c + 1) T).offset
          = (vx_spawn_tasks_locals NC NW NT c T).offset
            + (vx_spawn_tasks_locals NC NW NT c T).tasks_per_core_n1)
    ∧ (vx_spawn_tasks_locals NC NW NT ((vx_spawn_tasks_locals NC NW NT 0 T).nc - 1) T).offset
        + (vx_spawn_tasks_locals NC NW NT
            ((vx_spawn_tasks_locals NC NW NT 0 T).nc - 1) T).tasks_per_core_n1 = T
    ∧ (∀ x c d : Int,
        (0 ≤ c ∧ c < (vx_spawn_tasks_locals NC NW NT 0 T).nc) →
        (0 ≤ d ∧ d < (vx_spawn_tasks_locals NC NW NT 0 T).nc) →
        ((vx_spawn_tasks_locals NC NW NT c T).offset ≤ x
          ∧ x < (vx_spawn_tasks_locals NC NW NT c T).offset
                + (vx_spawn_tasks_locals NC NW NT c T).tasks_per_core_n1) →
        ((vx_spawn_tasks_locals NC NW NT d T).offset ≤ x
          ∧ x < (vx_spawn_tasks_locals NC NW NT d T).offset
                + (vx_spawn_tasks_locals NC NW NT d T).tasks_per_core_n1) →
        c = d)
    ∧ (∀ x : Int, (0 ≤ x ∧ x < T) ↔
        ∃ c : Int, (0 ≤ c ∧ c < (vx_spawn_tasks_locals NC NW NT 0 T).nc)
          ∧ (vx_spawn_tasks_locals NC NW NT c T).offset ≤ x
          ∧ x < (vx_spawn_tasks_locals NC NW NT c T).offset
                + (vx_spawn_tasks_locals NC NW NT c T).tasks_per_core_n1) := by
  have hso := fun c => locals_share_offset NC NW NT c T hT hNC hNW hNT
  refine ⟨fun c => rfl, ?_, ?_, ?_, ?_, ?_⟩
  · rw [(hso 0).1]; ring
  · intro c _ hc
    rw [locals_nc] at hc
    rw [(hso (c + 1)).1, (hso c).1, (hso c).2, if_neg (by omega)]
    ring
  · rw [locals_nc, (hso _).1, (hso _).2, if_pos rfl]
    ring
  · intro x c d hc hd hxc hxd
    rw [locals_nc] at hc hd
    exact core_ranges_disjoint NC NW NT T hT hNC hNW hNT x c d hc hd hxc hxd
  · intro x
    rw [locals_nc]
    exact core_ranges_partition NC NW NT T hT hNC hNW hNT x

/-- C6, witness: scenario C, `T = 100` on `NC = 2` cores of two waves of two lanes: `nc = 2`,
`tasks_per_core = 50`, core 0 has the range `0 .. 49` and core 1 the range `50 .. 99`. -/

theorem C6_core_ranges_contiguous_witness :
    ((1 : Int) ≤ 100 ∧ (1 : Int) ≤ 2)
    ∧ ((∀ c : Int, (vx_spawn_tasks_locals 2 2 2 c 100).offset
        = c * (vx_spawn_tasks_locals 2 2 2 c 100).tasks_per_core)
    ∧ (vx_spawn_tasks_locals 2 2 2 0 100).offset = 0
    ∧ (∀ c : Int, 0 ≤ c → c < (vx_spawn_tasks_locals 2 2 2 c 100).nc - 1 →
        (vx_spawn_tasks_locals 2 2 2 (c + 1) 100).offset
          = (vx_spawn_tasks_locals 2 2 2 c 100).offset
            + (vx_spawn_tasks_locals 2 2 2 c 100).tasks_per_core_n1)
    ∧ (vx_spawn_tasks_locals 2 2 2 ((vx_spawn_tasks_locals 2 2 2 0 100).nc - 1) 100).offset
        + (vx_spawn_tasks_locals 2 2 2
            ((vx_spawn_tasks_locals 2 2 2 0 100).nc - 1) 100).tasks_per_core_n1 = 100
    ∧ (∀ x c d : Int,
        (0 ≤ c ∧ c < (vx_spawn_tasks_locals 2 2 2 0 100).nc) →
        (0 ≤ d ∧ d < (vx_spawn_tasks_locals 2 2 2 0 100).nc) →
        ((vx_spawn_tasks_locals 2 2 2 c 100).offset ≤ x
          ∧ x < (vx_spawn_tasks_locals 2 2 2 c 100).offset
                + (vx_spawn_tasks_locals 2 2 2 c 100).tasks_per_core_n1) →
        ((vx_spawn_tasks_locals 2 2 2 d 100).offset ≤ x
          ∧ x < (vx_spawn_tasks_locals 2 2 2 d 100).offset
                + (vx_spawn_tasks_locals 2 2 2 d 100).tasks_per_core_n1) →
        c = d)
    ∧ (∀ x : Int, (0 ≤ x ∧ x < 100) ↔
        ∃ c : Int, (0 ≤ c ∧ c < (vx_spawn_tasks_locals 2 2 2 0 100).nc)
          ∧ (vx_spawn_tasks_locals 2 2 2 c 100).offset ≤ x
          ∧ x < (vx_spawn_tasks_locals 2 2 2 c 100).offset
                + (vx_spawn_tasks_locals 2 2 2 c 100).tasks_per_core_n1))
    ∧ ((vx_spawn_tasks_locals 2 2 2 0 100).nc = 2
      ∧ (vx_spawn_tasks_locals 2 2 2 0 100).tasks_per_core = 50
      ∧ (vx_spawn_tasks_locals 2 2 2 0 100).offset = 0
      ∧ (vx_spawn_tasks_locals 2 2 2 0 100).tasks_per_core_n1 = 50
      ∧ (vx_spawn_tasks_locals 2 2 2 1 100).offset = 50
      ∧ (vx_spawn_tasks_locals 2 2 2 1 100).tasks_per_core_n1 = 50) :=
  ⟨by decide, C6_core_ranges_contiguous 2 2 2 100 (by decide) (by decide) (by decide)
    (by decide), by decide⟩

/-! ### C7: the batch counts of the waves -/

/-- The distribution of a non-negative share over waves and lanes, as `vx_spawn_tasks` computes
it. -/

theorem locals_dist_facts (NC NW NT c T : Int) (hNW : 1 ≤ NW) (hNT : 1 ≤ NT)
    (hS : 0 ≤ (vx_spawn_tasks_locals NC NW NT c T).tasks_per_core_n1) :
    (vx_spawn_tasks_locals NC NW NT c T).TW
        = (vx_spawn_tasks_locals NC NW NT c T).tasks_per_core_n1 / NT
    ∧ 0 ≤ (vx_spawn_tasks_locals NC NW NT c T).TW
    ∧ (vx_spawn_tasks_locals NC NW NT c T).TW
        ≤ (vx_spawn_tasks_locals NC NW NT c T).tasks_per_core_n1
    ∧ (vx_spawn_tasks_locals NC NW NT c T).rT
        = (vx_spawn_tasks_locals NC NW NT c T).tasks_per_core_n1 % NT
    ∧ 0 ≤ (vx_spawn_tasks_locals NC NW NT c T).rT
    ∧ (vx_spawn_tasks_locals NC NW NT c T).rT < NT
    ∧ (vx_spawn_tasks_locals NC NW NT c T).tasks_per_core_n1
        = (vx_spawn_tasks_locals NC NW NT c T).TW * NT + (vx_spawn_tasks_locals NC NW NT c T).rT
    ∧ (vx_spawn_tasks_locals NC NW NT c T).remain
        = (vx_spawn_tasks_locals NC NW NT c T).offset
          + (vx_spawn_tasks_locals NC NW NT c T).TW * NT
    ∧ (vx_spawn_tasks_locals NC NW NT c T).fW
        = (if (vx_spawn_tasks_locals NC NW NT c T).TW ≥ NW
           then (vx_spawn_tasks_locals NC NW NT c T).TW / NW else 1)
    ∧ (vx_spawn_tasks_locals NC NW NT c T).rW
        = (if (vx_spawn_tasks_locals NC NW NT c T).TW ≥ NW
           then (vx_spawn_tasks_locals NC NW NT c T).TW % NW else 0)
    ∧ 1 ≤ (vx_spawn_tasks_locals NC NW NT c T).fW
    ∧ 0 ≤ (vx_spawn_tasks_locals NC NW NT c T).rW
    ∧ (vx_spawn_tasks_locals NC NW NT c T).rW < NW := by
  generalize hSd : (vx_spawn_tasks_locals NC NW NT c T).tasks_per_core_n1 = S at hS ⊢
  have hTWd : (vx_spawn_tasks_locals NC NW NT c T).TW = Int.tdiv S NT := by rw [← hSd]; rfl
  have hrTd : (vx_spawn_tasks_locals NC NW NT c T).rT
      = S - (vx_spawn_tasks_locals NC NW NT c T).TW * NT := by rw [← hSd]; rfl
  have hremd : (vx_spawn_tasks_locals NC NW NT c T).remain
      = (vx_spawn_tasks_locals NC NW NT c T).offset
        + (S - (vx_spawn_tasks_locals NC NW NT c T).rT) := by rw [← hSd]; rfl
  have hfWd : (vx_spawn_tasks_locals NC NW NT c T).fW
      = (if (vx_spawn_tasks_locals NC NW NT c T).TW ≥ NW
         then Int.tdiv (vx_spawn_tasks_locals NC NW NT c T).TW NW else 1) := rfl
  have hrWd : (vx_spawn_tasks_locals NC NW NT c T).rW
      = (if (vx_spawn_tasks_locals NC NW NT c T).TW ≥ NW
         then (vx_spawn_tasks_locals NC NW NT c T).TW
            - Int.tdiv (vx_spawn_tasks_locals NC NW NT c T).TW NW * NW else 0) := rfl
  generalize (vx_spawn_tasks_locals NC NW NT c T).TW = TW at *
  generalize (vx_spawn_tasks_locals NC NW NT c T).rT = rT at *
  generalize (vx_spawn_tasks_locals NC NW NT c T).fW = fW at *
  generalize (vx_spawn_tasks_locals NC NW NT c T).rW = rW at *
  generalize (vx_spawn_tasks_locals NC NW NT c T).remain = remain at *
  generalize (vx_spawn_tasks_locals NC NW NT c T).offset = offset at *
  rw [Int.tdiv_eq_ediv hS (by omega)] at hTWd
  have hTW0 : 0 ≤ TW := by rw [hTWd]; exact Int.ediv_nonneg hS (by omega)
  rw [Int.tdiv_eq_ediv hTW0 (by omega)] at hfWd hrWd
  have hm := Int.emod_add_ediv S NT
  have hm0 := Int.emod_nonneg S (b := NT) (by omega)
  have hm1 := Int.emod_lt_of_pos S (b := NT) (by omega)
  have hw := Int.emod_add_ediv TW NW
  have hw0 := Int.emod_nonneg TW (b := NW) (by omega)
  have hw1 := Int.emod_lt_of_pos TW (b := NW) (by omega)
  rw [← hTWd] at hm
  have hrT : rT = S % NT := by rw [hrTd]; linarith
  have hTWS : TW ≤ S := by
    have : TW * 1 ≤ TW * NT := mul_le_mul_of_nonneg_left hNT hTW0
    linarith
  have hrW : rW = if TW ≥ NW then TW % NW else 0 := by
    rw [hrWd]
    split
    · linarith
    · rfl
  refine ⟨hTWd, hTW0, hTWS, hrT, by omega, by omega, by rw [hrT]; linarith,
    by rw [hremd, hrT]; linarith, hfWd, hrW, ?_, ?_, ?_⟩
  · rw [hfWd]
    split
    · exact Int.le_ediv_of_mul_le (by omega) (by omega)
    · exact le_refl _
  · rw [hrW]; split <;> omega
  · rw [hrW]; split <;> omega

/-- The batch counts of the waves `0 .. m-1` add up to the starting batch index of wave `m`. -/

theorem tK_sum (fW rW : Int) (hrW : 0 ≤ rW) (m : Nat) :
    ((List.range m).map (fun (w : Nat) => fW + (if (w : Int) < rW then 1 else 0))).sum
      = wK_at fW rW (m : Int) := by
  induction m with
  | zero => rw [List.range_zero, List.map_nil, List.sum_nil, Nat.cast_zero, wK_at_zero _ _ hrW]
  | succ m ih =>
    rw [List.range_succ, List.map_append, List.sum_append, ih, List.map_singleton,
      List.sum_singleton]
    push_cast
    rw [wK_at_succ]
    unfold tK_at c_bool
    simp only [decide_eq_true_eq]

/-- Every identifier the bulk loop calls back on is the start plus a multiple of the stride, and
is below the bound of the loop. -/

theorem tasks_loop_mem (NT N : Int) :
    ∀ (fuel : Nat) (o : Int) (calls : List Int), tasks_loop NT N fuel o = some calls →
      ∀ x ∈ calls, ∃ b : Nat, x = o + (b : Int) * NT ∧ x < N := by
  intro fuel
  induction fuel with
  | zero => intro o calls h; exact Option.noConfusion h
  | succ f ih =>
    intro o calls h x hx
    rw [tasks_loop] at h
    split at h
    · rename_i hlt
      cases hr : tasks_loop NT N f (o + NT) with
      | none => rw [hr] at h; exact Option.noConfusion h
      | some rest =>
        rw [hr] at h
        simp only [Option.map_some', Option.some.injEq] at h
        subst h
        rcases List.mem_cons.1 hx with rfl | hmem
        · exact ⟨0, by simp, hlt⟩
        · obtain ⟨b, hb, hbN⟩ := ih (o + NT) rest hr x hmem
          exact ⟨b + 1, by rw [hb]; push_cast; ring, hbN⟩
    · simp only [Option.some.injEq] at h
      subst h
      exact absurd hx (List.not_mem_nil _)

theorem wK_at_mono (fW rW a b : Int) (hf : 0 ≤ fW) (hab : a ≤ b) :
    wK_at fW rW a ≤ wK_at fW rW b := by
  unfold wK_at MIN
  have : fW * a ≤ fW * b := mul_le_mul_of_nonneg_left hab hf
  split_ifs <;> omega

/-- Every identifier a requested wave calls back on in the bulk stub is below
`offset + TW * NT`. -/

theorem bulk_ids_below (NC NW NT c T : Int) (hNW : 1 ≤ NW) (hNT : 1 ≤ NT)
    (hS : 0 ≤ (vx_spawn_tasks_locals NC NW NT c T).tasks_per_core_n1)
    (fuel : Nat) (wid tid : Int) (calls : List Int)
    (hw0 : 0 ≤ wid) (hw1 : wid < MIN (vx_spawn_tasks_locals NC NW NT c T).TW NW)
    (ht1 : tid < NT)
    (hc : spawn_tasks_all_stub fuel NT wid tid
        { offset := (vx_spawn_tasks_locals NC NW NT c T).offset,
          remain := (vx_spawn_tasks_locals NC NW NT c T).remain,
          FWs := (vx_spawn_tasks_locals NC NW NT c T).fW,
          RWs := (vx_spawn_tasks_locals NC NW NT c T).rW } = some calls) :
    ∀ x ∈ calls, x < (vx_spawn_tasks_locals NC NW NT c T).offset
        + (vx_spawn_tasks_locals NC NW NT c T).TW * NT := by
  obtain ⟨-, hTW0, -, -, -, -, -, -, hfW, hrW, hfW1, hrW0, hrW1⟩ :=
    locals_dist_facts NC NW NT c T hNW hNT hS
  intro x hx
  have hTW : 1 ≤ (vx_spawn_tasks_locals NC NW NT c T).TW := by
    unfold MIN at hw1; split at hw1 <;> omega
  have htot := wK_at_total NW (vx_spawn_tasks_locals NC NW NT c T).TW (by omega) hTW
  have hfW' : (vx_spawn_tasks_locals NC NW NT c T).fW
      = (if (vx_spawn_tasks_locals NC NW NT c T).TW ≥ NW
         then Int.tdiv (vx_spawn_tasks_locals NC NW NT c T).TW NW else 1) := rfl
  have hrW' : (vx_spawn_tasks_locals NC NW NT c T).rW
      = (if (vx_spawn_tasks_locals NC NW NT c T).TW ≥ NW
         then (vx_spawn_tasks_locals NC NW NT c T).TW
            - Int.tdiv (vx_spawn_tasks_locals NC NW NT c T).TW NW * NW else 0) := rfl
  rw [← hfW', ← hrW'] at htot
  have hmono := wK_at_mono (vx_spawn_tasks_locals NC NW NT c T).fW
    (vx_spawn_tasks_locals NC NW NT c T).rW (wid + 1)
    (MIN (vx_spawn_tasks_locals NC NW NT c T).TW NW) (by omega) (by omega)
  rw [wK_at_succ, htot] at hmono
  obtain ⟨b, hb, hbN⟩ := tasks_loop_mem NT _ fuel _ calls hc x hx
  change x = (vx_spawn_tasks_locals NC NW NT c T).offset
      + wK_at (vx_spawn_tasks_locals NC NW NT c T).fW
          (vx_spawn_tasks_locals NC NW NT c T).rW wid * NT + tid + (b : Int) * NT at hb
  change x < (vx_spawn_tasks_locals NC NW NT c T).offset
      + wK_at (vx_spawn_tasks_locals NC NW NT c T).fW
          (vx_spawn_tasks_locals NC NW NT c T).rW wid * NT + tid
      + tK_at (vx_spawn_tasks_locals NC NW NT c T).fW
          (vx_spawn_tasks_locals NC NW NT c T).rW wid * NT at hbN
  generalize wK_at (vx_spawn_tasks_locals NC NW NT c T).fW
    (vx_spawn_tasks_locals NC NW NT c T).rW wid = wK at *
  generalize tK_at (vx_spawn_tasks_locals NC NW NT c T).fW
    (vx_spawn_tasks_locals NC NW NT c T).rW wid = tK at *
  generalize (vx_spawn_tasks_locals NC NW NT c T).TW = TW at *
  generalize (vx_spawn_tasks_locals NC NW NT c T).offset = base at *
  have h1 : (b : Int) * NT < tK * NT := by linarith
  have h2 : (b : Int) < tK := lt_of_mul_lt_mul_right h1 (by omega)
  have h3 : ((b : Int) + 1) * NT ≤ tK * NT := mul_le_mul_of_nonneg_right (by omega) (by omega)
  have h4 : (wK + tK) * NT ≤ TW * NT := mul_le_mul_of_nonneg_right hmono (by omega)
  rw [hb]
  nlinarith

/-- The lane mask of the remainder dispatch: bit `t` is set exactly when `t < rT`. -/

theorem rem_mask_testBit (rT : Int) (h0 : 0 ≤ rT) (t : Nat) :
    (((1 : Int) <<< rT) - 1).testBit t = decide ((t : Int) < rT) := by
  obtain ⟨r, rfl⟩ := Int.eq_ofNat_of_zero_le h0
  have hmask : ((1 : Int) <<< (r : Int)) - 1 = ((2 ^ r - 1 : Nat) : Int) := by
    rw [Int.one_shiftLeft]
    have : 1 ≤ 2 ^ r := Nat.one_le_two_pow
    omega
  rw [hmask]
  show Nat.testBit (2 ^ r - 1) t = _
  rw [Nat.testBit_two_pow_sub_one]
  simp

theorem rem_mask_bounds (rT : Int) (h0 : 1 ≤ rT) (h1 : rT < 32) :
    0 < ((1 : Int) <<< rT) - 1 ∧ ((1 : Int) <<< rT) - 1 < 2 ^ 31 := by
  obtain ⟨r, rfl⟩ := Int.eq_ofNat_of_zero_le (by omega : 0 ≤ rT)
  rw [Int.one_shiftLeft]
  have hr1 : 1 ≤ r := by omega
  have hr2 : r ≤ 31 := by omega
  have h2 : 2 ^ 1 ≤ 2 ^ r := Nat.pow_le_pow_right (by norm_num) hr1
  have h3 : 2 ^ r ≤ 2 ^ 31 := Nat.pow_le_pow_right (by norm_num) hr2
  have h4 : ((2 ^ r : Nat) : Int) ≤ 2 ^ 31 := by exact_mod_cast h3
  have h5 : (2 : Int) ≤ ((2 ^ r : Nat) : Int) := by exact_mod_cast h2
  constructor <;> omega

/-- C8: for every core share `S ≥ 0` and `NT` with `1 ≤ NT ≤ 32`, `rT = S - (S / NT) * NT`
satisfies `0 ≤ rT < NT`; when `rT ≠ 0` the dispatcher sets the lane mask `(1 << rT) - 1` before
the remainder stub, a positive `int` whose set bits are exactly the bits `0 .. rT-1`, so that
exactly the `rT` lanes `0 .. rT-1` are active; each lane `tid` calls back once, on
`offset + (S - rT) + tid`; and every such identifier is at least `offset + TW*NT`, while every
identifier a requested wave calls back on in the bulk stub is below `offset + TW*NT`. -/

theorem C8_remainder_dispatch (NC NW NT c T : Int) (hNW : 1 ≤ NW) (hNT : 1 ≤ NT)
    (hNT32 : NT ≤ 32)
    (hS : 0 ≤ (vx_spawn_tasks_locals NC NW NT c T).tasks_per_core_n1) :
    ((vx_spawn_tasks_locals NC NW NT c T).rT
        = (vx_spawn_tasks_locals NC NW NT c T).tasks_per_core_n1
          - ((vx_spawn_tasks_locals NC NW NT c T).tasks_per_core_n1 / NT) * NT
      ∧ 0 ≤ (vx_spawn_tasks_locals NC NW NT c T).rT
      ∧ (vx_spawn_tasks_locals NC NW NT c T).rT < NT)
    ∧ ((vx_spawn_tasks_locals NC NW NT c T).rT ≠ 0 →
        [Op.tmc (((1 : Int) <<< (vx_spawn_tasks_locals NC NW NT c T).rT) - 1), Op.rem_stub, Op.tmc_one]
            <:+: spawn_ops ({ offset := (vx_spawn_tasks_locals NC NW NT c T).offset,
                                    remain := (vx_spawn_tasks_locals NC NW NT c T).remain,
                                    FWs := (vx_spawn_tasks_locals NC NW NT c T).fW,
                                    RWs := (vx_spawn_tasks_locals NC NW NT c T).rW } : wspawn_tasks_args_t) NW
              (vx_spawn_tasks_locals NC NW NT c T).TW (vx_spawn_tasks_locals NC NW NT c T).rT
        ∧ (∀ t : Nat, (((1 : Int) <<< (vx_spawn_tasks_locals NC NW NT c T).rT) - 1).testBit t
            = decide ((t : Int) < (vx_spawn_tasks_locals NC NW NT c T).rT))
        ∧ 0 < ((1 : Int) <<< (vx_spawn_tasks_locals NC NW NT c T).rT) - 1
        ∧ ((1 : Int) <<< (vx_spawn_tasks_locals NC NW NT c T).rT) - 1 < 2 ^ 31
        ∧ active_lanes NT (((1 : Int) <<< (vx_spawn_tasks_locals NC NW NT c T).rT) - 1)
            = irange 0 (vx_spawn_tasks_locals NC NW NT c T).rT.toNat
        ∧ ((active_lanes NT (((1 : Int) <<< (vx_spawn_tasks_locals NC NW NT c T).rT) - 1)).length : Int)
            = (vx_spawn_tasks_locals NC NW NT c T).rT)
    ∧ (∀ tid : Int,
        spawn_tasks_rem_stub tid
          { offset := (vx_spawn_tasks_locals NC NW NT c T).offset,
                                    remain := (vx_spawn_tasks_locals NC NW NT c T).remain,
                                    FWs := (vx_spawn_tasks_locals NC NW NT c T).fW,
                                    RWs := (vx_spawn_tasks_locals NC NW NT c T).rW }
          = [(vx_spawn_tasks_locals NC NW NT c T).offset
              + ((vx_spawn_tasks_locals NC NW NT c T).tasks_per_core_n1
                  - (vx_spawn_tasks_locals NC NW NT c T).rT) + tid])
    ∧ (∀ tid : Int, 0 ≤ tid →
        (vx_spawn_tasks_locals NC NW NT c T).offset + (vx_spawn_tasks_locals NC NW NT c T).TW * NT
          ≤ (vx_spawn_tasks_locals NC NW NT c T).offset
              + ((vx_spawn_tasks_locals NC NW NT c T).tasks_per_core_n1
                  - (vx_spawn_tasks_locals NC NW NT c T).rT) + tid)
    ∧ (∀ (fuel : Nat) (wid tid : Int) (calls : List Int),
        0 ≤ wid → wid < MIN (vx_spawn_tasks_locals NC NW NT c T).TW NW → tid < NT →
        spawn_tasks_all_stub fuel NT wid tid
          { offset := (vx_spawn_tasks_locals NC NW NT c T).offset,
                                    remain := (vx_spawn_tasks_locals NC NW NT c T).remain,
                                    FWs := (vx_spawn_tasks_locals NC NW NT c T).fW,
                                    RWs := (vx_spawn_tasks_locals NC NW NT c T).rW } = some calls →
        ∀ x ∈ calls, x < (vx_spawn_tasks_locals NC NW NT c T).offset
            + (vx_spawn_tasks_locals NC NW NT c T).TW * NT) := by
  obtain ⟨hTWd, hTW0, -, hrT, hrT0, hrT1, hsplit, hrem, -, -, -, -, -⟩ :=
    locals_dist_facts NC NW NT c T hNW hNT hS
  refine ⟨⟨?_, hrT0, hrT1⟩, ?_, ?_, ?_, ?_⟩
  · rw [← hTWd]; linarith
  · intro hne
    have hb := rem_mask_bounds (vx_spawn_tasks_locals NC NW NT c T).rT (by omega) (by omega)
    have hl := active_lanes_mask NT (vx_spawn_tasks_locals NC NW NT c T).rT hrT0 (by omega)
    refine ⟨?_, fun t => rem_mask_testBit _ hrT0 t, hb.1, hb.2, hl, ?_⟩
    · unfold spawn_ops
      rw [if_pos hne]
      exact ⟨_, [Op.wspawn_wait], rfl⟩
    · rw [hl, length_irange, Int.toNat_of_nonneg hrT0]
  · intro tid
    show [(vx_spawn_tasks_locals NC NW NT c T).remain + tid] = _
    rw [hrem, hsplit]
    congr 1
    ring
  · intro tid htid
    rw [hsplit]
    linarith
  · intro fuel wid tid calls hw0 hw1 ht1 hc
    exact bulk_ids_below NC NW NT c T hNW hNT hS fuel wid tid calls hw0 hw1 ht1 hc

/-- C8, witness: scenario A, `T = 10` with `NC = NW = NT = 4`: on core 0 the share is 10,
`rT = 2`, the mask is `3`, and the lanes 0 and 1 call back on 8 and 9. -/

theorem C8_remainder_dispatch_witness :
    ((1 : Int) ≤ 4 ∧ (4 : Int) ≤ 32 ∧ 0 ≤ (vx_spawn_tasks_locals 4 4 4 0 10).tasks_per_core_n1)
    ∧ (((vx_spawn_tasks_locals 4 4 4 0 10).rT
        = (vx_spawn_tasks_locals 4 4 4 0 10).tasks_per_core_n1
          - ((vx_spawn_tasks_locals 4 4 4 0 10).tasks_per_core_n1 / 4) * 4
      ∧ 0 ≤ (vx_spawn_tasks_locals 4 4 4 0 10).rT
      ∧ (vx_spawn_tasks_locals 4 4 4 0 10).rT < 4)
    ∧ ((vx_spawn_tasks_locals 4 4 4 0 10).rT ≠ 0 →
        [Op.tmc (((1 : Int) <<< (vx_spawn_tasks_locals 4 4 4 0 10).rT) - 1), Op.rem_stub, Op.tmc_one]
            <:+: spawn_ops ({ offset := (vx_spawn_tasks_locals 4 4 4 0 10).offset,
                                    remain := (vx_spawn_tasks_locals 4 4 4 0 10).remain,
                                    FWs := (vx_spawn_tasks_locals 4 4 4 0 10).fW,
                                    RWs := (vx_spawn_tasks_locals 4 4 4 0 10).rW } : wspawn_tasks_args_t) 4
              (vx_spawn_tasks_locals 4 4 4 0 10).TW (vx_spawn_tasks_locals 4 4 4 0 10).rT
        ∧ (∀ t : Nat, (((1 : Int) <<< (vx_spawn_tasks_locals 4 4 4 0 10).rT) - 1).testBit t
            = decide ((t : Int) < (vx_spawn_tasks_locals 4 4 4 0 10).rT))
        ∧ 0 < ((1 : Int) <<< (vx_spawn_tasks_locals 4 4 4 0 10).rT) - 1
        ∧ ((1 : Int) <<< (vx_spawn_tasks_locals 4 4 4 0 10).rT) - 1 < 2 ^ 31
        ∧ active_lanes 4 (((1 : Int) <<< (vx_spawn_tasks_locals 4 4 4 0 10).rT) - 1)
            = irange 0 (vx_spawn_tasks_locals 4 4 4 0 10).rT.toNat
        ∧ ((active_lanes 4 (((1 : Int) <<< (vx_spawn_tasks_locals 4 4 4 0 10).rT) - 1)).length : Int)
            = (vx_spawn_tasks_locals 4 4 4 0 10).rT)
    ∧ (∀ tid : Int,
        spawn_tasks_rem_stub tid
          { offset := (vx_spawn_tasks_locals 4 4 4 0 10).offset,
                                    remain := (vx_spawn_tasks_locals 4 4 4 0 10).remain,
                                    FWs := (vx_spawn_tasks_locals 4 4 4 0 10).fW,
                                    RWs := (vx_spawn_tasks_locals 4 4 4 0 10).rW }
          = [(vx_spawn_tasks_locals 4 4 4 0 10).offset
              + ((vx_spawn_tasks_locals 4 4 4 0 10).tasks_per_core_n1
                  - (vx_spawn_tasks_locals 4 4 4 0 10).rT) + tid])
    ∧ (∀ tid : Int, 0 ≤ tid →
        (vx_spawn_tasks_locals 4 4 4 0 10).offset + (vx_spawn_tasks_locals 4 4 4 0 10).TW * 4
          ≤ (vx_spawn_tasks_locals 4 4 4 0 10).offset
              + ((vx_spawn_tasks_locals 4 4 4 0 10).tasks_per_core_n1
                  - (vx_spawn_tasks_locals 4 4 4 0 10).rT) + tid)
    ∧ (∀ (fuel : Nat) (wid tid : Int) (calls : List Int),
        0 ≤ wid → wid < MIN (vx_spawn_tasks_locals 4 4 4 0 10).TW 4 → tid < 4 →
        spawn_tasks_all_stub fuel 4 wid tid
          { offset := (vx_spawn_tasks_locals 4 4 4 0 10).offset,
                                    remain := (vx_spawn_tasks_locals 4 4 4 0 10).remain,
                                    FWs := (vx_spawn_tasks_locals 4 4 4 0 10).fW,
                                    RWs := (vx_spawn_tasks_locals 4 4 4 0 10).rW } = some calls →
        ∀ x ∈ calls, x < (vx_spawn_tasks_locals 4 4 4 0 10).offset
            + (vx_spawn_tasks_locals 4 4 4 0 10).TW * 4))
    ∧ ((vx_spawn_tasks_locals 4 4 4 0 10).rT = 2
      ∧ ((1 : Int) <<< (vx_spawn_tasks_locals 4 4 4 0 10).rT) - 1 = 3
      ∧ active_lanes 4 3 = [0, 1]
      ∧ spawn_tasks_rem_stub 0 ⟨0, 8, 1, 0⟩ = [8]
      ∧ spawn_tasks_rem_stub 1 ⟨0, 8, 1, 0⟩ = [9]) :=
  ⟨by decide, C8_remainder_dispatch 4 4 4 0 10 (by decide) (by decide) (by decide) (by decide),
    by decide⟩

/-! ### C9: the cores that do not participate -/

theorem vx_spawn_tasks_idle (NC NW NT T c : Int) (hc : nc_of NC NW NT T ≤ c) :
    vx_spawn_tasks NC NW NT c T = [] := by
  unfold vx_spawn_tasks
  split
  · rfl
  · simp only [locals_nc]
    rw [if_pos (by omega)]

theorem vx_spawn_pocl_kernel_idle (ctx : pocl_kernel_context_t) (NC NW NT c : Int)
    (hc : nc_of NC NW NT (ctx.num_groups0 * ctx.num_groups1 * ctx.num_groups2) ≤ c) :
    vx_spawn_pocl_kernel ctx NC NW NT c = [] := by
  unfold vx_spawn_pocl_kernel
  have hv : (vx_spawn_pocl_kernel_locals ctx NC NW NT c).nc
      = nc_of NC NW NT (ctx.num_groups0 * ctx.num_groups1 * ctx.num_groups2) := rfl
  have hge : c ≥ (vx_spawn_pocl_kernel_locals ctx NC NW NT c).nc := by rw [hv]; omega
  by_cases h : c ≥ NUM_CORES_MAX
  · simp only [if_pos h]
  · simp only [if_neg h, if_pos hge]

theorem vx_spawn_tasks_active (NC NW NT T c : Int) (hc1 : c < nc_of NC NW NT T)
    (hc2 : c < NUM_CORES_MAX) :
    vx_spawn_tasks NC NW NT c T
      = spawn_ops
          ({ offset := (vx_spawn_tasks_locals NC NW NT c T).offset,
             remain := (vx_spawn_tasks_locals NC NW NT c T).remain,
             FWs := (vx_spawn_tasks_locals NC NW NT c T).fW,
             RWs := (vx_spawn_tasks_locals NC NW NT c T).rW } : wspawn_tasks_args_t)
          NW (vx_spawn_tasks_locals NC NW NT c T).TW (vx_spawn_tasks_locals NC NW NT c T).rT := by
  unfold vx_spawn_tasks
  rw [if_neg (by omega)]
  simp only [locals_nc]
  rw [if_neg (by omega)]

theorem vx_spawn_pocl_kernel_active (ctx : pocl_kernel_context_t) (NC NW NT c : Int)
    (hc1 : c < nc_of NC NW NT (ctx.num_groups0 * ctx.num_groups1 * ctx.num_groups2))
    (hc2 : c < NUM_CORES_MAX) :
    vx_spawn_pocl_kernel ctx NC NW NT c
      = spawn_ops
          (grid_args ctx (vx_spawn_pocl_kernel_locals ctx NC NW NT c).offset
            (vx_spawn_pocl_kernel_locals ctx NC NW NT c).remain
            (vx_spawn_pocl_kernel_locals ctx NC NW NT c).fW
            (vx_spawn_pocl_kernel_locals ctx NC NW NT c).rW)
          NW (vx_spawn_pocl_kernel_locals ctx NC NW NT c).TW
          (vx_spawn_pocl_kernel_locals ctx NC NW NT c).rT := by
  unfold vx_spawn_pocl_kernel
  have hv : (vx_spawn_pocl_kernel_locals ctx NC NW NT c).nc
      = nc_of NC NW NT (ctx.num_groups0 * ctx.num_groups1 * ctx.num_groups2) := rfl
  have hlt : ¬ c ≥ (vx_spawn_pocl_kernel_locals ctx NC NW NT c).nc := by rw [hv]; omega
  have hlt2 : ¬ c ≥ NUM_CORES_MAX := by omega
  simp only [if_neg hlt2, if_neg hlt]
  rfl

theorem spawn_ops_head {D : Type} (d : D) (NW TW rT : Int) :
    ∃ rest, spawn_ops d NW TW rT = Op.csr_write d :: rest := ⟨_, rfl⟩

/-- C9 (as amended): for every `T ≥ 1` and topology `NC, NW, NT ≥ 1`, with
`nc = min(T > NW*NT ? T / (NW*NT) : 1, NC)` (so `1 ≤ nc ≤ NC`), a call of `vx_spawn_tasks` or of
`vx_spawn_pocl_kernel` (on a grid of `T` work-groups) on a core with `core_id ≥ nc` issues no
substrate operation at all (no descriptor write, no wave spawn, no lane mask change) and invokes
no callback; and every core with `core_id < nc` and `core_id < NUM_CORES_MAX` does participate:
it first writes a descriptor and it calls back on its share of at least one task. -/

theorem C9_non_participating_cores (NC NW NT T : Int) (fuel : Nat) (hT : 1 ≤ T) (hNC : 1 ≤ NC)
    (hNW : 1 ≤ NW) (hNT : 1 ≤ NT) (hfuel : T.toNat + 1 < fuel) :
    ((vx_spawn_tasks_locals NC NW NT 0 T).nc = MIN (if T > NW * NT then T / (NW * NT) else 1) NC
      ∧ 1 ≤ (vx_spawn_tasks_locals NC NW NT 0 T).nc
      ∧ (vx_spawn_tasks_locals NC NW NT 0 T).nc ≤ NC)
    ∧ (∀ c : Int, (vx_spawn_tasks_locals NC NW NT 0 T).nc ≤ c →
        vx_spawn_tasks NC NW NT c T = []
        ∧ dispatch_flat_core fuel NC NW NT T c = some [])
    ∧ (∀ (ctx : pocl_kernel_context_t) (c : Int),
        ctx.num_groups0 * ctx.num_groups1 * ctx.num_groups2 = T →
        (vx_spawn_tasks_locals NC NW NT 0 T).nc ≤ c →
        vx_spawn_pocl_kernel ctx NC NW NT c = []
        ∧ dispatch_grid_core fuel ctx NC NW NT c = some [])
    ∧ (∀ c : Int, c < (vx_spawn_tasks_locals NC NW NT 0 T).nc → c < NUM_CORES_MAX →
        (∃ d rest, vx_spawn_tasks NC NW NT c T = Op.csr_write d :: rest)
        ∧ 1 ≤ (vx_spawn_tasks_locals NC NW NT c T).tasks_per_core_n1
        ∧ ∃ calls, dispatch_flat_core fuel NC NW NT T c = some calls
            ∧ calls.Perm (irange (vx_spawn_tasks_locals NC NW NT c T).offset
                (vx_spawn_tasks_locals NC NW NT c T).tasks_per_core_n1.toNat))
    ∧ (∀ (ctx : pocl_kernel_context_t) (c : Int),
        ctx.num_groups0 * ctx.num_groups1 * ctx.num_groups2 = T →
        c < (vx_spawn_tasks_locals NC NW NT 0 T).nc → c < NUM_CORES_MAX →
        (∃ d rest, vx_spawn_pocl_kernel ctx NC NW NT c = Op.csr_write d :: rest)
        ∧ 1 ≤ (vx_spawn_pocl_kernel_locals ctx NC NW NT c).tasks_per_core_n1
        ∧ ∃ calls, dispatch_grid_core fuel ctx NC NW NT c = some calls
            ∧ (calls.length : Int)
                = (vx_spawn_pocl_kernel_locals ctx NC NW NT c).tasks_per_core_n1) := by
  obtain ⟨hn1, hn2, hn3⟩ := nc_of_bounds NC NW NT T hT hNC hNW hNT
  rw [locals_nc]
  refine ⟨⟨?_, hn1, hn2⟩, ?_, ?_, ?_, ?_⟩
  · show MIN (if T > NW * NT then Int.tdiv T (NW * NT) else 1) NC = _
    rw [Int.tdiv_eq_ediv (by omega) (by nlinarith)]
  · intro c hc
    exact ⟨vx_spawn_tasks_idle NC NW NT T c hc,
      dispatch_flat_core_idle fuel NC NW NT T c (Or.inl hc)⟩
  · intro ctx c hctx hc
    subst hctx
    refine ⟨vx_spawn_pocl_kernel_idle ctx NC NW NT c hc, ?_⟩
    rw [dispatch_grid_core_eq, dispatch_flat_core_idle fuel NC NW NT _ c (Or.inl hc)]
    rfl
  · intro c hc1 hc2
    refine ⟨?_, (locals_share_bounds NC NW NT c T hT hNC hNW hNT).2.2.1,
      dispatch_flat_core_cover fuel NC NW NT T c hT hNC hNW hNT hc1 hc2 hfuel⟩
    rw [vx_spawn_tasks_active NC NW NT T c hc1 hc2]
    exact ⟨_, spawn_ops_head _ _ _ _⟩
  · intro ctx c hctx hc1 hc2
    subst hctx
    have hv : vx_spawn_pocl_kernel_locals ctx NC NW NT c
        = vx_spawn_tasks_locals NC NW NT c
            (ctx.num_groups0 * ctx.num_groups1 * ctx.num_groups2) := rfl
    have hs := (locals_share_bounds NC NW NT c _ hT hNC hNW hNT).2.2.1
    refine ⟨?_, by rw [hv]; exact hs, ?_⟩
    · rw [vx_spawn_pocl_kernel_active ctx NC NW NT c hc1 hc2]
      exact ⟨_, spawn_ops_head _ _ _ _⟩
    · obtain ⟨fcalls, hf, hp⟩ :=
        dispatch_flat_core_cover fuel NC NW NT _ c hT hNC hNW hNT hc1 hc2 hfuel
      refine ⟨fcalls.map (grid_body ctx), by rw [dispatch_grid_core_eq, hf]; rfl, ?_⟩
      rw [List.length_map, hp.length_eq, length_irange, hv, Int.toNat_of_nonneg (by omega)]

/-- C9, counterexample: on a device with 1025 cores of one wave of one lane and `T = 1025`
tasks, `nc = 1025`, so core `1024` has `core_id < nc`; yet it returns at the guard
`core_id >= NUM_CORES_MAX`: it writes no descriptor and calls back on nothing. -/

theorem C9_counterexample :
    (1024 : Int) < (vx_spawn_tasks_locals 1025 1 1 1024 1025).nc
    ∧ vx_spawn_tasks 1025 1 1 1024 1025 = []
    ∧ dispatch_flat_core 1027 1025 1 1 1025 1024 = some [] := by
  decide

/-- C9, witness: scenario C, `T = 100` on `NC = 2` cores of two waves of two lanes (`nc = 2`);
with `T = 3` instead only core 0 participates and core 1 issues nothing. -/

theorem C9_non_participating_cores_witness :
    ((1 : Int) ≤ 100 ∧ (1 : Int) ≤ 2 ∧ (100 : Int).toNat + 1 < 102)
    ∧ (((vx_spawn_tasks_locals 2 2 2 0 100).nc = MIN (if 100 > 2 * 2 then 100 / (2 * 2) else 1) 2
      ∧ 1 ≤ (vx_spawn_tasks_locals 2 2 2 0 100).nc
      ∧ (vx_spawn_tasks_locals 2 2 2 0 100).nc ≤ 2)
    ∧ (∀ c : Int, (vx_spawn_tasks_locals 2 2 2 0 100).nc ≤ c →
        vx_spawn_tasks 2 2 2 c 100 = []
        ∧ dispatch_flat_core 102 2 2 2 100 c = some [])
    ∧ (∀ (ctx : pocl_kernel_context_t) (c : Int),
        ctx.num_groups0 * ctx.num_groups1 * ctx.num_groups2 = 100 →
        (vx_spawn_tasks_locals 2 2 2 0 100).nc ≤ c →
        vx_spawn_pocl_kernel ctx 2 2 2 c = []
        ∧ dispatch_grid_core 102 ctx 2 2 2 c = some [])
    ∧ (∀ c : Int, c < (vx_spawn_tasks_locals 2 2 2 0 100).nc → c < NUM_CORES_MAX →
        (∃ d rest, vx_spawn_tasks 2 2 2 c 100 = Op.csr_write d :: rest)
        ∧ 1 ≤ (vx_spawn_tasks_locals 2 2 2 c 100).tasks_per_core_n1
        ∧ ∃ calls, dispatch_flat_core 102 2 2 2 100 c = some calls
            ∧ calls.Perm (irange (vx_spawn_tasks_locals 2 2 2 c 100).offset
                (vx_spawn_tasks_locals 2 2 2 c 100).tasks_per_core_n1.toNat))
    ∧ (∀ (ctx : pocl_kernel_context_t) (c : Int),
        ctx.num_groups0 * ctx.num_groups1 * ctx.num_groups2 = 100 →
        c < (vx_spawn_tasks_locals 2 2 2 0 100).nc → c < NUM_CORES_MAX →
        (∃ d rest, vx_spawn_pocl_kernel ctx 2 2 2 c = Op.csr_write d :: rest)
        ∧ 1 ≤ (vx_spawn_pocl_kernel_locals ctx 2 2 2 c).tasks_per_core_n1
        ∧ ∃ calls, dispatch_grid_core 102 ctx 2 2 2 c = some calls
            ∧ (calls.length : Int)
                = (vx_spawn_pocl_kernel_locals ctx 2 2 2 c).tasks_per_core_n1))
    ∧ ((vx_spawn_tasks_locals 2 2 2 0 3).nc = 1 ∧ vx_spawn_tasks 2 2 2 1 3 = []
      ∧ dispatch_flat_core 5 2 2 2 3 1 = some []
      ∧ dispatch_flat_core 5 2 2 2 3 0 = some [0, 1, 2]) :=
  ⟨by decide, C9_non_participating_cores 2 2 2 100 102 (by decide) (by decide) (by decide)
    (by decide) (by decide), by decide⟩

/-! ### C10: the under-subscribed core -/

/-- A share whose quotient by the lane count is positive is itself non-negative. -/

theorem share_nonneg_of_TW (S NT : Int) (hNT : 1 ≤ NT) (h : 1 ≤ Int.tdiv S NT) : 0 ≤ S := by
  by_contra hneg
  have h1 : 0 ≤ Int.tdiv (-S) NT := Int.tdiv_nonneg (by omega) (by omega)
  rw [Int.neg_tdiv] at h1
  omega

/-- C10: for every core share `S` and `NW, NT ≥ 1` with `1 ≤ TW = S / NT < NW`, the dispatcher
sets `fW = 1` and `rW = 0` and requests exactly `TW` waves (`min(TW, NW) = TW`; wave 0 is the
initiating wave and the waves `1 .. TW-1` are spawned), and each lane `tid` of each wave
`wid ≥ 0` calls back exactly once in the bulk stub, on `offset + wid*NT + tid` (`tK = 1`,
`wK = wid`). -/

theorem C10_under_subscribed_core (NC NW NT c T : Int) (hNW : 1 ≤ NW) (hNT : 1 ≤ NT)
    (hTW1 : 1 ≤ (vx_spawn_tasks_locals NC NW NT c T).TW)
    (hTW2 : (vx_spawn_tasks_locals NC NW NT c T).TW < NW) :
    (vx_spawn_tasks_locals NC NW NT c T).TW
        = (vx_spawn_tasks_locals NC NW NT c T).tasks_per_core_n1 / NT
    ∧ (vx_spawn_tasks_locals NC NW NT c T).fW = 1
    ∧ (vx_spawn_tasks_locals NC NW NT c T).rW = 0
    ∧ ((c < (vx_spawn_tasks_locals NC NW NT c T).nc ∧ c < NUM_CORES_MAX) →
        [Op.csr_write
            ({ offset := (vx_spawn_tasks_locals NC NW NT c T).offset,
               remain := (vx_spawn_tasks_locals NC NW NT c T).remain,
               FWs := 1, RWs := 0 } : wspawn_tasks_args_t),
          Op.wspawn (vx_spawn_tasks_locals NC NW NT c T).TW, Op.tmc (-1), Op.all_stub,
          Op.tmc_one] <+: vx_spawn_tasks NC NW NT c T)
    ∧ (0 : Int) :: spawned_waves (vx_spawn_tasks_locals NC NW NT c T).TW
        = irange 0 (vx_spawn_tasks_locals NC NW NT c T).TW.toNat
    ∧ (∀ (fuel : Nat) (wid tid : Int), 0 ≤ wid → 2 ≤ fuel →
        spawn_tasks_all_stub fuel NT wid tid
            { offset := (vx_spawn_tasks_locals NC NW NT c T).offset,
              remain := (vx_spawn_tasks_locals NC NW NT c T).remain,
              FWs := (vx_spawn_tasks_locals NC NW NT c T).fW,
              RWs := (vx_spawn_tasks_locals NC NW NT c T).rW }
          = some [(vx_spawn_tasks_locals NC NW NT c T).offset + wid * NT + tid]) := by
  have hS : 0 ≤ (vx_spawn_tasks_locals NC NW NT c T).tasks_per_core_n1 :=
    share_nonneg_of_TW _ NT hNT hTW1
  obtain ⟨hTWd, -, -, -, -, -, -, -, hfW, hrW, -, -, -⟩ :=
    locals_dist_facts NC NW NT c T hNW hNT hS
  have hf1 : (vx_spawn_tasks_locals NC NW NT c T).fW = 1 := by
    rw [hfW, if_neg (by omega)]
  have hr0 : (vx_spawn_tasks_locals NC NW NT c T).rW = 0 := by
    rw [hrW, if_neg (by omega)]
  refine ⟨hTWd, hf1, hr0, ?_, ?_, ?_⟩
  · rintro ⟨hc1, hc2⟩
    rw [locals_nc] at hc1
    rw [vx_spawn_tasks_active NC NW NT T c hc1 hc2, hf1, hr0]
    unfold spawn_ops
    rw [if_pos (by omega)]
    have hmin : MIN (vx_spawn_tasks_locals NC NW NT c T).TW NW
        = (vx_spawn_tasks_locals NC NW NT c T).TW := by
      unfold MIN; rw [if_pos hTW2]
    simp only [hmin, List.singleton_append, List.cons_append, List.nil_append, List.append_assoc]
    exact ⟨_, rfl⟩
  · obtain ⟨m, hm⟩ : ∃ m : Nat, (vx_spawn_tasks_locals NC NW NT c T).TW = ((m + 1 : Nat) : Int) :=
      ⟨(vx_spawn_tasks_locals NC NW NT c T).TW.toNat - 1, by omega⟩
    rw [hm, spawned_waves_eq, Int.toNat_ofNat]
    unfold irange
    rw [List.range_succ_eq_map, List.map_cons, List.map_map]
    congr 1
    apply List.map_congr_left
    intro w _
    simp only [Function.comp, Nat.succ_eq_add_one]
    omega
  · intro fuel wid tid hw hfuel
    obtain ⟨f, rfl⟩ : ∃ f, fuel = f + 2 := ⟨fuel - 2, by omega⟩
    unfold spawn_tasks_all_stub
    simp only [hf1, hr0]
    have hmin : MIN 0 wid = 0 := by unfold MIN; split <;> omega
    have hcb : c_bool (decide (wid < 0)) = 0 := by
      unfold c_bool; rw [decide_eq_false (by omega)]; rfl
    rw [hmin, hcb, tasks_loop, if_pos (by omega), tasks_loop, if_neg (by omega)]
    simp

/-- C10, witness: scenario A, `T = 10` with `NC = NW = NT = 4`: `nc = 1`, `tasks_per_core_n1 = 10`,
`TW = 2`, `rT = 2`, `fW = 1`, `rW = 0`; two waves (0 and 1) of one batch each and a remainder
dispatch of two lanes on the identifiers 8 and 9. -/

theorem C10_under_subscribed_core_witness :
    ((1 : Int) ≤ 4 ∧ 1 ≤ (vx_spawn_tasks_locals 4 4 4 0 10).TW
      ∧ (vx_spawn_tasks_locals 4 4 4 0 10).TW < 4)
    ∧ ((vx_spawn_tasks_locals 4 4 4 0 10).TW
        = (vx_spawn_tasks_locals 4 4 4 0 10).tasks_per_core_n1 / 4
    ∧ (vx_spawn_tasks_locals 4 4 4 0 10).fW = 1
    ∧ (vx_spawn_tasks_locals 4 4 4 0 10).rW = 0
    ∧ (((0 : Int) < (vx_spawn_tasks_locals 4 4 4 0 10).nc ∧ (0 : Int) < NUM_CORES_MAX) →
        [Op.csr_write
            ({ offset := (vx_spawn_tasks_locals 4 4 4 0 10).offset,
               remain := (vx_spawn_tasks_locals 4 4 4 0 10).remain,
               FWs := 1, RWs := 0 } : wspawn_tasks_args_t),
          Op.wspawn (vx_spawn_tasks_locals 4 4 4 0 10).TW, Op.tmc (-1), Op.all_stub,
          Op.tmc_one] <+: vx_spawn_tasks 4 4 4 0 10)
    ∧ (0 : Int) :: spawned_waves (vx_spawn_tasks_locals 4 4 4 0 10).TW
        = irange 0 (vx_spawn_tasks_locals 4 4 4 0 10).TW.toNat
    ∧ (∀ (fuel : Nat) (wid tid : Int), 0 ≤ wid → 2 ≤ fuel →
        spawn_tasks_all_stub fuel 4 wid tid
            { offset := (vx_spawn_tasks_locals 4 4 4 0 10).offset,
              remain := (vx_spawn_tasks_locals 4 4 4 0 10).remain,
              FWs := (vx_spawn_tasks_locals 4 4 4 0 10).fW,
              RWs := (vx_spawn_tasks_locals 4 4 4 0 10).rW }
          = some [(vx_spawn_tasks_locals 4 4 4 0 10).offset + wid * 4 + tid]))
    ∧ ((vx_spawn_tasks_locals 4 4 4 0 10).nc = 1
      ∧ (vx_spawn_tasks_locals 4 4 4 0 10).tasks_per_core_n1 = 10
      ∧ (vx_spawn_tasks_locals 4 4 4 0 10).TW = 2
      ∧ (vx_spawn_tasks_locals 4 4 4 0 10).rT = 2
      ∧ vx_spawn_tasks 4 4 4 0 10
          = [Op.csr_write ⟨0, 8, 1, 0⟩, Op.wspawn 2, Op.tmc (-1), Op.all_stub, Op.tmc_one,
             Op.tmc 3, Op.rem_stub, Op.tmc_one, Op.wspawn_wait]
      ∧ vx_spawn_tasks 4 4 4 1 10 = []
      ∧ spawned_waves 2 = [1]
      ∧ active_lanes 4 3 = [0, 1]
      ∧ dispatch_flat 12 4 4 4 10 = some [4, 5, 6, 7, 0, 1, 2, 3, 8, 9]) :=
  ⟨by decide, C10_under_subscribed_core 4 4 4 0 10 (by decide) (by decide) (by decide)
    (by decide), by decide⟩

/-! ### C11: the starting batch index is the prefix sum of the batch counts -/

/-- The bulk stub of the flat dispatch is its loop, run from `offset + wK * NT + tid` for `tK`
strides. -/

theorem spawn_tasks_all_stub_loop (fuel : Nat) (NT wid tid : Int) (d : wspawn_tasks_args_t) :
    spawn_tasks_all_stub fuel NT wid tid d
      = tasks_loop NT
          (d.offset + wK_at d.FWs d.RWs wid * NT + tid + tK_at d.FWs d.RWs wid * NT) fuel
          (d.offset + wK_at d.FWs d.RWs wid * NT + tid) := rfl

/-- The bulk stub of the grid dispatch is the image of the same loop under the decomposition. -/

theorem spawn_pocl_kernel_all_stub_loop (fuel : Nat) (NT wid tid : Int)
    (d : wspawn_pocl_kernel_args_t) :
    spawn_pocl_kernel_all_stub fuel NT wid tid d
      = (tasks_loop NT
          (d.offset + wK_at d.FWs d.RWs wid * NT + tid + tK_at d.FWs d.RWs wid * NT) fuel
          (d.offset + wK_at d.FWs d.RWs wid * NT + tid)).map (List.map (stub_body d)) := by
  rw [all_stub_eq_map]
  rfl

/-- The batch intervals of two different waves do not meet. -/

theorem wave_intervals_disjoint (fW rW a b x : Int) (hf : 0 ≤ fW)
    (hxa : wK_at fW rW a ≤ x ∧ x < wK_at fW rW a + tK_at fW rW a)
    (hxb : wK_at fW rW b ≤ x ∧ x < wK_at fW rW b + tK_at fW rW b) : a = b := by
  have key : ∀ u v : Int, u < v → wK_at fW rW u + tK_at fW rW u ≤ wK_at fW rW v := by
    intro u v huv
    rw [← wK_at_succ]
    exact wK_at_mono fW rW (u + 1) v hf (by omega)
  rcases lt_trichotomy a b with h | h | h
  · have := key a b h; omega
  · exact h
  · have := key b a h; omega

/-- The batch intervals of the waves `0 .. m-1`, one after the other, are the batch indices
`0 .. wK(m) - 1`. -/

theorem wave_intervals_concat (fW rW : Int) (hf : 0 ≤ fW) (hr : 0 ≤ rW) (m : Nat) :
    (List.range m).flatMap
        (fun (w : Nat) => irange (wK_at fW rW (w : Int)) (tK_at fW rW (w : Int)).toNat)
      = irange 0 (wK_at fW rW (m : Int)).toNat := by
  obtain ⟨f, rfl⟩ := Int.eq_ofNat_of_zero_le hf
  obtain ⟨r, rfl⟩ := Int.eq_ofNat_of_zero_le hr
  have h := waves_concat 0 f r 1 m
  simp only [Nat.mul_one, zero_add] at h
  simp only [wK_at_cast, tK_at_cast, Int.toNat_ofNat]
  exact h

/-- C11: for every `fW ≥ 0`, `rW ≥ 0` and wave `wid ≥ 0`, the starting batch index
`wK(wid) = fW*wid + min(rW, wid)` of the bulk stubs equals the sum of the batch counts
`tK(w) = fW + (w < rW ? 1 : 0)` over `w = 0 .. wid-1`; so `wK(wid+1) = wK(wid) + tK(wid)`, the
batch intervals `[wK(wid), wK(wid) + tK(wid))` of distinct waves are disjoint and, for the
`fW`, `rW` of the dispatcher, the intervals of the requested waves `0 .. min(TW,NW)-1` partition
`[0, TW)`. -/

theorem C11_wK_prefix_sum_of_tK (fW rW wid : Int) (hf : 0 ≤ fW) (hr : 0 ≤ rW) (hw : 0 ≤ wid) :
    (∀ (fuel : Nat) (NT tid : Int) (d : wspawn_tasks_args_t),
        spawn_tasks_all_stub fuel NT wid tid d
          = tasks_loop NT
              (d.offset + wK_at d.FWs d.RWs wid * NT + tid + tK_at d.FWs d.RWs wid * NT) fuel
              (d.offset + wK_at d.FWs d.RWs wid * NT + tid))
    ∧ (∀ (fuel : Nat) (NT tid : Int) (d : wspawn_pocl_kernel_args_t),
        spawn_pocl_kernel_all_stub fuel NT wid tid d
          = (tasks_loop NT
              (d.offset + wK_at d.FWs d.RWs wid * NT + tid + tK_at d.FWs d.RWs wid * NT) fuel
              (d.offset + wK_at d.FWs d.RWs wid * NT + tid)).map (List.map (stub_body d)))
    ∧ wK_at fW rW wid = fW * wid + min rW wid
    ∧ (∀ w : Int, tK_at fW rW w = fW + (if w < rW then 1 else 0))
    ∧ wK_at fW rW wid
        = ((List.range wid.toNat).map
            (fun (w : Nat) => fW + (if (w : Int) < rW then 1 else 0))).sum
    ∧ wK_at fW rW (wid + 1) = wK_at fW rW wid + tK_at fW rW wid
    ∧ (∀ b x : Int, 0 ≤ b →
        (wK_at fW rW wid ≤ x ∧ x < wK_at fW rW wid + tK_at fW rW wid) →
        (wK_at fW rW b ≤ x ∧ x < wK_at fW rW b + tK_at fW rW b) → wid = b)
    ∧ (∀ NC NW NT c T : Int, 1 ≤ NW → 1 ≤ NT →
        0 ≤ (vx_spawn_tasks_locals NC NW NT c T).tasks_per_core_n1 →
        1 ≤ (vx_spawn_tasks_locals NC NW NT c T).TW →
        (List.range (MIN (vx_spawn_tasks_locals NC NW NT c T).TW NW).toNat).flatMap
            (fun (w : Nat) =>
              irange (wK_at (vx_spawn_tasks_locals NC NW NT c T).fW
                        (vx_spawn_tasks_locals NC NW NT c T).rW (w : Int))
                (tK_at (vx_spawn_tasks_locals NC NW NT c T).fW
                        (vx_spawn_tasks_locals NC NW NT c T).rW (w : Int)).toNat)
          = irange 0 (vx_spawn_tasks_locals NC NW NT c T).TW.toNat) := by
  refine ⟨fun fuel NT tid d => spawn_tasks_all_stub_loop fuel NT wid tid d,
    fun fuel NT tid d => spawn_pocl_kernel_all_stub_loop fuel NT wid tid d, ?_, ?_, ?_,
    wK_at_succ fW rW wid, ?_, ?_⟩
  · unfold wK_at MIN
    split
    · rw [min_eq_left (by omega)]
    · rw [min_eq_right (by omega)]
  · intro w
    unfold tK_at c_bool
    simp only [decide_eq_true_eq]
  · rw [tK_sum fW rW hr, Int.toNat_of_nonneg hw]
  · intro b x _ hxa hxb
    exact wave_intervals_disjoint fW rW wid b x hf hxa hxb
  · intro NC NW NT c T hNW hNT hS hTW
    obtain ⟨-, hTW0, -, -, -, -, -, -, hfW, hrW, hfW1, hrW0, -⟩ :=
      locals_dist_facts NC NW NT c T hNW hNT hS
    rw [wave_intervals_concat _ _ (by omega) hrW0]
    have hmin : 0 ≤ MIN (vx_spawn_tasks_locals NC NW NT c T).TW NW := by
      unfold MIN; split <;> omega
    rw [Int.toNat_of_nonneg hmin]
    have htot := wK_at_total NW (vx_spawn_tasks_locals NC NW NT c T).TW (by omega) hTW
    have hfW' : (vx_spawn_tasks_locals NC NW NT c T).fW
        = (if (vx_spawn_tasks_locals NC NW NT c T).TW ≥ NW
           then Int.tdiv (vx_spawn_tasks_locals NC NW NT c T).TW NW else 1) := rfl
    have hrW' : (vx_spawn_tasks_locals NC NW NT c T).rW
        = (if (vx_spawn_tasks_locals NC NW NT c T).TW ≥ NW
           then (vx_spawn_tasks_locals NC NW NT c T).TW
              - Int.tdiv (vx_spawn_tasks_locals NC NW NT c T).TW NW * NW else 0) := rfl
    rw [← hfW', ← hrW'] at htot
    rw [htot]

/-- C11, witness: `fW = 7`, `rW = 1` (the descriptor of `T = 47` on one core of two waves of
three lanes) and `wid = 2`: `wK(0) = 0`, `wK(1) = 8`, `wK(2) = 15 = 8 + 7`. -/

theorem C11_wK_prefix_sum_of_tK_witness :
    ((0 : Int) ≤ 7 ∧ (0 : Int) ≤ 1 ∧ (0 : Int) ≤ 2)
    ∧ ((∀ (fuel : Nat) (NT tid : Int) (d : wspawn_tasks_args_t),
        spawn_tasks_all_stub fuel NT (2 : Int) tid d
          = tasks_loop NT
              (d.offset + wK_at d.FWs d.RWs (2 : Int) * NT + tid + tK_at d.FWs d.RWs (2 : Int) * NT) fuel
              (d.offset + wK_at d.FWs d.RWs (2 : Int) * NT + tid))
    ∧ (∀ (fuel : Nat) (NT tid : Int) (d : wspawn_pocl_kernel_args_t),
        spawn_pocl_kernel_all_stub fuel NT (2 : Int) tid d
          = (tasks_loop NT
              (d.offset + wK_at d.FWs d.RWs (2 : Int) * NT + tid + tK_at d.FWs d.RWs (2 : Int) * NT) fuel
              (d.offset + wK_at d.FWs d.RWs (2 : Int) * NT + tid)).map (List.map (stub_body d)))
    ∧ wK_at (7 : Int) (1 : Int) (2 : Int) = (7 : Int) * (2 : Int) + min (1 : Int) (2 : Int)
    ∧ (∀ w : Int, tK_at (7 : Int) (1 : Int) w = (7 : Int) + (if w < (1 : Int) then 1 else 0))
    ∧ wK_at (7 : Int) (1 : Int) (2 : Int)
        = ((List.range (2 : Int).toNat).map
            (fun (w : Nat) => (7 : Int) + (if (w : Int) < (1 : Int) then 1 else 0))).sum
    ∧ wK_at (7 : Int) (1 : Int) ((2 : Int) + 1) = wK_at (7 : Int) (1 : Int) (2 : Int) + tK_at (7 : Int) (1 : Int) (2 : Int)
    ∧ (∀ b x : Int, 0 ≤ b →
        (wK_at (7 : Int) (1 : Int) (2 : Int) ≤ x ∧ x < wK_at (7 : Int) (1 : Int) (2 : Int) + tK_at (7 : Int) (1 : Int) (2 : Int)) →
        (wK_at (7 : Int) (1 : Int) b ≤ x ∧ x < wK_at (7 : Int) (1 : Int) b + tK_at (7 : Int) (1 : Int) b) → (2 : Int) = b)
    ∧ (∀ NC NW NT c T : Int, 1 ≤ NW → 1 ≤ NT →
        0 ≤ (vx_spawn_tasks_locals NC NW NT c T).tasks_per_core_n1 →
        1 ≤ (vx_spawn_tasks_locals NC NW NT c T).TW →
        (List.range (MIN (vx_spawn_tasks_locals NC NW NT c T).TW NW).toNat).flatMap
            (fun (w : Nat) =>
              irange (wK_at (vx_spawn_tasks_locals NC NW NT c T).fW
                        (vx_spawn_tasks_locals NC NW NT c T).rW (w : Int))
                (tK_at (vx_spawn_tasks_locals NC NW NT c T).fW
                        (vx_spawn_tasks_locals NC NW NT c T).rW (w : Int)).toNat)
          = irange 0 (vx_spawn_tasks_locals NC NW NT c T).TW.toNat))
    ∧ (wK_at 7 1 0 = 0 ∧ wK_at 7 1 1 = 8 ∧ wK_at 7 1 2 = 15 ∧ tK_at 7 1 0 = 8
      ∧ tK_at 7 1 1 = 7) :=
  ⟨by decide, C11_wK_prefix_sum_of_tK 7 1 2 (by decide) (by decide) (by decide), by decide⟩

/-! ### C12: one core covers its own range -/

/-- The operations issued from the descriptor write on: the write comes first and only once, the
join comes last and only once, a wave request and the bulk stub occur only with `TW ≥ 1`, the
remainder stub only with `rT ≠ 0`. -/

theorem spawn_ops_order {D : Type} (d : D) (NW TW rT : Int) :
    (spawn_ops d NW TW rT).head? = some (Op.csr_write d)
    ∧ (∀ e : D, Op.csr_write e ∉ (spawn_ops d NW TW rT).tail)
    ∧ (spawn_ops d NW TW rT).getLast? = some Op.wspawn_wait
    ∧ Op.wspawn_wait ∉ (spawn_ops d NW TW rT).dropLast
    ∧ (∀ n : Int, Op.wspawn n ∈ spawn_ops d NW TW rT → 1 ≤ TW ∧ n = MIN TW NW)
    ∧ (Op.all_stub ∈ spawn_ops d NW TW rT ↔ 1 ≤ TW)
    ∧ (Op.rem_stub ∈ spawn_ops d NW TW rT ↔ rT ≠ 0) := by
  unfold spawn_ops
  by_cases h1 : TW ≥ 1 <;> by_cases h2 : rT ≠ 0
  all_goals
    simp only [h1, h2, if_true, if_false, not_true_eq_false, not_false_eq_true, ne_eq]
    simp [List.dropLast]

theorem spawn_ops_unfold {D : Type} (d : D) (NW TW rT : Int) :
    spawn_ops d NW TW rT
      = [Op.csr_write d]
        ++ (if 1 ≤ TW then [Op.wspawn (MIN TW NW), Op.tmc (-1), Op.all_stub, Op.tmc_one] else [])
        ++ (if rT ≠ 0 then [Op.tmc (((1 : Int) <<< rT) - 1), Op.rem_stub, Op.tmc_one] else [])
        ++ [Op.wspawn_wait] := rfl

/-- C13: on every input on which the core participates (it passes both guards), the substrate
operations issued by the initiating lane in `vx_spawn_tasks`, and likewise in
`vx_spawn_pocl_kernel`, are in this order: one descriptor write to the scratch register, then
(only if `TW ≥ 1`) one wave request for `min(TW, NW)` waves, activate all lanes, the bulk stub,
back to a single lane, then (only if `rT ≠ 0`) activate the mask, the remainder stub, back to
a single lane, and finally one join.  In particular the descriptor write is the first operation
and occurs once, so it precedes every wave request and every stub, and the join is the last
operation. -/

theorem C13_publish_before_spawn_join_last (NC NW NT c T : Int)
    (hc1 : c < (vx_spawn_tasks_locals NC NW NT c T).nc) (hc2 : c < NUM_CORES_MAX) :
    (vx_spawn_tasks NC NW NT c T
        = [Op.csr_write (⟨(vx_spawn_tasks_locals NC NW NT c T).offset,
      (vx_spawn_tasks_locals NC NW NT c T).remain,
      (vx_spawn_tasks_locals NC NW NT c T).fW,
      (vx_spawn_tasks_locals NC NW NT c T).rW⟩ : wspawn_tasks_args_t)]
          ++ (if 1 ≤ (vx_spawn_tasks_locals NC NW NT c T).TW
              then [Op.wspawn (MIN (vx_spawn_tasks_locals NC NW NT c T).TW NW), Op.tmc (-1),
                    Op.all_stub, Op.tmc_one]
              else [])
          ++ (if (vx_spawn_tasks_locals NC NW NT c T).rT ≠ 0
              then [Op.tmc (((1 : Int) <<< (vx_spawn_tasks_locals NC NW NT c T).rT) - 1),
                    Op.rem_stub, Op.tmc_one]
              else [])
          ++ [Op.wspawn_wait]
    ∧ (vx_spawn_tasks NC NW NT c T).head? = some (Op.csr_write (⟨(vx_spawn_tasks_locals NC NW NT c T).offset,
      (vx_spawn_tasks_locals NC NW NT c T).remain,
      (vx_spawn_tasks_locals NC NW NT c T).fW,
      (vx_spawn_tasks_locals NC NW NT c T).rW⟩ : wspawn_tasks_args_t))
    ∧ (∀ e, Op.csr_write e ∉ (vx_spawn_tasks NC NW NT c T).tail)
    ∧ (vx_spawn_tasks NC NW NT c T).getLast? = some Op.wspawn_wait
    ∧ Op.wspawn_wait ∉ (vx_spawn_tasks NC NW NT c T).dropLast
    ∧ (∀ n : Int, Op.wspawn n ∈ vx_spawn_tasks NC NW NT c T →
        1 ≤ (vx_spawn_tasks_locals NC NW NT c T).TW ∧ n = MIN (vx_spawn_tasks_locals NC NW NT c T).TW NW)
    ∧ (Op.all_stub ∈ vx_spawn_tasks NC NW NT c T ↔ 1 ≤ (vx_spawn_tasks_locals NC NW NT c T).TW)
    ∧ (Op.rem_stub ∈ vx_spawn_tasks NC NW NT c T ↔ (vx_spawn_tasks_locals NC NW NT c T).rT ≠ 0))
    ∧ (∀ ctx : pocl_kernel_context_t,
        ctx.num_groups0 * ctx.num_groups1 * ctx.num_groups2 = T →
        vx_spawn_pocl_kernel ctx NC NW NT c
            = [Op.csr_write (grid_args ctx (vx_spawn_pocl_kernel_locals ctx NC NW NT c).offset
                                (vx_spawn_pocl_kernel_locals ctx NC NW NT c).remain
                                (vx_spawn_pocl_kernel_locals ctx NC NW NT c).fW
                                (vx_spawn_pocl_kernel_locals ctx NC NW NT c).rW)]
              ++ (if 1 ≤ (vx_spawn_pocl_kernel_locals ctx NC NW NT c).TW
                  then [Op.wspawn (MIN (vx_spawn_pocl_kernel_locals ctx NC NW NT c).TW NW), Op.tmc (-1),
                        Op.all_stub, Op.tmc_one]
                  else [])
              ++ (if (vx_spawn_pocl_kernel_locals ctx NC NW NT c).rT ≠ 0
                  then [Op.tmc (((1 : Int) <<< (vx_spawn_pocl_kernel_locals ctx NC NW NT c).rT) - 1),
                        Op.rem_stub, Op.tmc_one]
                  else [])
              ++ [Op.wspawn_wait]
        ∧ (vx_spawn_pocl_kernel ctx NC NW NT c).head? = some (Op.csr_write (grid_args ctx (vx_spawn_pocl_kernel_locals ctx NC NW NT c).offset
                                (vx_spawn_pocl_kernel_locals ctx NC NW NT c).remain
                                (vx_spawn_pocl_kernel_locals ctx NC NW NT c).fW
                                (vx_spawn_pocl_kernel_locals ctx NC NW NT c).rW))
        ∧ (∀ e, Op.csr_write e ∉ (vx_spawn_pocl_kernel ctx NC NW NT c).tail)
        ∧ (vx_spawn_pocl_kernel ctx NC NW NT c).getLast? = some Op.wspawn_wait
        ∧ Op.wspawn_wait ∉ (vx_spawn_pocl_kernel ctx NC NW NT c).dropLast
        ∧ (∀ n : Int, Op.wspawn n ∈ vx_spawn_pocl_kernel ctx NC NW NT c →
            1 ≤ (vx_spawn_pocl_kernel_locals ctx NC NW NT c).TW ∧ n = MIN (vx_spawn_pocl_kernel_locals ctx NC NW NT c).TW NW)
        ∧ (Op.all_stub ∈ vx_spawn_pocl_kernel ctx NC NW NT c ↔ 1 ≤ (vx_spawn_pocl_kernel_locals ctx NC NW NT c).TW)
        ∧ (Op.rem_stub ∈ vx_spawn_pocl_kernel ctx NC NW NT c ↔ (vx_spawn_pocl_kernel_locals ctx NC NW NT c).rT ≠ 0)) := by
  rw [locals_nc] at hc1
  constructor
  · rw [vx_spawn_tasks_active NC NW NT T c hc1 hc2]
    obtain ⟨h1, h2, h3, h4, h5, h6, h7⟩ := spawn_ops_order
      (⟨(vx_spawn_tasks_locals NC NW NT c T).offset,
      (vx_spawn_tasks_locals NC NW NT c T).remain,
      (vx_spawn_tasks_locals NC NW NT c T).fW,
      (vx_spawn_tasks_locals NC NW NT c T).rW⟩ : wspawn_tasks_args_t)
      NW (vx_spawn_tasks_locals NC NW NT c T).TW (vx_spawn_tasks_locals NC NW NT c T).rT
    exact ⟨spawn_ops_unfold _ _ _ _, h1, h2, h3, h4, h5, h6, h7⟩
  · intro ctx hctx
    subst hctx
    rw [vx_spawn_pocl_kernel_active ctx NC NW NT c hc1 hc2]
    obtain ⟨h1, h2, h3, h4, h5, h6, h7⟩ := spawn_ops_order
      (grid_args ctx (vx_spawn_pocl_kernel_locals ctx NC NW NT c).offset (vx_spawn_pocl_kernel_locals ctx NC NW NT c).remain (vx_spawn_pocl_kernel_locals ctx NC NW NT c).fW (vx_spawn_pocl_kernel_locals ctx NC NW NT c).rW)
      NW (vx_spawn_pocl_kernel_locals ctx NC NW NT c).TW (vx_spawn_pocl_kernel_locals ctx NC NW NT c).rT
    exact ⟨spawn_ops_unfold _ _ _ _, h1, h2, h3, h4, h5, h6, h7⟩

/-- C13, witness: scenario A, `T = 10` with `NC = NW = NT = 4`, core 0 (and the grid
`5 × 2 × 1` of the same size): descriptor write, request for two waves, all lanes, bulk stub,
single lane, mask `3`, remainder stub, single lane, join. -/

theorem C13_publish_before_spawn_join_last_witness :
    ((0 : Int) < (vx_spawn_tasks_locals 4 4 4 0 10).nc ∧ (0 : Int) < NUM_CORES_MAX)
    ∧ ((vx_spawn_tasks 4 4 4 0 10
        = [Op.csr_write (⟨(vx_spawn_tasks_locals 4 4 4 0 10).offset,
      (vx_spawn_tasks_locals 4 4 4 0 10).remain,
      (vx_spawn_tasks_locals 4 4 4 0 10).fW,
      (vx_spawn_tasks_locals 4 4 4 0 10).rW⟩ : wspawn_tasks_args_t)]
          ++ (if 1 ≤ (vx_spawn_tasks_locals 4 4 4 0 10).TW
              then [Op.wspawn (MIN (vx_spawn_tasks_locals 4 4 4 0 10).TW 4), Op.tmc (-1),
                    Op.all_stub, Op.tmc_one]
              else [])
          ++ (if (vx_spawn_tasks_locals 4 4 4 0 10).rT ≠ 0
              then [Op.tmc (((1 : Int) <<< (vx_spawn_tasks_locals 4 4 4 0 10).rT) - 1),
                    Op.rem_stub, Op.tmc_one]
              else [])
          ++ [Op.wspawn_wait]
    ∧ (vx_spawn_tasks 4 4 4 0 10).head? = some (Op.csr_write (⟨(vx_spawn_tasks_locals 4 4 4 0 10).offset,
      (vx_spawn_tasks_locals 4 4 4 0 10).remain,
      (vx_spawn_tasks_locals 4 4 4 0 10).fW,
      (vx_spawn_tasks_locals 4 4 4 0 10).rW⟩ : wspawn_tasks_args_t))
    ∧ (∀ e, Op.csr_write e ∉ (vx_spawn_tasks 4 4 4 0 10).tail)
    ∧ (vx_spawn_tasks 4 4 4 0 10).getLast? = some Op.wspawn_wait
    ∧ Op.wspawn_wait ∉ (vx_spawn_tasks 4 4 4 0 10).dropLast
    ∧ (∀ n : Int, Op.wspawn n ∈ vx_spawn_tasks 4 4 4 0 10 →
        1 ≤ (vx_spawn_tasks_locals 4 4 4 0 10).TW ∧ n = MIN (vx_spawn_tasks_locals 4 4 4 0 10).TW 4)
    ∧ (Op.all_stub ∈ vx_spawn_tasks 4 4 4 0 10 ↔ 1 ≤ (vx_spawn_tasks_locals 4 4 4 0 10).TW)
    ∧ (Op.rem_stub ∈ vx_spawn_tasks 4 4 4 0 10 ↔ (vx_spawn_tasks_locals 4 4 4 0 10).rT ≠ 0))
    ∧ (∀ ctx : pocl_kernel_context_t,
        ctx.num_groups0 * ctx.num_groups1 * ctx.num_groups2 = 10 →
        vx_spawn_pocl_kernel ctx 4 4 4 0
            = [Op.csr_write (grid_args ctx (vx_spawn_pocl_kernel_locals ctx 4 4 4 0).offset
                                (vx_spawn_pocl_kernel_locals ctx 4 4 4 0).remain
                                (vx_spawn_pocl_kernel_locals ctx 4 4 4 0).fW
                                (vx_spawn_pocl_kernel_locals ctx 4 4 4 0).rW)]
              ++ (if 1 ≤ (vx_spawn_pocl_kernel_locals ctx 4 4 4 0).TW
                  then [Op.wspawn (MIN (vx_spawn_pocl_kernel_locals ctx 4 4 4 0).TW 4), Op.tmc (-1),
                        Op.all_stub, Op.tmc_one]
                  else [])
              ++ (if (vx_spawn_pocl_kernel_locals ctx 4 4 4 0).rT ≠ 0
                  then [Op.tmc (((1 : Int) <<< (vx_spawn_pocl_kernel_locals ctx 4 4 4 0).rT) - 1),
                        Op.rem_stub, Op.tmc_one]
                  else [])
              ++ [Op.wspawn_wait]
        ∧ (vx_spawn_pocl_kernel ctx 4 4 4 0).head? = some (Op.csr_write (grid_args ctx (vx_spawn_pocl_kernel_locals ctx 4 4 4 0).offset
                                (vx_spawn_pocl_kernel_locals ctx 4 4 4 0).remain
                                (vx_spawn_pocl_kernel_locals ctx 4 4 4 0).fW
                                (vx_spawn_pocl_kernel_locals ctx 4 4 4 0).rW))
        ∧ (∀ e, Op.csr_write e ∉ (vx_spawn_pocl_kernel ctx 4 4 4 0).tail)
        ∧ (vx_spawn_pocl_kernel ctx 4 4 4 0).getLast? = some Op.wspawn_wait
        ∧ Op.wspawn_wait ∉ (vx_spawn_pocl_kernel ctx 4 4 4 0).dropLast
        ∧ (∀ n : Int, Op.wspawn n ∈ vx_spawn_pocl_kernel ctx 4 4 4 0 →
            1 ≤ (vx_spawn_pocl_kernel_locals ctx 4 4 4 0).TW ∧ n = MIN (vx_spawn_pocl_kernel_locals ctx 4 4 4 0).TW 4)
        ∧ (Op.all_stub ∈ vx_spawn_pocl_kernel ctx 4 4 4 0 ↔ 1 ≤ (vx_spawn_pocl_kernel_locals ctx 4 4 4 0).TW)
        ∧ (Op.rem_stub ∈ vx_spawn_pocl_kernel ctx 4 4 4 0 ↔ (vx_spawn_pocl_kernel_locals ctx 4 4 4 0).rT ≠ 0)))
    ∧ (vx_spawn_tasks 4 4 4 0 10
          = [Op.csr_write ⟨0, 8, 1, 0⟩, Op.wspawn 2, Op.tmc (-1), Op.all_stub, Op.tmc_one,
             Op.tmc 3, Op.rem_stub, Op.tmc_one, Op.wspawn_wait]
      ∧ vx_spawn_pocl_kernel ⟨5, 2, 1, 1, 1, 1⟩ 4 4 4 0
          = [Op.csr_write ⟨⟨5, 2, 1, 1, 1, 1⟩, 1, 0, 8, 1, 0, 0, 3, 2⟩, Op.wspawn 2, Op.tmc (-1),
             Op.all_stub, Op.tmc_one, Op.tmc 3, Op.rem_stub, Op.tmc_one, Op.wspawn_wait]) :=
  ⟨by decide, C13_publish_before_spawn_join_last 4 4 4 0 10 (by decide) (by decide),
    by decide⟩

/-! ### C14: the local offset of a grid call -/

/-- Both paths of the stubs pass `wg_id * local_size` as the local offset. -/

theorem stub_body_local_offset (d : wspawn_pocl_kernel_args_t) (id : Int) :
    (stub_body d id).local_offset = id * d.local_size := by
  unfold stub_body
  split <;> rfl

/-- The identifiers a core calls back on lie in `[0, T)`. -/

theorem dispatch_flat_core_ids (fuel : Nat) (NC NW NT T c : Int) (hT : 1 ≤ T) (hNC : 1 ≤ NC)
    (hNW : 1 ≤ NW) (hNT : 1 ≤ NT) (hc : 0 ≤ c) (hfuel : T.toNat + 1 < fuel) :
    ∃ calls, dispatch_flat_core fuel NC NW NT T c = some calls
      ∧ ∀ id ∈ calls, 0 ≤ id ∧ id < T := by
  by_cases h : c < nc_of NC NW NT T ∧ c < NUM_CORES_MAX
  · obtain ⟨calls, hcalls, hp⟩ :=
      dispatch_flat_core_cover fuel NC NW NT T c hT hNC hNW hNT h.1 h.2 hfuel
    refine ⟨calls, hcalls, fun id hid => ?_⟩
    have hmem := mem_irange.1 (hp.mem_iff.1 hid)
    obtain ⟨-, -, hs1, -⟩ := locals_share_bounds NC NW NT c T hT hNC hNW hNT
    rw [Int.toNat_of_nonneg (by omega)] at hmem
    exact (core_ranges_partition NC NW NT T hT hNC hNW hNT id).2 ⟨c, ⟨hc, h.1⟩, hmem.1, hmem.2⟩
  · refine ⟨[], dispatch_flat_core_idle fuel NC NW NT T c ?_, fun id hid => ?_⟩
    · by_cases h1 : c < nc_of NC NW NT T
      · exact Or.inr (by have := fun h2 => h ⟨h1, h2⟩; omega)
      · exact Or.inl (by omega)
    · exact absurd hid (List.not_mem_nil _)

/-- C14: for every grid `X, Y, Z ≥ 1` (with `X*Y` representable as a 32-bit `int`), local sizes
`L0, L1, L2` and every work-group identifier in `[0, X*Y*Z)`, the call the stubs make passes
`local_offset = wg_id * (L0*L1*L2)`, which equals `(k*X*Y + j*X + i) * (L0*L1*L2)` for the
`(i, j, k)` of the same call; and on every core every callback invocation of
`vx_spawn_pocl_kernel`, by the bulk stub or by the remainder stub, is such a call. -/

theorem C14_local_offset_matches_coordinate (ctx : pocl_kernel_context_t) (NC NW NT c : Int)
    (fuel : Nat)
    (hX : 1 ≤ ctx.num_groups0) (hY : 1 ≤ ctx.num_groups1) (hZ : 1 ≤ ctx.num_groups2)
    (hfit : ctx.num_groups0 * ctx.num_groups1 < 2 ^ 31)
    (hNC : 1 ≤ NC) (hNW : 1 ≤ NW) (hNT : 1 ≤ NT) (hc : 0 ≤ c)
    (hfuel : (ctx.num_groups0 * ctx.num_groups1 * ctx.num_groups2).toNat + 1 < fuel) :
    (∀ offset remain fW rW wg_id : Int, 0 ≤ wg_id →
        wg_id < ctx.num_groups0 * ctx.num_groups1 * ctx.num_groups2 →
        (stub_body (grid_args ctx offset remain fW rW) wg_id).local_offset
            = wg_id * (ctx.local_size0 * ctx.local_size1 * ctx.local_size2)
        ∧ (stub_body (grid_args ctx offset remain fW rW) wg_id).local_offset
            = ((stub_body (grid_args ctx offset remain fW rW) wg_id).k
                  * ctx.num_groups0 * ctx.num_groups1
                + (stub_body (grid_args ctx offset remain fW rW) wg_id).j * ctx.num_groups0
                + (stub_body (grid_args ctx offset remain fW rW) wg_id).i)
              * (ctx.local_size0 * ctx.local_size1 * ctx.local_size2))
    ∧ ∃ calls, dispatch_grid_core fuel ctx NC NW NT c = some calls
        ∧ ∀ call ∈ calls,
            call.local_offset
              = (call.k * ctx.num_groups0 * ctx.num_groups1 + call.j * ctx.num_groups0 + call.i)
                * (ctx.local_size0 * ctx.local_size1 * ctx.local_size2)
            ∧ ∃ wg_id : Int,
                (0 ≤ wg_id ∧ wg_id < ctx.num_groups0 * ctx.num_groups1 * ctx.num_groups2)
                ∧ call.local_offset
                    = wg_id * (ctx.local_size0 * ctx.local_size1 * ctx.local_size2)
                ∧ wg_id
                    = call.k * ctx.num_groups0 * ctx.num_groups1 + call.j * ctx.num_groups0
                      + call.i := by
  have hbody : ∀ offset remain fW rW wg_id : Int, 0 ≤ wg_id →
      wg_id < ctx.num_groups0 * ctx.num_groups1 * ctx.num_groups2 →
      (stub_body (grid_args ctx offset remain fW rW) wg_id).local_offset
          = wg_id * (ctx.local_size0 * ctx.local_size1 * ctx.local_size2)
      ∧ (stub_body (grid_args ctx offset remain fW rW) wg_id).k
                * ctx.num_groups0 * ctx.num_groups1
              + (stub_body (grid_args ctx offset remain fW rW) wg_id).j * ctx.num_groups0
              + (stub_body (grid_args ctx offset remain fW rW) wg_id).i = wg_id := by
    intro offset remain fW rW wg_id h0 h1
    refine ⟨stub_body_local_offset _ _, ?_⟩
    rw [stub_body_grid_args ctx offset remain fW rW wg_id hX hY hfit h0]
    exact (body_div_spec _ _ _ _ wg_id hX hY h0 h1).1
  constructor
  · intro offset remain fW rW wg_id h0 h1
    obtain ⟨h2, h3⟩ := hbody offset remain fW rW wg_id h0 h1
    exact ⟨h2, by rw [h3]; exact h2⟩
  · have hT : 1 ≤ ctx.num_groups0 * ctx.num_groups1 * ctx.num_groups2 := by
      have : 1 ≤ ctx.num_groups0 * ctx.num_groups1 := by nlinarith
      nlinarith
    obtain ⟨fcalls, hf, hids⟩ := dispatch_flat_core_ids fuel NC NW NT _ c hT hNC hNW hNT hc hfuel
    refine ⟨fcalls.map (grid_body ctx), by rw [dispatch_grid_core_eq, hf]; rfl, ?_⟩
    intro call hcall
    obtain ⟨id, hid, rfl⟩ := List.mem_map.1 hcall
    obtain ⟨h0, h1⟩ := hids id hid
    obtain ⟨h2, h3⟩ := hbody 0 0 0 0 id h0 h1
    change (grid_body ctx id).local_offset = _ at h2
    change (grid_body ctx id).k * _ * _ + (grid_body ctx id).j * _ + (grid_body ctx id).i = _
      at h3
    exact ⟨by rw [h3]; exact h2, id, ⟨h0, h1⟩, h2, h3.symm⟩

/-- C14, witness: the grid `4 × 4 × 2` with local sizes `2, 3, 1` on a device with
`NC = NW = NT = 2`, core 1; the work-group `21 = (1, 1, 1)` gets the local offset `126`. -/

theorem C14_local_offset_matches_coordinate_witness :
    ((1 : Int) ≤ 4 ∧ (1 : Int) ≤ 2 ∧ (4 : Int) * 4 < 2 ^ 31 ∧ (0 : Int) ≤ 1
      ∧ ((4 : Int) * 4 * 2).toNat + 1 < 34)
    ∧ ((∀ offset remain fW rW wg_id : Int, 0 ≤ wg_id →
        wg_id < (⟨4, 4, 2, 2, 3, 1⟩ : pocl_kernel_context_t).num_groups0 * (⟨4, 4, 2, 2, 3, 1⟩ : pocl_kernel_context_t).num_groups1 * (⟨4, 4, 2, 2, 3, 1⟩ : pocl_kernel_context_t).num_groups2 →
        (stub_body (grid_args (⟨4, 4, 2, 2, 3, 1⟩ : pocl_kernel_context_t) offset remain fW rW) wg_id).local_offset
            = wg_id * ((⟨4, 4, 2, 2, 3, 1⟩ : pocl_kernel_context_t).local_size0 * (⟨4, 4, 2, 2, 3, 1⟩ : pocl_kernel_context_t).local_size1 * (⟨4, 4, 2, 2, 3, 1⟩ : pocl_kernel_context_t).local_size2)
        ∧ (stub_body (grid_args (⟨4, 4, 2, 2, 3, 1⟩ : pocl_kernel_context_t) offset remain fW rW) wg_id).local_offset
            = ((stub_body (grid_args (⟨4, 4, 2, 2, 3, 1⟩ : pocl_kernel_context_t) offset remain fW rW) wg_id).k
                  * (⟨4, 4, 2, 2, 3, 1⟩ : pocl_kernel_context_t).num_groups0 * (⟨4, 4, 2, 2, 3, 1⟩ : pocl_kernel_context_t).num_groups1
                + (stub_body (grid_args (⟨4, 4, 2, 2, 3, 1⟩ : pocl_kernel_context_t) offset remain fW rW) wg_id).j * (⟨4, 4, 2, 2, 3, 1⟩ : pocl_kernel_context_t).num_groups0
                + (stub_body (grid_args (⟨4, 4, 2, 2, 3, 1⟩ : pocl_kernel_context_t) offset remain fW rW) wg_id).i)
              * ((⟨4, 4, 2, 2, 3, 1⟩ : pocl_kernel_context_t).local_size0 * (⟨4, 4, 2, 2, 3, 1⟩ : pocl_kernel_context_t).local_size1 * (⟨4, 4, 2, 2, 3, 1⟩ : pocl_kernel_context_t).local_size2))
    ∧ ∃ calls, dispatch_grid_core 34 (⟨4, 4, 2, 2, 3, 1⟩ : pocl_kernel_context_t) 2 2 2 1 = some calls
        ∧ ∀ call ∈ calls,
            call.local_offset
              = (call.k * (⟨4, 4, 2, 2, 3, 1⟩ : pocl_kernel_context_t).num_groups0 * (⟨4, 4, 2, 2, 3, 1⟩ : pocl_kernel_context_t).num_groups1 + call.j * (⟨4, 4, 2, 2, 3, 1⟩ : pocl_kernel_context_t).num_groups0 + call.i)
                * ((⟨4, 4, 2, 2, 3, 1⟩ : pocl_kernel_context_t).local_size0 * (⟨4, 4, 2, 2, 3, 1⟩ : pocl_kernel_context_t).local_size1 * (⟨4, 4, 2, 2, 3, 1⟩ : pocl_kernel_context_t).local_size2)
            ∧ ∃ wg_id : Int,
                (0 ≤ wg_id ∧ wg_id < (⟨4, 4, 2, 2, 3, 1⟩ : pocl_kernel_context_t).num_groups0 * (⟨4, 4, 2, 2, 3, 1⟩ : pocl_kernel_context_t).num_groups1 * (⟨4, 4, 2, 2, 3, 1⟩ : pocl_kernel_context_t).num_groups2)
                ∧ call.local_offset
                    = wg_id * ((⟨4, 4, 2, 2, 3, 1⟩ : pocl_kernel_context_t).local_size0 * (⟨4, 4, 2, 2, 3, 1⟩ : pocl_kernel_context_t).local_size1 * (⟨4, 4, 2, 2, 3, 1⟩ : pocl_kernel_context_t).local_size2)
                ∧ wg_id
                    = call.k * (⟨4, 4, 2, 2, 3, 1⟩ : pocl_kernel_context_t).num_groups0 * (⟨4, 4, 2, 2, 3, 1⟩ : pocl_kernel_context_t).num_groups1 + call.j * (⟨4, 4, 2, 2, 3, 1⟩ : pocl_kernel_context_t).num_groups0
                      + call.i)
    ∧ (stub_body (grid_args ⟨4, 4, 2, 2, 3, 1⟩ 0 0 1 0) 21 = ⟨1, 1, 1, 126⟩) :=
  ⟨by decide, C14_local_offset_matches_coordinate ⟨4, 4, 2, 2, 3, 1⟩ 2 2 2 1 34 (by decide)
    (by decide) (by decide) (by decide) (by decide) (by decide) (by decide) (by decide)
    (by decide), by decide⟩

/-! ### C15, C20: the helpers `is_log2` and `log2_fast` -/

/-- On a positive 32-bit word `log2_fast` is the position of the top bit. -/

theorem log2_fast_spec (x : Int) (h0 : 1 ≤ x) (h1 : x < 2 ^ 32) :
    ∃ n : Nat, n < 32 ∧ log2_fast x = (n : Int) ∧ (2 : Int) ^ n ≤ x ∧ x < (2 : Int) ^ (n + 1) := by
  obtain ⟨m, rfl⟩ := Int.eq_ofNat_of_zero_le (by omega : 0 ≤ x)
  have hm : m ≠ 0 := by omega
  have hlo : 2 ^ Nat.log 2 m ≤ m := Nat.pow_log_le_self 2 hm
  have hhi : m < 2 ^ (Nat.log 2 m + 1) := Nat.lt_pow_succ_log_self (by norm_num) m
  have hm32 : m < 2 ^ 32 := by exact_mod_cast h1
  have hn : Nat.log 2 m < 32 := by
    have : 2 ^ Nat.log 2 m < 2 ^ 32 := lt_of_le_of_lt hlo hm32
    exact (Nat.pow_lt_pow_iff_right (by norm_num)).1 this
  refine ⟨Nat.log 2 m, hn, ?_, by exact_mod_cast hlo, by exact_mod_cast hhi⟩
  unfold log2_fast
  rw [to_u32_of_lt _ (by omega) h1, Int.toNat_ofNat, builtin_clz_eq m _ hn hlo hhi]
  omega

/-- The position of the top bit is unique. -/

theorem top_bit_unique (x : Int) (m n : Nat) (hm0 : (2 : Int) ^ m ≤ x)
    (hm1 : x < (2 : Int) ^ (m + 1)) (hn0 : (2 : Int) ^ n ≤ x) (hn1 : x < (2 : Int) ^ (n + 1)) :
    m = n := by
  have h1 : (2 : Int) ^ m < 2 ^ (n + 1) := lt_of_le_of_lt hm0 hn1
  have h2 : (2 : Int) ^ n < 2 ^ (m + 1) := lt_of_le_of_lt hn0 hm1
  have h3 := (pow_lt_pow_iff_right₀ (by norm_num : (1 : Int) < 2)).1 h1
  have h4 := (pow_lt_pow_iff_right₀ (by norm_num : (1 : Int) < 2)).1 h2
  omega

/-- Shifting `1` by `log2_fast` of a power of two below `2 ^ 32` gives the power back. -/

theorem shiftLeft_log2_fast_pow2 (a : Nat) (ha : a < 32) :
    (1 : Int) <<< log2_fast (2 ^ a) = 2 ^ a := by
  rw [log2_fast_pow2 a ha, Int.one_shiftLeft]
  push_cast
  rfl

/-- With the flag `is_log2(X*Y)` set, `X` is a power of two and both shifts are exact. -/

theorem pow2_flag_sound (X Y : Int) (hX : 1 ≤ X) (hY : 1 ≤ Y) (hfit : X * Y < 2 ^ 31)
    (hflag : is_log2 (X * Y) ≠ 0) :
    (∃ a : Nat, X * Y = 2 ^ a) ∧ (∃ b : Nat, X = 2 ^ b)
    ∧ (1 : Int) <<< log2_fast X = X ∧ (1 : Int) <<< log2_fast (X * Y) = X * Y
    ∧ to_char (log2_fast X) = log2_fast X ∧ to_char (log2_fast (X * Y)) = log2_fast (X * Y) := by
  obtain ⟨a, ha⟩ := (is_log2_ne_zero_iff _ (by nlinarith) (by omega)).1 hflag
  have ha31 : a < 31 := by
    rw [ha] at hfit
    exact (pow_lt_pow_iff_right₀ (by norm_num : (1 : Int) < 2)).1 hfit
  obtain ⟨b, hb, hXb⟩ := pow2_factor X Y a hX hY ha
  refine ⟨⟨a, ha⟩, ⟨b, hXb⟩, ?_, ?_, ?_, ?_⟩
  · rw [hXb]; exact shiftLeft_log2_fast_pow2 b (by omega)
  · rw [ha]; exact shiftLeft_log2_fast_pow2 a (by omega)
  · rw [hXb, log2_fast_pow2 b (by omega)]
    exact to_char_of_lt _ (by omega) (by omega)
  · rw [ha, log2_fast_pow2 a (by omega)]
    exact to_char_of_lt _ (by omega) (by omega)

/-- C15: for every `X, Y ≥ 1` with `X*Y < 2^31`, if `is_log2(X*Y)` is true then `X` is itself a
power of two, so `(1 << log2_fast(X)) = X` and `(1 << log2_fast(X*Y)) = X*Y` (also for the shift
amounts as stored in the `char` members of the descriptor): no grid of positive dimensions has
the flag `isXYpow2` set while `X` is not a power of two. -/

theorem C15_fast_path_shift_sound (ctx : pocl_kernel_context_t) (offset remain fW rW : Int)
    (hX : 1 ≤ ctx.num_groups0) (hY : 1 ≤ ctx.num_groups1)
    (hfit : ctx.num_groups0 * ctx.num_groups1 < 2 ^ 31)
    (hflag : (grid_args ctx offset remain fW rW).isXYpow2 ≠ 0) :
    is_log2 (ctx.num_groups0 * ctx.num_groups1) ≠ 0
    ∧ (∃ b : Nat, ctx.num_groups0 = 2 ^ b)
    ∧ (1 : Int) <<< log2_fast ctx.num_groups0 = ctx.num_groups0
    ∧ (1 : Int) <<< log2_fast (ctx.num_groups0 * ctx.num_groups1)
        = ctx.num_groups0 * ctx.num_groups1
    ∧ (1 : Int) <<< (grid_args ctx offset remain fW rW).log2X = ctx.num_groups0
    ∧ (1 : Int) <<< (grid_args ctx offset remain fW rW).log2XY
        = ctx.num_groups0 * ctx.num_groups1 := by
  have hflag2 : is_log2 (ctx.num_groups0 * ctx.num_groups1) ≠ 0 := hflag
  obtain ⟨-, hb, h1, h2, h3, h4⟩ := pow2_flag_sound _ _ hX hY hfit hflag2
  refine ⟨hflag2, hb, h1, h2, ?_, ?_⟩
  · show (1 : Int) <<< to_char (log2_fast ctx.num_groups0) = _
    rw [h3, h1]
  · show (1 : Int) <<< to_char (log2_fast (ctx.num_groups0 * ctx.num_groups1)) = _
    rw [h4, h2]

/-- C15, witness: the grid `4 × 4 × 2` of scenario B: `X*Y = 16`, shifts `4` and `2`. -/

theorem C15_fast_path_shift_sound_witness :
    ((1 : Int) ≤ 4 ∧ (4 : Int) * 4 < 2 ^ 31
      ∧ (grid_args ⟨4, 4, 2, 1, 1, 1⟩ 0 0 1 0).isXYpow2 ≠ 0)
    ∧ (is_log2 ((4 : Int) * 4) ≠ 0
      ∧ (∃ b : Nat, (4 : Int) = 2 ^ b)
      ∧ (1 : Int) <<< log2_fast 4 = 4
      ∧ (1 : Int) <<< log2_fast ((4 : Int) * 4) = 4 * 4
      ∧ (1 : Int) <<< (grid_args ⟨4, 4, 2, 1, 1, 1⟩ 0 0 1 0).log2X = 4
      ∧ (1 : Int) <<< (grid_args ⟨4, 4, 2, 1, 1, 1⟩ 0 0 1 0).log2XY = 4 * 4)
    ∧ ((grid_args ⟨4, 4, 2, 1, 1, 1⟩ 0 0 1 0).log2XY = 4
      ∧ (grid_args ⟨4, 4, 2, 1, 1, 1⟩ 0 0 1 0).log2X = 2
      ∧ is_log2 (6 * 2) = 0) :=
  ⟨by decide, C15_fast_path_shift_sound ⟨4, 4, 2, 1, 1, 1⟩ 0 0 1 0 (by decide) (by decide)
    (by decide) (by decide), by decide⟩

/-- C20: for every 32-bit `int` `x ≥ 1`, `is_log2(x)` is true if and only if `x = 2^n` for some
`n` in `0 .. 30`, and `log2_fast(x) = 31 - clz(x)` is the unique `n` with
`2^n ≤ x < 2^(n+1)`; so for a power of two `x`, `1 << log2_fast(x) = x`. -/

theorem C20_helper_correctness (x : Int) (h0 : 1 ≤ x) (h1 : x < 2 ^ 31) :
    (is_log2 x = 1 ∨ is_log2 x = 0)
    ∧ (is_log2 x ≠ 0 ↔ ∃ n : Nat, n ≤ 30 ∧ x = 2 ^ n)
    ∧ log2_fast x = 31 - (builtin_clz (to_u32 x) : Int)
    ∧ (∃ n : Nat, n ≤ 30 ∧ log2_fast x = (n : Int) ∧ (2 : Int) ^ n ≤ x ∧ x < (2 : Int) ^ (n + 1)
        ∧ ∀ m : Nat, (2 : Int) ^ m ≤ x → x < (2 : Int) ^ (m + 1) → m = n)
    ∧ (is_log2 x ≠ 0 → (1 : Int) <<< log2_fast x = x) := by
  have hiff := is_log2_ne_zero_iff x h0 (by omega)
  refine ⟨?_, ?_, rfl, ?_, ?_⟩
  · unfold is_log2 c_bool
    split
    · exact Or.inl rfl
    · exact Or.inr rfl
  · rw [hiff]
    constructor
    · rintro ⟨n, hn⟩
      refine ⟨n, ?_, hn⟩
      rw [hn] at h1
      have := (pow_lt_pow_iff_right₀ (by norm_num : (1 : Int) < 2)).1 h1
      omega
    · rintro ⟨n, -, hn⟩
      exact ⟨n, hn⟩
  · obtain ⟨n, hn, hl, hlo, hhi⟩ := log2_fast_spec x h0 (by omega)
    have hn30 : n ≤ 30 := by
      have : (2 : Int) ^ n < 2 ^ 31 := lt_of_le_of_lt hlo h1
      have := (pow_lt_pow_iff_right₀ (by norm_num : (1 : Int) < 2)).1 this
      omega
    exact ⟨n, hn30, hl, hlo, hhi, fun m hm0 hm1 => top_bit_unique x m n hm0 hm1 hlo hhi⟩
  · intro hflag
    obtain ⟨a, ha⟩ := hiff.1 hflag
    have ha31 : a < 31 := by
      rw [ha] at h1
      exact (pow_lt_pow_iff_right₀ (by norm_num : (1 : Int) < 2)).1 h1
    rw [ha]
    exact shiftLeft_log2_fast_pow2 a (by omega)

/-- C20, witness: `x = 16` is a power of two with `log2_fast = 4`; `x = 12` is not and has
`log2_fast = 3`. -/

theorem C20_helper_correctness_witness :
    ((1 : Int) ≤ 16 ∧ (16 : Int) < 2 ^ 31)
    ∧ ((is_log2 16 = 1 ∨ is_log2 16 = 0)
      ∧ (is_log2 16 ≠ 0 ↔ ∃ n : Nat, n ≤ 30 ∧ (16 : Int) = 2 ^ n)
      ∧ log2_fast 16 = 31 - (builtin_clz (to_u32 16) : Int)
      ∧ (∃ n : Nat, n ≤ 30 ∧ log2_fast 16 = (n : Int) ∧ (2 : Int) ^ n ≤ 16
          ∧ (16 : Int) < (2 : Int) ^ (n + 1)
          ∧ ∀ m : Nat, (2 : Int) ^ m ≤ 16 → (16 : Int) < (2 : Int) ^ (m + 1) → m = n)
      ∧ (is_log2 16 ≠ 0 → (1 : Int) <<< log2_fast 16 = 16))
    ∧ (is_log2 16 = 1 ∧ log2_fast 16 = 4 ∧ builtin_clz 16 = 27 ∧ is_log2 12 = 0
      ∧ log2_fast 12 = 3 ∧ is_log2 1 = 1 ∧ log2_fast 1 = 0
      ∧ is_log2 (2 ^ 30) = 1 ∧ log2_fast (2 ^ 30) = 30 ∧ log2_fast (2 ^ 31 - 1) = 30) :=
  ⟨by decide, C20_helper_correctness 16 (by decide) (by decide), by decide⟩

/-! ### C16: a dispatch of zero tasks -/

theorem collect_all_nil {α β : Type} (l : List α) (f : α → Option (List β))
    (h : ∀ x ∈ l, f x = some []) : collect (l.map f) = some [] := by
  rw [collect_map_some l f (fun _ => []) h]
  congr 1
  induction l with
  | nil => rfl
  | cons x xs ih => simp

/-- The local variables of `vx_spawn_tasks` for `num_tasks = 0`. -/

theorem locals_zero_tasks (NC NW NT c : Int) (hNC : 1 ≤ NC) (hNW : 1 ≤ NW) (hNT : 1 ≤ NT) :
    (vx_spawn_tasks_locals NC NW NT c 0).nc = 1
    ∧ (vx_spawn_tasks_locals NC NW NT c 0).tasks_per_core = 0
    ∧ (vx_spawn_tasks_locals NC NW NT c 0).tasks_per_core_n1 = 0
    ∧ (vx_spawn_tasks_locals NC NW NT c 0).TW = 0
    ∧ (vx_spawn_tasks_locals NC NW NT c 0).rT = 0
    ∧ (vx_spawn_tasks_locals NC NW NT c 0).fW = 1
    ∧ (vx_spawn_tasks_locals NC NW NT c 0).rW = 0
    ∧ (vx_spawn_tasks_locals NC NW NT c 0).offset = 0
    ∧ (vx_spawn_tasks_locals NC NW NT c 0).remain = 0 := by
  have hWT : ¬ (0 : Int) > NW * NT := by nlinarith
  have hnc : (vx_spawn_tasks_locals NC NW NT c 0).nc = 1 := by
    show MIN (if (0 : Int) > NW * NT then Int.tdiv 0 (NW * NT) else 1) NC = 1
    rw [if_neg hWT]; unfold MIN; split <;> omega
  have htpc : (vx_spawn_tasks_locals NC NW NT c 0).tasks_per_core = 0 := by
    show Int.tdiv 0 (vx_spawn_tasks_locals NC NW NT c 0).nc = 0
    exact Int.zero_tdiv _
  have hn1 : (vx_spawn_tasks_locals NC NW NT c 0).tasks_per_core_n1 = 0 := by
    show (if c = (vx_spawn_tasks_locals NC NW NT c 0).nc - 1
        then (vx_spawn_tasks_locals NC NW NT c 0).tasks_per_core
          + (0 - (vx_spawn_tasks_locals NC NW NT c 0).nc
              * (vx_spawn_tasks_locals NC NW NT c 0).tasks_per_core)
        else (vx_spawn_tasks_locals NC NW NT c 0).tasks_per_core) = 0
    rw [htpc]
    split <;> simp
  have hTW : (vx_spawn_tasks_locals NC NW NT c 0).TW = 0 := by
    show Int.tdiv (vx_spawn_tasks_locals NC NW NT c 0).tasks_per_core_n1 NT = 0
    rw [hn1]; exact Int.zero_tdiv _
  have hrT : (vx_spawn_tasks_locals NC NW NT c 0).rT = 0 := by
    show (vx_spawn_tasks_locals NC NW NT c 0).tasks_per_core_n1
      - (vx_spawn_tasks_locals NC NW NT c 0).TW * NT = 0
    rw [hn1, hTW]; simp
  have hfW : (vx_spawn_tasks_locals NC NW NT c 0).fW = 1 := by
    show (if (vx_spawn_tasks_locals NC NW NT c 0).TW ≥ NW
      then Int.tdiv (vx_spawn_tasks_locals NC NW NT c 0).TW NW else 1) = 1
    rw [hTW, if_neg (by omega)]
  have hrW : (vx_spawn_tasks_locals NC NW NT c 0).rW = 0 := by
    show (if (vx_spawn_tasks_locals NC NW NT c 0).TW ≥ NW
      then (vx_spawn_tasks_locals NC NW NT c 0).TW
        - Int.tdiv (vx_spawn_tasks_locals NC NW NT c 0).TW NW * NW else 0) = 0
    rw [hTW, if_neg (by omega)]
  have hoff : (vx_spawn_tasks_locals NC NW NT c 0).offset = 0 := by
    show c * (vx_spawn_tasks_locals NC NW NT c 0).tasks_per_core = 0
    rw [htpc]; simp
  have hrem : (vx_spawn_tasks_locals NC NW NT c 0).remain = 0 := by
    show (vx_spawn_tasks_locals NC NW NT c 0).offset
      + ((vx_spawn_tasks_locals NC NW NT c 0).tasks_per_core_n1
        - (vx_spawn_tasks_locals NC NW NT c 0).rT) = 0
    rw [hoff, hn1, hrT]; simp
  exact ⟨hnc, htpc, hn1, hTW, hrT, hfW, hrW, hoff, hrem⟩

/-- C16: for `T = 0` and every topology `NC, NW, NT ≥ 1`, `vx_spawn_tasks` computes `nc = 1`,
share `0`, `TW = 0` and `rT = 0`: core 0 only writes the descriptor and joins, every other core
issues nothing; no wave is requested, the lane mask is never changed, and the callback is
invoked zero times on the whole device, whatever the fuel. -/

theorem C16_zero_tasks_no_callback (NC NW NT : Int) (fuel : Nat) (hNC : 1 ≤ NC) (hNW : 1 ≤ NW)
    (hNT : 1 ≤ NT) :
    (∀ c : Int,
      (vx_spawn_tasks_locals NC NW NT c 0).nc = 1
      ∧ (vx_spawn_tasks_locals NC NW NT c 0).tasks_per_core_n1 = 0
      ∧ (vx_spawn_tasks_locals NC NW NT c 0).TW = 0
      ∧ (vx_spawn_tasks_locals NC NW NT c 0).rT = 0)
    ∧ vx_spawn_tasks NC NW NT 0 0 = [Op.csr_write ⟨0, 0, 1, 0⟩, Op.wspawn_wait]
    ∧ (∀ c : Int, 1 ≤ c → vx_spawn_tasks NC NW NT c 0 = [])
    ∧ (∀ c : Int, 0 ≤ c → ∀ op ∈ vx_spawn_tasks NC NW NT c 0,
        op = Op.csr_write ⟨0, 0, 1, 0⟩ ∨ op = Op.wspawn_wait)
    ∧ (∀ c : Int, 0 ≤ c → dispatch_flat_core fuel NC NW NT 0 c = some [])
    ∧ dispatch_flat fuel NC NW NT 0 = some [] := by
  have hl := fun c => locals_zero_tasks NC NW NT c hNC hNW hNT
  have hnc : nc_of NC NW NT 0 = 1 := (hl 0).1
  have h0 : vx_spawn_tasks NC NW NT 0 0 = [Op.csr_write ⟨0, 0, 1, 0⟩, Op.wspawn_wait] := by
    rw [vx_spawn_tasks_active NC NW NT 0 0 (by omega) (by decide)]
    obtain ⟨-, -, -, h4, h5, h6, h7, h8, h9⟩ := hl 0
    rw [h4, h5, h6, h7, h8, h9]
    rfl
  have h1 : ∀ c : Int, 1 ≤ c → vx_spawn_tasks NC NW NT c 0 = [] :=
    fun c hc => vx_spawn_tasks_idle NC NW NT 0 c (by omega)
  have hcore : ∀ c : Int, 0 ≤ c → dispatch_flat_core fuel NC NW NT 0 c = some [] := by
    intro c hc
    by_cases hc0 : c = 0
    · subst hc0
      unfold dispatch_flat_core
      rw [h0]
      rfl
    · exact dispatch_flat_core_idle fuel NC NW NT 0 c (Or.inl (by omega))
  refine ⟨fun c => ⟨(hl c).1, (hl c).2.2.1, (hl c).2.2.2.1, (hl c).2.2.2.2.1⟩, h0, h1, ?_,
    hcore, ?_⟩
  · intro c hc op hop
    by_cases hc0 : c = 0
    · subst hc0
      rw [h0] at hop
      simpa using hop
    · rw [h1 c (by omega)] at hop
      exact absurd hop (List.not_mem_nil _)
  · unfold dispatch_flat
    apply collect_all_nil
    intro c hc
    unfold core_ids at hc
    obtain ⟨n, -, rfl⟩ := List.mem_map.1 hc
    exact hcore _ (by omega)

/-- C16, witness: `T = 0` on a device with `NC = NW = NT = 4`. -/

theorem C16_zero_tasks_no_callback_witness :
    ((1 : Int) ≤ 4)
    ∧ ((∀ c : Int,
        (vx_spawn_tasks_locals 4 4 4 c 0).nc = 1
        ∧ (vx_spawn_tasks_locals 4 4 4 c 0).tasks_per_core_n1 = 0
        ∧ (vx_spawn_tasks_locals 4 4 4 c 0).TW = 0
        ∧ (vx_spawn_tasks_locals 4 4 4 c 0).rT = 0)
      ∧ vx_spawn_tasks 4 4 4 0 0 = [Op.csr_write ⟨0, 0, 1, 0⟩, Op.wspawn_wait]
      ∧ (∀ c : Int, 1 ≤ c → vx_spawn_tasks 4 4 4 c 0 = [])
      ∧ (∀ c : Int, 0 ≤ c → ∀ op ∈ vx_spawn_tasks 4 4 4 c 0,
          op = Op.csr_write ⟨0, 0, 1, 0⟩ ∨ op = Op.wspawn_wait)
      ∧ (∀ c : Int, 0 ≤ c → dispatch_flat_core 1 4 4 4 0 c = some [])
      ∧ dispatch_flat 1 4 4 4 0 = some []) :=
  ⟨by decide, C16_zero_tasks_no_callback 4 4 4 1 (by decide) (by decide) (by decide)⟩

/-! ### C17: when the under-subscribed branch is taken -/

/-- With fewer tasks than lane slots a single core participates. -/

theorem nc_of_small (NC NW NT T : Int) (hNC : 1 ≤ NC) (hT : T < NW * NT) :
    nc_of NC NW NT T = 1 := by
  have hcond : ¬ T > NW * NT := by omega
  unfold nc_of MIN
  simp only [if_neg hcond]
  split <;> omega

/-- With at least as many tasks as lane slots every participating core gets a full load. -/

theorem nc_of_mul_le (NC NW NT T : Int) (hNW : 1 ≤ NW) (hNT : 1 ≤ NT)
    (hT : NW * NT ≤ T) : nc_of NC NW NT T * (NW * NT) ≤ T := by
  have hWT : 1 ≤ NW * NT := by nlinarith
  unfold nc_of MIN
  by_cases h : T > NW * NT
  · simp only [if_pos h]
    rw [Int.tdiv_eq_ediv (by omega) (by omega)]
    have hm := Int.emod_add_ediv T (NW * NT)
    have hm0 := Int.emod_nonneg T (b := NW * NT) (by omega)
    have hq : T / (NW * NT) * (NW * NT) ≤ T := by linarith
    split
    · exact hq
    · rename_i hlt
      have : NC * (NW * NT) ≤ T / (NW * NT) * (NW * NT) :=
        mul_le_mul_of_nonneg_right (by omega) (by omega)
      omega
  · simp only [if_neg h]
    split
    · omega
    · rename_i hlt
      have : NC * (NW * NT) ≤ 1 * (NW * NT) := mul_le_mul_of_nonneg_right (by omega) (by omega)
      omega

theorem locals_share_ge_quotient (NC NW NT c T : Int) (hT : 1 ≤ T) (hNC : 1 ≤ NC)
    (hNW : 1 ≤ NW) (hNT : 1 ≤ NT) :
    T / nc_of NC NW NT T ≤ (vx_spawn_tasks_locals NC NW NT c T).tasks_per_core_n1 := by
  obtain ⟨hn1, -, -⟩ := nc_of_bounds NC NW NT T hT hNC hNW hNT
  rw [(locals_share_offset NC NW NT c T hT hNC hNW hNT).2]
  have hm := Int.emod_add_ediv T (nc_of NC NW NT T)
  have hm0 := Int.emod_nonneg T (b := nc_of NC NW NT T) (by omega)
  split
  · linarith
  · exact le_refl _

/-- C17: for every `T ≥ 1` and topology `NC, NW, NT ≥ 1`, every core has `TW < NW` (the branch
`fW = 1`, `rW = 0`, fewer than `NW` waves used) if and only if `T < NW*NT`; in that case a
single core participates; and whenever `T ≥ NW*NT` the share of every core is at least `NW*NT`
and all `NW` waves are requested. -/

theorem C17_under_subscribed_iff (NC NW NT c T : Int) (hT : 1 ≤ T) (hNC : 1 ≤ NC)
    (hNW : 1 ≤ NW) (hNT : 1 ≤ NT) :
    ((vx_spawn_tasks_locals NC NW NT c T).TW < NW ↔ T < NW * NT)
    ∧ (T < NW * NT →
        (vx_spawn_tasks_locals NC NW NT c T).nc = 1
        ∧ (vx_spawn_tasks_locals NC NW NT c T).fW = 1
        ∧ (vx_spawn_tasks_locals NC NW NT c T).rW = 0
        ∧ MIN (vx_spawn_tasks_locals NC NW NT c T).TW NW
            = (vx_spawn_tasks_locals NC NW NT c T).TW)
    ∧ (NW * NT ≤ T →
        NW * NT ≤ (vx_spawn_tasks_locals NC NW NT c T).tasks_per_core_n1
        ∧ NW ≤ (vx_spawn_tasks_locals NC NW NT c T).TW
        ∧ MIN (vx_spawn_tasks_locals NC NW NT c T).TW NW = NW) := by
  obtain ⟨hn1, -, -⟩ := nc_of_bounds NC NW NT T hT hNC hNW hNT
  obtain ⟨-, -, hs1, hs2⟩ := locals_share_bounds NC NW NT c T hT hNC hNW hNT
  obtain ⟨hTWd, -, -, -, -, -, -, -, hfW, hrW, -, -, -⟩ :=
    locals_dist_facts NC NW NT c T hNW hNT (by omega)
  have hsmall : T < NW * NT → (vx_spawn_tasks_locals NC NW NT c T).TW < NW := by
    intro h
    rw [hTWd]
    exact Int.ediv_lt_of_lt_mul (by omega) (by omega)
  have hbig : NW * NT ≤ T →
      NW * NT ≤ (vx_spawn_tasks_locals NC NW NT c T).tasks_per_core_n1
      ∧ NW ≤ (vx_spawn_tasks_locals NC NW NT c T).TW := by
    intro h
    have h1 := nc_of_mul_le NC NW NT T hNW hNT h
    have h2 : NW * NT ≤ T / nc_of NC NW NT T :=
      Int.le_ediv_of_mul_le (by omega) (by linarith)
    have h3 := locals_share_ge_quotient NC NW NT c T hT hNC hNW hNT
    refine ⟨by omega, ?_⟩
    rw [hTWd]
    exact Int.le_ediv_of_mul_le (by omega) (by omega)
  refine ⟨⟨fun h => ?_, hsmall⟩, fun h => ?_, fun h => ?_⟩
  · by_contra hge
    have := (hbig (by omega)).2
    omega
  · have hTW := hsmall h
    refine ⟨nc_of_small NC NW NT T hNC h, ?_, ?_, ?_⟩
    · rw [hfW, if_neg (by omega)]
    · rw [hrW, if_neg (by omega)]
    · unfold MIN; rw [if_pos hTW]
  · obtain ⟨h1, h2⟩ := hbig h
    refine ⟨h1, h2, ?_⟩
    unfold MIN; rw [if_neg (by omega)]

/-- C17, witness: `T = 10` on `NC = NW = NT = 4` is under-subscribed (`10 < 16`, `TW = 2 < 4`);
`T = 100` on `NC = NW = NT = 2` is not (`TW = 25 ≥ 2` on both cores). -/

theorem C17_under_subscribed_iff_witness :
    ((1 : Int) ≤ 10 ∧ (1 : Int) ≤ 4)
    ∧ (((vx_spawn_tasks_locals 4 4 4 0 10).TW < 4 ↔ (10 : Int) < 4 * 4)
      ∧ ((10 : Int) < 4 * 4 →
          (vx_spawn_tasks_locals 4 4 4 0 10).nc = 1
          ∧ (vx_spawn_tasks_locals 4 4 4 0 10).fW = 1
          ∧ (vx_spawn_tasks_locals 4 4 4 0 10).rW = 0
          ∧ MIN (vx_spawn_tasks_locals 4 4 4 0 10).TW 4
              = (vx_spawn_tasks_locals 4 4 4 0 10).TW)
      ∧ ((4 : Int) * 4 ≤ 10 →
          (4 : Int) * 4 ≤ (vx_spawn_tasks_locals 4 4 4 0 10).tasks_per_core_n1
          ∧ 4 ≤ (vx_spawn_tasks_locals 4 4 4 0 10).TW
          ∧ MIN (vx_spawn_tasks_locals 4 4 4 0 10).TW 4 = 4))
    ∧ ((vx_spawn_tasks_locals 4 4 4 0 10).TW = 2
      ∧ (vx_spawn_tasks_locals 2 2 2 0 100).TW = 25
      ∧ (vx_spawn_tasks_locals 2 2 2 1 100).TW = 25
      ∧ (vx_spawn_tasks_locals 2 2 2 1 100).tasks_per_core_n1 = 50) :=
  ⟨by decide, C17_under_subscribed_iff 4 4 4 0 10 (by decide) (by decide) (by decide)
    (by decide), by decide⟩

/-! ### C18: the grid dispatch partitions like the flat dispatch -/

theorem spawn_ops_map {D E : Type} (f : D → E) (d : D) (NW TW rT : Int) :
    (spawn_ops d NW TW rT).map (Op.map_desc f) = spawn_ops (f d) NW TW rT := by
  unfold spawn_ops
  by_cases h1 : TW ≥ 1 <;> by_cases h2 : rT ≠ 0
  all_goals
    simp only [h1, h2, if_true, if_false, not_true_eq_false, not_false_eq_true, ne_eq]
    rfl

theorem vx_spawn_pocl_kernel_ops (ctx : pocl_kernel_context_t) (NC NW NT c : Int) :
    (vx_spawn_pocl_kernel ctx NC NW NT c).map (Op.map_desc flat_args)
      = vx_spawn_tasks NC NW NT c (ctx.num_groups0 * ctx.num_groups1 * ctx.num_groups2) := by
  by_cases h : c < nc_of NC NW NT (ctx.num_groups0 * ctx.num_groups1 * ctx.num_groups2)
      ∧ c < NUM_CORES_MAX
  · rw [vx_spawn_pocl_kernel_active ctx NC NW NT c h.1 h.2,
      vx_spawn_tasks_active NC NW NT _ c h.1 h.2, spawn_ops_map]
    rfl
  · have hidle : vx_spawn_pocl_kernel ctx NC NW NT c = []
        ∧ vx_spawn_tasks NC NW NT c
            (ctx.num_groups0 * ctx.num_groups1 * ctx.num_groups2) = [] := by
      by_cases h1 : c < nc_of NC NW NT (ctx.num_groups0 * ctx.num_groups1 * ctx.num_groups2)
      · have h2 : c ≥ NUM_CORES_MAX := by
          have := fun h2 => h ⟨h1, h2⟩
          omega
        constructor
        · unfold vx_spawn_pocl_kernel; simp only [if_pos h2]
        · unfold vx_spawn_tasks; simp only [if_pos h2]
      · exact ⟨vx_spawn_pocl_kernel_idle ctx NC NW NT c (by omega),
          vx_spawn_tasks_idle NC NW NT _ c (by omega)⟩
    rw [hidle.1, hidle.2]
    rfl

/-- C18: for every grid `X, Y, Z` and topology, on every core the local variables computed by
`vx_spawn_pocl_kernel` (among them `offset`, `remain`, `fW`, `rW`, `TW`, `rT`) equal those
computed by `vx_spawn_tasks` called with `num_tasks = X*Y*Z`; the operations issued are the
same up to the descriptor, whose members `offset`, `remain`, `FWs`, `RWs` agree (same number of
waves requested, same remainder lane mask); and the calls of the grid stubs are the images,
under the decomposition of the work-group identifier, of the `task_id` values of the flat stubs:
the grid stubs visit as `wg_id` exactly the `task_id` values the flat stubs visit. -/

theorem C18_grid_partitions_like_flat (ctx : pocl_kernel_context_t) (NC NW NT c : Int)
    (fuel : Nat) :
    vx_spawn_pocl_kernel_locals ctx NC NW NT c
        = vx_spawn_tasks_locals NC NW NT c
            (ctx.num_groups0 * ctx.num_groups1 * ctx.num_groups2)
    ∧ (vx_spawn_pocl_kernel ctx NC NW NT c).map (Op.map_desc flat_args)
        = vx_spawn_tasks NC NW NT c (ctx.num_groups0 * ctx.num_groups1 * ctx.num_groups2)
    ∧ (∀ (wid tid : Int) (d : wspawn_pocl_kernel_args_t),
        spawn_pocl_kernel_all_stub fuel NT wid tid d
          = (spawn_tasks_all_stub fuel NT wid tid (flat_args d)).map (List.map (stub_body d)))
    ∧ (∀ (tid : Int) (d : wspawn_pocl_kernel_args_t),
        spawn_pocl_kernel_rem_stub tid d
          = (spawn_tasks_rem_stub tid (flat_args d)).map (stub_body d))
    ∧ dispatch_grid_core fuel ctx NC NW NT c
        = (dispatch_flat_core fuel NC NW NT
            (ctx.num_groups0 * ctx.num_groups1 * ctx.num_groups2) c).map
            (List.map (grid_body ctx))
    ∧ dispatch_grid fuel ctx NC NW NT
        = (dispatch_flat fuel NC NW NT
            (ctx.num_groups0 * ctx.num_groups1 * ctx.num_groups2)).map
            (List.map (grid_body ctx))
    ∧ (∀ wg_id : Int, (grid_body ctx wg_id).local_offset
        = wg_id * (ctx.local_size0 * ctx.local_size1 * ctx.local_size2)) :=
  ⟨rfl, vx_spawn_pocl_kernel_ops ctx NC NW NT c,
    fun wid tid d => all_stub_eq_map fuel NT wid tid d,
    fun tid d => rem_stub_eq_body tid d,
    dispatch_grid_core_eq fuel ctx NC NW NT c, dispatch_grid_eq fuel ctx NC NW NT,
    fun wg_id => stub_body_local_offset _ wg_id⟩

/-! ### C19: the bulk loop terminates after `tK` iterations -/

end Vortex
